import Mathlib

/-!
# Static stateful LLM pipeline (`llm_pipeline_static.cpp`)

A shallow embedding of the configuration plumbing, the static reshaping, the
graph rewrites and the generation loop of `llm_pipeline_static.cpp`, together
with theorems about them.

Conventions of the embedding:

* `ov::AnyMap` (a `std::map<std::string, ov::Any>`) is an association list;
  `find` returns the first entry of a key, and a list that stands for a real
  map has pairwise distinct keys (`AnyMap.WF`).
* C++ exceptions (`OPENVINO_THROW`, `OPENVINO_ASSERT`) are `Except.error`.
* `uint32_t` values are natural numbers reduced modulo `2 ^ 32` wherever the
  source computes with them.
-/

namespace StaticLLM

/-! ## Run-time typed configuration values -/

/-- The payload of an `ov::Any`, restricted to the C++ types that the pipeline
stores in or reads from a configuration map.  `int` is the 32-bit `int`,
`int64` is `int64_t`, `uint32` is `uint32_t`, `size_t` is `std::size_t`. -/
inductive Any where
  | empty
  | str (s : String)
  | bool (b : Bool)
  | int (v : Int)
  | int64 (v : Int)
  | uint32 (v : Nat)
  | size_t (v : Nat)
  | other (type_name : String)
  deriving DecidableEq, Repr

/-- The value is representable in the C++ type it is tagged with. -/
def Any.WF : Any → Prop
  | .int v => -(2 : Int) ^ 31 ≤ v ∧ v < (2 : Int) ^ 31
  | .int64 v => -(2 : Int) ^ 63 ≤ v ∧ v < (2 : Int) ^ 63
  | .uint32 v => v < 2 ^ 32
  | .size_t v => v < 2 ^ 64
  | _ => True

/-- Exceptions raised by the modelled code, one constructor per throw site. -/
inductive Exception where
  /-- `pop_int_and_cast`: "Type mismatch: expected types: int or int64_t". -/
  | type_mismatch (key : String)
  /-- `pop_int_and_cast`: "<key> cannot be negative!". -/
  | negative (key : String)
  /-- `generate`: "Currently only batch size=1 is supported". -/
  | batch_size
  /-- `GenerationConfig::validate` rejected the configuration. -/
  | invalid_generation_config
  /-- `generate`: "Currently only greedy and multinomial decoding are supported". -/
  | unsupported_decoding
  /-- `generate`: "Currently only "num_return_sequences" equal to 1 is supported!". -/
  | num_return_sequences
  /-- `generate`: "Static Stateful LLM pipeline may only process prompts up to ...". -/
  | prompt_too_long (max_prompt_len : Nat)
  /-- `PartialShape::operator[]` with an index past the rank. -/
  | out_of_range
  /-- `make_tensor_slice`: the region of interest does not fit the tensor. -/
  | bad_slice
  /-- `std::vector` constructor asked for more than `max_size()` elements. -/
  | length_error
  /-- `OPENVINO_ASSERT(shape.size() == 4u)` in `TransposeValueTensors`. -/
  | rank_assert
  /-- `OPENVINO_ASSERT(get_finished_sequences().size() == 1u)` after the loop. -/
  | finished_assert
  /-- `ov::Any::as<T>()` on a value that does not convert to `T`. -/
  | bad_any_cast
  /-- `get_output_shape` on a shape with a dynamic dimension. -/
  | dynamic_shape
  /-- `get_any_name` on a tensor without names. -/
  | no_tensor_name
  /-- A node that is not an `ov::op::v0::Parameter` where one is required. -/
  | not_a_parameter
  /-- `Model::add_parameters` on a parameter that the model holds already. -/
  | parameter_already_added
  deriving DecidableEq, Repr

deriving instance DecidableEq for Except

/-! ## `ov::AnyMap` -/

/-- An `ov::AnyMap`, as the list of its entries. -/
abbrev AnyMap := List (String × Any)

namespace AnyMap

/-- The keys of the map, in entry order. -/
def keys (config : AnyMap) : List String := config.map Prod.fst

/-- A list that stands for a `std::map`: no key occurs twice. -/
def WF (config : AnyMap) : Prop := (keys config).Nodup

/-- `config.find(k)`: the value stored under `k`, if any. -/
def find (config : AnyMap) (k : String) : Option Any := List.lookup k config

/-- `config.count(k)`: `1` when the key is present, else `0`. -/
def count (config : AnyMap) (k : String) : Nat :=
  if (find config k).isSome then 1 else 0

/-- `config.erase(k)`. -/
def erase (config : AnyMap) (k : String) : AnyMap :=
  config.filter (fun kv => kv.1 != k)

/-- `config.emplace(k, v)` / `config.insert({k, v})`: adds the entry unless the
key is already present, in which case the map is left as it is. -/
def emplace (config : AnyMap) (k : String) (v : Any) : AnyMap :=
  if (find config k).isSome then config else config ++ [(k, v)]

/-- Overwrites the value of the first entry of `k` (`it->second = v`). -/
def assign : AnyMap → String → Any → AnyMap
  | [], _, _ => []
  | (k', v') :: rest, k, v =>
    if k' == k then (k', v) :: rest else (k', v') :: assign rest k v

/-- `config[k] = v`: overwrite when present, insert otherwise. -/
def set (config : AnyMap) (k : String) (v : Any) : AnyMap :=
  if (find config k).isSome then assign config k v else config ++ [(k, v)]

end AnyMap

/-- `pop_option`: returns the value of `option_name`, erasing the entry; an
absent key yields `std::nullopt` and leaves the map as it is. -/
def pop_option (config : AnyMap) (option_name : String) : Option Any × AnyMap :=
  match AnyMap.find config option_name with
  | some v => (some v, AnyMap.erase config option_name)
  | none => (none, config)

/-- `static_cast<uint32_t>` of a non-negative `int64_t`. -/
def cast_uint32 (value : Int) : Nat := value.toNat % 2 ^ 32

/-- `pop_int_and_cast`: pops `key`; a present value must hold an `int64_t` or
an `int` and must not be negative.  Returns the value cast to `uint32_t`
together with the map after the pop. -/
def pop_int_and_cast (config : AnyMap) (key : String) :
    Except Exception (Option Nat × AnyMap) :=
  match pop_option config key with
  | (some any, config') =>
    match any with
    | .int64 value =>
      if value < 0 then .error (.negative key) else .ok (some (cast_uint32 value), config')
    | .int value =>
      if value < 0 then .error (.negative key) else .ok (some (cast_uint32 value), config')
    | _ => .error (.type_mismatch key)
  | (none, config') => .ok (none, config')

/-- `update_config`: inserts the pair only when the key is absent. -/
def update_config (config : AnyMap) (pair : String × Any) : AnyMap :=
  if AnyMap.count config pair.1 = 0 then AnyMap.emplace config pair.1 pair.2 else config

/-- `rename_key`: moves the value of `old_key`, when present, to `new_key`. -/
def rename_key (config : AnyMap) (old_key new_key : String) : AnyMap :=
  if AnyMap.count config old_key ≠ 0 then
    match pop_option config old_key with
    | (some v, config') => AnyMap.set config' new_key v
    | (none, config') => config'
  else config

/-- One step of the loop of `merge_config_with`. -/
def merge_entry (lhs : AnyMap) (kv : String × Any) : AnyMap :=
  match AnyMap.find lhs kv.1 with
  | some _ => AnyMap.assign lhs kv.1 kv.2
  | none => AnyMap.emplace lhs kv.1 kv.2

/-- `merge_config_with(lhs, rhs)`: the new value of `lhs`.  `rhs` is taken by
const reference and is only read. -/
def merge_config_with (lhs rhs : AnyMap) : AnyMap :=
  rhs.foldl merge_entry lhs

/-! ## Configuration derivation -/

/-- `NPUDesc`: what `extract_npu_descriptor` reads from the device. -/
structure NPUDesc where
  arch : String
  max_tiles : Int
  compiler_dq : Bool
  deriving DecidableEq, Repr

/-- `GenerateHint`. -/
inductive GenerateHint where
  | FAST_COMPILE
  | BEST_PERF
  deriving DecidableEq, Repr

/-- `ov::Dimension`: a static extent or a dynamic one. -/
inductive Dimension where
  | static (n : Nat)
  | dynamic
  deriving DecidableEq, Repr

/-- `ov::PartialShape` of static rank. -/
abbrev PartialShape := List Dimension

/-- An input port of the model: `get_any_name()` and `get_partial_shape()`. -/
structure ModelInput where
  any_name : String
  shape : PartialShape
  deriving DecidableEq, Repr

/-- The parts of an `ov::Model` that the configuration derivation and the
static reshaping read: the input ports and the integer entries of `rt_info`,
keyed by their path. -/
structure Model where
  inputs : List ModelInput
  rt_info : List (List String × Int)
  deriving DecidableEq, Repr

/-- `is_cw_compressed`: the model carries NNCF compression metadata whose
group size is `-1` (channel-wise compression). -/
def is_cw_compressed (model : Model) : Bool :=
  let rt_info_path := ["nncf", "weight_compression", "group_size"]
  match List.lookup rt_info_path model.rt_info with
  | none => false
  | some group_size => if group_size = -1 then true else false

/-- `isspace` of the C locale. -/
def isspace (c : Char) : Bool :=
  c = ' ' || c = '\t' || c = '\n' || c = '\r' || c.toNat = 11 || c.toNat = 12

/-- Digit accumulation of `strtol`: the value of the leading decimal digits. -/
def atoi_digits : List Char → Int → Int
  | [], acc => acc
  | c :: cs, acc =>
    if c.isDigit then atoi_digits cs (acc * 10 + ((c.toNat : Int) - 48)) else acc

/-- `strtol(s, nullptr, 10)` of the C library: leading white space is skipped,
an optional sign is read, then decimal digits up to the first other character;
a value outside the range of `long` (64 bits) becomes `LONG_MAX` or
`LONG_MIN`. -/
def strtol (s : String) : Int :=
  let value :=
    match s.data.dropWhile isspace with
    | '-' :: rest => - atoi_digits rest 0
    | '+' :: rest => atoi_digits rest 0
    | rest => atoi_digits rest 0
  if value > 2 ^ 63 - 1 then 2 ^ 63 - 1
  else if value < -(2 ^ 63) then -(2 ^ 63)
  else value

/-- `std::atoi`, which the C library defines as `(int) strtol(s, nullptr, 10)`:
the value of `strtol` cut to the 32 bits of an `int`, so `"4294967297"` gives
`1`. -/
def atoi (s : String) : Int :=
  (strtol s + 2 ^ 31) % 2 ^ 32 - 2 ^ 31

/-- `get_baseline_common_config`. -/
def get_baseline_common_config (npudesc : Option NPUDesc) : AnyMap :=
  let config : AnyMap := [
    ("NPU_COMPILATION_MODE_PARAMS",
      .str "compute-layers-with-higher-precision=Sqrt,Power,ReduceMean,Add_RMSNorm"),
    ("NPUW_DEVICES", .str "NPU"),
    ("NPU_USE_NPUW", .str "YES"),
    ("NPUW_FOLD", .str "YES"),
    ("NPUW_DCOFF_TYPE", .str "f16"),
    ("NPUW_DCOFF_SCALE", .str "YES"),
    ("NPUW_WEIGHTS_BANK", .str "shared"),
    ("NPUW_SLICE_OUT", .str "YES"),
    ("NPUW_FUNCALL_ASYNC", .str "YES")]
  match npudesc with
  | some desc =>
    if desc.compiler_dq then
      let config := AnyMap.emplace config "NPUW_DQ" (.str "YES")
      let config := AnyMap.emplace config "NPUW_DQ_FULL" (.str "NO")
      let config := AnyMap.emplace config "NPU_COMPILER_DYNAMIC_QUANTIZATION" (.str "YES")
      let config := AnyMap.erase config "NPUW_DCOFF_TYPE"
      AnyMap.erase config "NPUW_DCOFF_SCALE"
    else config
  | none => config

/-- `get_default_common_config`.  `npu_l0` is what
`std::getenv("DISABLE_OPENVINO_GENAI_NPU_L0")` returns (`none` for a null
pointer).  The model argument is accepted and not read, as in the source. -/
def get_default_common_config (_model : Model) (npudesc : Option NPUDesc)
    (npu_l0 : Option String) : AnyMap :=
  let config := get_baseline_common_config npudesc
  match npu_l0 with
  | some value =>
    if atoi value = 1 then AnyMap.emplace config "NPUW_WEIGHTS_BANK_ALLOC" (.str "CPU")
    else AnyMap.emplace config "NPUW_FUNCALL_FOR_ALL" (.str "YES")
  | none => AnyMap.emplace config "NPUW_FUNCALL_FOR_ALL" (.str "YES")

/-- `npudesc.has_value() && npudesc->compiler_dq`. -/
def has_compiler_dq (npudesc : Option NPUDesc) : Bool :=
  match npudesc with
  | some desc => desc.compiler_dq
  | none => false

/-- `get_default_prefill_config`. -/
def get_default_prefill_config (model : Model) (npudesc : Option NPUDesc)
    (npu_l0 : Option String) : AnyMap :=
  let config := get_default_common_config model npudesc npu_l0
  let config :=
    match npudesc with
    | some desc =>
      if desc.arch = "4000" ∧ desc.max_tiles ≠ -1 then
        AnyMap.emplace config "NPU_DPU_GROUPS" (.int64 desc.max_tiles)
      else config
    | none => config
  if !has_compiler_dq npudesc then
    if is_cw_compressed model then AnyMap.emplace config "NPUW_DQ" (.str "YES")
    else AnyMap.emplace config "NPUW_PMM" (.str "NO")
  else config

/-- `get_default_generate_config`. -/
def get_default_generate_config (model : Model) (npudesc : Option NPUDesc)
    (hint : GenerateHint) (npu_l0 : Option String) : AnyMap :=
  let config := get_default_common_config model npudesc npu_l0
  let config :=
    if hint = .BEST_PERF then AnyMap.emplace config "NPUW_ONLINE_PIPELINE" (.str "NONE")
    else config
  let config :=
    match npudesc with
    | some desc =>
      if desc.arch = "4000" then AnyMap.emplace config "NPU_DPU_GROUPS" (.int 4) else config
    | none => config
  let config :=
    if hint = .FAST_COMPILE then AnyMap.emplace config "NPUW_UNFOLD_IREQS" (.str "YES")
    else config
  if !has_compiler_dq npudesc then AnyMap.emplace config "NPUW_DQ" (.str "YES")
  else config

/-! ## Static reshaping -/

/-- `KVAxesPosition`: the positions of the batch and the sequence-length axes
of the cache tensors (both `uint32_t`). -/
structure KVAxesPosition where
  batch : Nat
  seq_len : Nat
  deriving DecidableEq, Repr

/-- `shape[i] = d` on an `ov::PartialShape`: an index past the rank throws. -/
def set_dimension (shape : PartialShape) (i : Nat) (d : Dimension) :
    Except Exception PartialShape :=
  if i < shape.length then .ok (shape.set i d) else .error .out_of_range

/-- `name.find(pattern) != std::string::npos`. -/
def contains (name pattern : String) : Bool :=
  decide (pattern.data <:+: name.data)

/-- `kvcache_size - input_size` in `uint32_t` arithmetic. -/
def sub_uint32 (a b : Nat) : Nat := (a + 2 ^ 32 - b % 2 ^ 32) % 2 ^ 32

/-- The body of the loop of `reshape_to_static`: the new shape of one input. -/
def new_shape_of (input : ModelInput) (input_size kvcache_size : Nat)
    (kv_axes_position : KVAxesPosition) : Except Exception PartialShape :=
  if contains input.any_name "input_ids" then
    .ok [.static 1, .static input_size]
  else if contains input.any_name "attention_mask" then
    .ok [.static 1, .static kvcache_size]
  else if contains input.any_name "position_ids" then
    .ok [.static 1, .static input_size]
  else do
    let new_shape ← set_dimension input.shape kv_axes_position.batch (.static 1)
    set_dimension new_shape kv_axes_position.seq_len
      (.static (sub_uint32 kvcache_size input_size))

/-- `new_shapes.emplace(name, shape)` on the `std::map` of new shapes. -/
def emplace_shape (new_shapes : List (String × PartialShape)) (name : String)
    (shape : PartialShape) : List (String × PartialShape) :=
  if (List.lookup name new_shapes).isSome then new_shapes else new_shapes ++ [(name, shape)]

/-- The loop of `reshape_to_static` over the remaining inputs. -/
def reshape_loop (input_size kvcache_size : Nat) (kv_axes_position : KVAxesPosition) :
    List ModelInput → List (String × PartialShape) →
    Except Exception (List (String × PartialShape))
  | [], new_shapes => .ok new_shapes
  | input :: rest, new_shapes => do
    let new_shape ← new_shape_of input input_size kvcache_size kv_axes_position
    reshape_loop input_size kvcache_size kv_axes_position rest
      (emplace_shape new_shapes input.any_name new_shape)

/-- `reshape_to_static`: the map of new shapes that is handed to
`model->reshape`. -/
def reshape_to_static (model : Model) (input_size kvcache_size : Nat)
    (kv_axes_position : KVAxesPosition) : Except Exception (List (String × PartialShape)) :=
  reshape_loop input_size kvcache_size kv_axes_position model.inputs []

/-! ## Graph nodes and the rewrite passes -/

/-- `ov::element::Type`, the members the passes mention. -/
inductive ElementType where
  | boolean
  | f16
  | f32
  | i32
  | i64
  | u4
  deriving DecidableEq, Repr

/-- A scalar of a constant or of an element-wise evaluation: a boolean, an
exactly representable number, or minus infinity. -/
inductive Scalar where
  | bool (b : Bool)
  | num (v : Int)
  | neg_inf
  deriving DecidableEq, Repr

/-- The operations the two matcher passes read or create, as an expression
tree over the producers of their inputs.  `Input` is a producer outside the
matched pattern (`any_input`, or an input of the attention node). -/
inductive Node where
  | Input (id : Nat) (element_type : ElementType)
  | Parameter (friendly_name : String) (names : List String)
      (element_type : ElementType) (shape : PartialShape)
  | Constant (element_type : ElementType) (shape : List Nat) (values : List Scalar)
  | ShapeOf (x : Node) (output_type : ElementType)
  | Gather (data indices axis : Node)
  | ConvertLike (x like : Node)
  | Sqrt (x : Node)
  | Divide (a b : Node)
  | Multiply (a b : Node)
  | Add (a b : Node)
  | Squeeze (x axes : Node)
  | Unsqueeze (x axes : Node)
  | Range (start stop step : Node) (output_type : ElementType)
  | MatMul (a b : Node) (transpose_a transpose_b : Bool)
  | LogicalNot (x : Node)
  | Select (cond then_ else_ : Node)
  | Broadcast (x target_shape : Node)
  | Concat (a b : Node) (axis : Int)
  | GreaterEqual (a b : Node)
  | Softmax (x : Node) (axis : Int)
  | Transpose (x order : Node)
  deriving DecidableEq, Repr

/-- `get_element_type()` of the first output of a node. -/
def Node.get_element_type : Node → ElementType
  | .Input _ et => et
  | .Parameter _ _ et _ => et
  | .Constant et _ _ => et
  | .ShapeOf _ ot => ot
  | .Gather data _ _ => data.get_element_type
  | .ConvertLike _ like => like.get_element_type
  | .Sqrt x => x.get_element_type
  | .Divide a _ => a.get_element_type
  | .Multiply a _ => a.get_element_type
  | .Add a _ => a.get_element_type
  | .Squeeze x _ => x.get_element_type
  | .Unsqueeze x _ => x.get_element_type
  | .Range _ _ _ ot => ot
  | .MatMul a _ _ _ => a.get_element_type
  | .LogicalNot _ => .boolean
  | .Select _ t _ => t.get_element_type
  | .Broadcast x _ => x.get_element_type
  | .Concat a _ _ => a.get_element_type
  | .GreaterEqual _ _ => .boolean
  | .Softmax x _ => x.get_element_type
  | .Transpose x _ => x.get_element_type

/-- An `ov::op::v13::ScaledDotProductAttention` node: its input values
(query, key, value, then optionally the mask and the scale) and its `causal`
attribute. -/
structure SDPA where
  inputs : List Node
  causal : Bool
  deriving DecidableEq, Repr

/-- `node->input_value(i)`. -/
def SDPA.input_value (node : SDPA) (i : Nat) : Node :=
  node.inputs.getD i (.Input 0 .f32)

/-- The scalar `i32` constant `v`. -/
def const_i32 (v : Int) : Node := .Constant .i32 [] [.num v]

/-- The mask that `decompose` adds to the scaled scores, when it adds one:
the body of `if (node->get_causal() || node->get_input_size() > 3)`. -/
def decompose_mask (node : SDPA) (scaled_atten minus_inf : Node) : Option Node :=
  let query := node.input_value 0
  let key := node.input_value 1
  let q_shape := Node.ShapeOf query .i32
  let k_shape := Node.ShapeOf key .i32
  let minus_two := const_i32 (-2)
  let zero_i := const_i32 0
  let one_i := const_i32 1
  let zero_f := Node.ConvertLike zero_i query
  if node.causal || decide (node.inputs.length > 3) then
    if !node.causal then
      let mask := node.input_value 3
      if mask.get_element_type = .boolean then
        let atten_mask := Node.ConvertLike mask scaled_atten
        let inv_mask := Node.LogicalNot mask
        some (Node.Select inv_mask atten_mask minus_inf)
      else
        some mask
    else
      let target_s_len := Node.Gather q_shape minus_two zero_i
      let source_s_len := Node.Gather k_shape minus_two zero_i
      let ssl := Node.Unsqueeze source_s_len zero_i
      let tsl := Node.Unsqueeze target_s_len zero_i
      let mask_shape := Node.Concat tsl ssl 0
      let mask := Node.Broadcast minus_inf mask_shape
      let horizontal_range := Node.Range zero_i source_s_len one_i .i32
      let horizontal_range := Node.Unsqueeze horizontal_range zero_i
      let stop := Node.Add target_s_len one_i
      let vertical_range := Node.Range one_i stop one_i .i32
      let vertical_range := Node.Unsqueeze vertical_range one_i
      let triu := Node.GreaterEqual horizontal_range vertical_range
      some (Node.Select triu mask zero_f)
  else none

/-- The scores before the mask is added: `MatMul(q_scaled, key, false, true)`. -/
def decompose_scores (node : SDPA) : Node :=
  let query := node.input_value 0
  let key := node.input_value 1
  let q_shape := Node.ShapeOf query .i32
  let minus_one := const_i32 (-1)
  let zero_i := const_i32 0
  let one_i := const_i32 1
  let one_f := Node.ConvertLike one_i query
  let scale :=
    if node.inputs.length < 5 then
      let scale := Node.Gather q_shape minus_one zero_i
      let scale := Node.ConvertLike scale query
      let sqrt_scale := Node.Sqrt scale
      Node.Divide one_f sqrt_scale
    else node.input_value 4
  let q_scaled := Node.Multiply query scale
  Node.MatMul q_scaled key false true

/-- The `minus_inf` constant of `decompose`, converted like the scores. -/
def decompose_minus_inf (node : SDPA) : Node :=
  Node.ConvertLike (.Constant .f32 [] [.neg_inf]) (decompose_scores node)

/-- `ScaledDotProductAttentionDecomposition::decompose`: the node that replaces
the attention node.  The nodes that the source registers without connecting
them to the result (`k_rank`, `k_last_dim`, `k_next_dim`, `keep_dim_last`,
`k_dims_before_transpose`) and the friendly name are left out. -/
def decompose (node : SDPA) : Node :=
  let value := node.input_value 2
  let scaled_atten := decompose_scores node
  let minus_inf := decompose_minus_inf node
  let scaled_atten :=
    match decompose_mask node scaled_atten minus_inf with
    | some atten_mask => Node.Add scaled_atten atten_mask
    | none => scaled_atten
  let scaled_atten := Node.Softmax scaled_atten (-1)
  Node.MatMul scaled_atten value false false

/-- The operand that `decompose` adds to the scores before the softmax: the
second input of the `Add` that feeds the `Softmax`, if there is one. -/
def added_term : Node → Option Node
  | .MatMul (.Softmax (.Add _ term) _) _ _ _ => some term
  | _ => none

/-- `ConvertLike` on one element: the value converted to the element type of
the `like` operand.  A boolean becomes `1` or `0` in a numeric type; a number
becomes `true` in `boolean` exactly when it is not zero. -/
def convert_scalar (v : Scalar) (target : ElementType) : Scalar :=
  match v, target with
  | .bool b, .boolean => .bool b
  | .bool b, _ => .num (if b then 1 else 0)
  | .num n, .boolean => .bool (decide (n ≠ 0))
  | v, _ => v

/-- Element-wise evaluation at one position of the attention scores, for the
element-wise operations of the boolean-mask branch.  `input id` is the element
that the producer `Input id` holds at that position; a scalar constant
broadcasts to every position.  Other operations are not element-wise and
yield `none`. -/
def eval_elem (input : Nat → Scalar) : Node → Option Scalar
  | .Input id _ => some (input id)
  | .Constant _ [] [v] => some v
  | .ConvertLike x like =>
    match eval_elem input x with
    | some v => some (convert_scalar v like.get_element_type)
    | none => none
  | .LogicalNot x =>
    match eval_elem input x with
    | some (.bool b) => some (.bool (!b))
    | _ => none
  | .Select cond then_ else_ =>
    match eval_elem input cond with
    | some (.bool true) => eval_elem input then_
    | some (.bool false) => eval_elem input else_
    | _ => none
  | _ => none

/-- `TransposeValueTensors::Context`. -/
structure Context where
  new_params : List Node
  old_params : List Node
  deriving DecidableEq, Repr

/-- `std::swap(shape[2], shape[3])` on a shape of rank 4. -/
def swap_2_3 (shape : PartialShape) : PartialShape :=
  (shape.set 2 (shape.getD 3 .dynamic)).set 3 (shape.getD 2 .dynamic)

/-- The callback of `TransposeValueTensors` on the root of a candidate
subgraph.  `none` means that the pattern
`MatMul(Softmax(any), Concat(Parameter, Transpose(any, any)))` does not match;
otherwise the result is the rewritten subgraph and the updated context.  The
friendly names of the transpose and the concat, which the callback copies, are
not part of `Node`. -/
def TransposeValueTensors_callback (ctx : Context) :
    Node → Except Exception (Option (Node × Context))
  | .MatMul (.Softmax scores softmax_axis)
      (.Concat (.Parameter friendly_name names element_type shape) (.Transpose x _order) _axis)
      transpose_a _transpose_b =>
    if shape.length ≠ 4 then .error .rank_assert
    else
      let matched_param := Node.Parameter friendly_name names element_type shape
      let new_param := Node.Parameter friendly_name names element_type (swap_2_3 shape)
      let ctx := { new_params := ctx.new_params ++ [new_param],
                   old_params := ctx.old_params ++ [matched_param] : Context }
      let order_cst := Node.Constant .i32 [4] [.num 0, .num 2, .num 3, .num 1]
      let new_transpose := Node.Transpose x order_cst
      let new_concat := Node.Concat new_param new_transpose 3
      .ok (some (.MatMul (.Softmax scores softmax_axis) new_concat transpose_a true, ctx))
  | _ => .ok none

/-! ## Tensor semantics of the rewritten subgraph -/

/-- A tensor: its shape and its element at every index. -/
structure Tensor (α : Type) where
  shape : List Nat
  data : List Nat → α

/-- `Transpose`: `out.shape[d] = in.shape[order[d]]` and
`out[i] = in[j]` with `j[order[d]] = i[d]`. -/
def Tensor.transpose {α : Type} (t : Tensor α) (order : List Nat) : Tensor α where
  shape := order.map (fun a => t.shape.getD a 0)
  data := fun idx =>
    t.data ((List.range t.shape.length).map (fun j => idx.getD (order.indexOf j) 0))

/-- `Concat` of two tensors along `axis`. -/
def Tensor.concat {α : Type} (a b : Tensor α) (axis : Nat) : Tensor α where
  shape := a.shape.set axis (a.shape.getD axis 0 + b.shape.getD axis 0)
  data := fun idx =>
    let i := idx.getD axis 0
    if i < a.shape.getD axis 0 then a.data idx
    else b.data (idx.set axis (i - a.shape.getD axis 0))

/-- The index of a matrix element inside a batched matrix operand. -/
def matrix_index (batch : List Nat) (row col : Nat) (transposed : Bool) : List Nat :=
  if transposed then batch ++ [col, row] else batch ++ [row, col]

/-- `MatMul` over the last two axes, the leading axes being batch axes taken
from the index; the sum runs over the inner extent of the first operand, in
increasing order. -/
def Tensor.matmul {α : Type} [Zero α] [Add α] [Mul α] (a b : Tensor α)
    (transpose_a transpose_b : Bool) : Tensor α where
  shape :=
    let ra := a.shape.length
    let rb := b.shape.length
    let m := if transpose_a then a.shape.getD (ra - 1) 0 else a.shape.getD (ra - 2) 0
    let n := if transpose_b then b.shape.getD (rb - 2) 0 else b.shape.getD (rb - 1) 0
    a.shape.take (ra - 2) ++ [m, n]
  data := fun idx =>
    let ra := a.shape.length
    let inner := if transpose_a then a.shape.getD (ra - 2) 0 else a.shape.getD (ra - 1) 0
    let batch := idx.take (idx.length - 2)
    let row := idx.getD (idx.length - 2) 0
    let col := idx.getD (idx.length - 1) 0
    (List.range inner).foldl
      (fun acc k =>
        acc + a.data (matrix_index batch row k transpose_a)
            * b.data (matrix_index batch k col transpose_b)) 0

/-- A possibly negative axis, counted from the end as OpenVINO does. -/
def normalize_axis (axis : Int) (rank : Nat) : Nat :=
  if axis < 0 then (axis + rank).toNat else axis.toNat

/-- The values of a constant axis order. -/
def order_values : Node → Option (List Nat)
  | .Constant _ _ values =>
    values.mapM (fun v => match v with
      | .num n => if 0 ≤ n then some n.toNat else none
      | _ => none)
  | _ => none

/-- What a subgraph is evaluated against: the tensor bound to each parameter
(by friendly name), the value of each outside producer, and the softmax
operation, which is kept uninterpreted. -/
structure Env (α : Type) where
  param : String → Tensor α
  input : Nat → Tensor α
  softmax : Tensor α → Int → Tensor α

/-- The value of a subgraph built from the operations of the
`TransposeValueTensors` pattern; other operations yield `none`. -/
def eval_subgraph {α : Type} [Zero α] [Add α] [Mul α] (env : Env α) : Node → Option (Tensor α)
  | .Input id _ => some (env.input id)
  | .Parameter friendly_name _ _ _ => some (env.param friendly_name)
  | .Transpose x order =>
    match eval_subgraph env x, order_values order with
    | some t, some o => some (t.transpose o)
    | _, _ => none
  | .Concat a b axis =>
    match eval_subgraph env a, eval_subgraph env b with
    | some ta, some tb => some (ta.concat tb (normalize_axis axis ta.shape.length))
    | _, _ => none
  | .Softmax x axis =>
    match eval_subgraph env x with
    | some t => some (env.softmax t axis)
    | none => none
  | .MatMul a b transpose_a transpose_b =>
    match eval_subgraph env a, eval_subgraph env b with
    | some ta, some tb => some (ta.matmul tb transpose_a transpose_b)
    | _, _ => none
  | _ => none

/-- The cache value in the new layout: the last two axes of a rank-4 tensor
exchanged. -/
def transpose_last_two {α : Type} (t : Tensor α) : Tensor α :=
  t.transpose [0, 1, 3, 2]

/-- The environment of the rewritten subgraph: the cache parameter
`friendly_name` is fed the original cache value in the new layout. -/
def Env.with_transposed {α : Type} (env : Env α) (friendly_name : String) : Env α :=
  { env with param := fun n =>
      if n = friendly_name then transpose_last_two (env.param n) else env.param n }

/-! ## The stateful pipeline: setup -/

/-- The capacity members of `StatefulLLMPipeline` (both `uint32_t`). -/
structure StatefulLLMPipeline where
  m_max_prompt_len : Nat
  m_kvcache_total : Nat
  deriving DecidableEq, Repr

/-- `a + b` in `uint32_t` arithmetic. -/
def add_uint32 (a b : Nat) : Nat := (a + b) % 2 ^ 32

/-- `StatefulLLMPipeline::updateStatefulConfig`: the capacity members it sets
and the pipeline configuration it leaves.  `kv_pos` is the
`ov::genai::utils::KVAxesPosition` of the model. -/
def updateStatefulConfig (pipeline_config : AnyMap) (kv_pos : KVAxesPosition) :
    Except Exception (StatefulLLMPipeline × AnyMap) := do
  let (max_prompt_len, pipeline_config) ← pop_int_and_cast pipeline_config "MAX_PROMPT_LEN"
  let kMaxPromptLen := max_prompt_len.getD 1024
  let (min_response_len, pipeline_config) ← pop_int_and_cast pipeline_config "MIN_RESPONSE_LEN"
  let kMinResponseLen := min_response_len.getD 128
  let self : StatefulLLMPipeline :=
    { m_max_prompt_len := kMaxPromptLen
      m_kvcache_total := add_uint32 kMaxPromptLen kMinResponseLen }
  let pipeline_config := update_config pipeline_config ("NPU_USE_NPUW", .str "YES")
  let pipeline_config := update_config pipeline_config ("NPUW_LLM", .str "YES")
  let pipeline_config := update_config pipeline_config ("NPUW_LLM_BATCH_DIM", .size_t kv_pos.batch)
  let pipeline_config :=
    update_config pipeline_config ("NPUW_LLM_SEQ_LEN_DIM", .size_t kv_pos.seq_len)
  let pipeline_config :=
    update_config pipeline_config ("NPUW_LLM_MAX_PROMPT_LEN", .uint32 kMaxPromptLen)
  let pipeline_config :=
    update_config pipeline_config ("NPUW_LLM_MIN_RESPONSE_LEN", .uint32 kMinResponseLen)
  let pipeline_config := rename_key pipeline_config "++PREFILL_CONFIG" "++NPUW_LLM_PREFILL_CONFIG"
  let pipeline_config :=
    rename_key pipeline_config "++GENERATE_CONFIG" "++NPUW_LLM_GENERATE_CONFIG"
  let pipeline_config := rename_key pipeline_config "PREFILL_CONFIG" "NPUW_LLM_PREFILL_CONFIG"
  let pipeline_config := rename_key pipeline_config "GENERATE_CONFIG" "NPUW_LLM_GENERATE_CONFIG"
  let pipeline_config := rename_key pipeline_config "GENERATE_HINT" "NPUW_LLM_GENERATE_HINT"
  return (self, pipeline_config)

/-! ## The stateful pipeline: generation -/

/-- Modelled from the spec: `ov::genai::StreamingStatus`, the answer of
`StreamerBase::write` (`write(token_id) → {RUNNING, STOP, CANCEL}`); the
enumeration is declared outside the sources. -/
inductive StreamingStatus where
  | RUNNING
  | STOP
  | CANCEL
  deriving DecidableEq, Repr

/-- Modelled from the spec: `ov::genai::GenerationStatus`, the status of the
generation stream, declared outside the sources; `generate` compares it with
`CANCEL`, and the handle sets `STOP` or `CANCEL`. -/
inductive GenerationStatus where
  | RUNNING
  | FINISHED
  | IGNORED
  | CANCEL
  | STOP
  deriving DecidableEq, Repr

/-- Modelled from the spec: `GenerationConfig` is declared outside the
sources; these are the four answers `generate` asks of it (`validate()`
returning, `is_greedy_decoding()`, `is_multinomial()`,
`num_return_sequences`), and the `apply_chat_template` flag that the text
overload reads. -/
structure GenerationConfig where
  valid : Bool
  is_greedy_decoding : Bool
  is_multinomial : Bool
  num_return_sequences : Nat
  apply_chat_template : Bool := true
  deriving DecidableEq, Repr

/-- Modelled from the spec: the sampler is a black box (`sample(sequence
states, logits) → chosen token and updated stop/finish flags`).  One call
appends one token to the sequence, may finish the sequence, and may push an
output (a list of token ids) to the generation stream for the handle to
read. -/
structure SampleOutput where
  token : Int
  finished : Bool
  pushed : Option (List Int)
  deriving DecidableEq, Repr

/-- Modelled from the spec: `SequenceGroup` with its generation stream
(`SequenceState`: generated token ids, stop/cancel flags) is declared outside
the sources.  `running` is `is_running()`, `status` is the status of the
generation stream that the handle sets, `queue` holds the outputs pushed to
the stream and not read yet. -/
structure SequenceGroup where
  generated_ids : List Int
  running : Bool
  out_of_memory : Bool
  status : GenerationStatus
  queue : List (List Int)
  deriving DecidableEq, Repr

/-- Modelled from the spec: `handle_stopped()`, true once the handle asked to
stop. -/
def SequenceGroup.handle_stopped (sg : SequenceGroup) : Bool :=
  decide (sg.status = .STOP)

/-- Modelled from the spec: `handle_cancelled()`, true once the handle asked
to cancel. -/
def SequenceGroup.handle_cancelled (sg : SequenceGroup) : Bool :=
  decide (sg.status = .CANCEL)

/-- Modelled from the spec: `set_out_of_memory()` ends the running sequence
with the out-of-memory status. -/
def SequenceGroup.set_out_of_memory (sg : SequenceGroup) : SequenceGroup :=
  { sg with running := false, out_of_memory := true }

/-- Modelled from the spec: `get_finished_sequences().size()` for the single
sequence: it counts once it has left the running state or the handle stopped
or cancelled the generation. -/
def SequenceGroup.finished_sequences (sg : SequenceGroup) : Nat :=
  if !sg.running || sg.handle_stopped || sg.handle_cancelled then 1 else 0

/-- What the pipeline does that is visible from outside, in order. -/
inductive Event where
  | infer_prefill (prompt_len : Nat)
  | infer_decode (input_id : Int) (position_id : Int) (attention_mask_len : Nat)
  | sample
  | write (token : Int)
  | handle_cancel
  | handle_stop
  | set_out_of_memory
  | streamer_end
  deriving DecidableEq, Repr

/-- The collaborators of one `generate` call.  `sampler i` is the outcome of
the `i`-th call of the sampler (from `0`); `streamer`, when one is attached,
answers a `write` as a function of all tokens written so far, the current one
last; `padded_sequence_len` is `shape[1]` of the logits that the prefill
inference returns. -/
structure World where
  sampler : Nat → SampleOutput
  streamer : Option (List Int → StreamingStatus)
  padded_sequence_len : Nat

/-- The local state of `generate` from the prefill sampling on. -/
structure GenState where
  sequence_group : SequenceGroup
  input_ids_data : Int
  position_ids_data : Int
  attention_mask_data : List Int
  written : List Int
  n_samples : Nat
  events : List Event
  deriving DecidableEq, Repr

/-- `m_sampler.sample({sequence_group}, logits)`. -/
def sample (w : World) (st : GenState) : GenState :=
  let out := w.sampler st.n_samples
  let sg := st.sequence_group
  { st with
    sequence_group :=
      { sg with
        generated_ids := sg.generated_ids ++ [out.token]
        running := sg.running && !out.finished
        queue := match out.pushed with
          | some ids => sg.queue ++ [ids]
          | none => sg.queue }
    n_samples := st.n_samples + 1
    events := st.events ++ [.sample] }

/-- The `for` loop of `stream_generated_tokens` over the tokens just read. -/
def write_tokens (write : List Int → StreamingStatus) : List Int → GenState → GenState
  | [], st => st
  | gen_token :: rest, st =>
    let written := st.written ++ [gen_token]
    let st := { st with written := written, events := st.events ++ [.write gen_token] }
    match write written with
    | .RUNNING => write_tokens write rest st
    | .CANCEL =>
      { st with
        sequence_group := { st.sequence_group with status := .CANCEL }
        events := st.events ++ [.handle_cancel] }
    | .STOP =>
      { st with
        sequence_group := { st.sequence_group with status := .STOP }
        events := st.events ++ [.handle_stop] }

/-- `stream_generated_tokens`: with a streamer attached and an output ready
(`handle->can_read()`), reads one output and writes its tokens. -/
def stream_generated_tokens (streamer_ptr : Option (List Int → StreamingStatus))
    (st : GenState) : GenState :=
  match streamer_ptr, st.sequence_group.queue with
  | some write, token :: queue =>
    write_tokens write token
      { st with sequence_group := { st.sequence_group with queue := queue } }
  | _, _ => st

/-- The condition of the `while` loop of `generate`. -/
def loop_condition (sg : SequenceGroup) : Bool :=
  sg.running && !sg.handle_stopped && !sg.handle_cancelled

/-- The decode loop of `generate`, run for at most `fuel` iterations; `none`
when the loop would still run after them. -/
def decode_loop (self : StatefulLLMPipeline) (w : World) : Nat → GenState → Option GenState
  | 0, st => if loop_condition st.sequence_group then none else some st
  | fuel + 1, st =>
    if loop_condition st.sequence_group then
      if st.position_ids_data + 1 = (self.m_kvcache_total : Int) then
        some { st with
          sequence_group := st.sequence_group.set_out_of_memory
          events := st.events ++ [.set_out_of_memory] }
      else
        let last_token := st.sequence_group.generated_ids.getLastD 0
        let st := { st with
          input_ids_data := last_token
          position_ids_data := st.position_ids_data + 1
          attention_mask_data := st.attention_mask_data ++ [1] }
        let st := { st with
          events := st.events ++
            [.infer_decode st.input_ids_data st.position_ids_data st.attention_mask_data.length] }
        let st := sample w st
        let st := stream_generated_tokens w.streamer st
        decode_loop self w fuel st
    else some st

/-- The encoded inputs of `generate`: the shape `[batch, seq_len]` of
`input_ids`. -/
structure EncodedInputs where
  batch : Nat
  seq_len : Nat
  deriving DecidableEq, Repr

/-- `EncodedResults`, with the finish status that `generate` records. -/
structure EncodedResults where
  tokens : List Int
  out_of_memory : Bool
  status : GenerationStatus
  deriving DecidableEq, Repr

/-- One run of `generate`: the events in order, and how the call ended. -/
structure Run where
  events : List Event
  result : Except Exception EncodedResults
  deriving DecidableEq

/-- The local state of `generate` right after the prefill inference, before
the first sampling. -/
def prefill_state (prompt_len : Nat) : GenState :=
  { sequence_group :=
      { generated_ids := [], running := true, out_of_memory := false,
        status := .RUNNING, queue := [] }
    input_ids_data := -1
    position_ids_data := -1
    attention_mask_data := []
    written := []
    n_samples := 0
    events := [.infer_prefill prompt_len] }

/-- The local state at the head of the decode loop: the single-token buffers
are bound, `position_ids_data = prompt_len - 1`, and the attention mask holds
`prompt_len - 1` ones. -/
def decode_state (prompt_len : Nat) (st : GenState) : GenState :=
  { st with
    input_ids_data := -1
    position_ids_data := (prompt_len : Int) - 1
    attention_mask_data := List.replicate (prompt_len - 1) 1 }

/-- The end of `generate`, after the decode loop: the streamer is flushed, one
finished sequence is asserted, and the results are collected. -/
def finish (w : World) (st : GenState) : Run :=
  let events := if w.streamer.isSome then st.events ++ [.streamer_end] else st.events
  if st.sequence_group.finished_sequences ≠ 1 then ⟨events, .error .finished_assert⟩
  else
    ⟨events, .ok
      { tokens := st.sequence_group.generated_ids
        out_of_memory := st.sequence_group.out_of_memory
        status := st.sequence_group.status }⟩

/-- `generate` from the prefill inference on, for a prompt that passed the
entry checks. -/
def generate_from_prefill (self : StatefulLLMPipeline) (prompt_len : Nat) (w : World)
    (fuel : Nat) : Option Run :=
  if w.padded_sequence_len > 1 ∧ prompt_len > w.padded_sequence_len then
    some ⟨[.infer_prefill prompt_len], .error .bad_slice⟩
  else
    let st := stream_generated_tokens w.streamer (sample w (prefill_state prompt_len))
    if prompt_len = 0 then some ⟨st.events, .error .length_error⟩
    else (decode_loop self w fuel (decode_state prompt_len st)).map (finish w)

/-- `StatefulLLMPipeline::generate` on encoded inputs.  `fuel` bounds the
iterations of the decode loop; the value is `none` when the loop would run
longer.  Performance counters and the tensor contents are left out; the token
count of the prompt is `input_ids.get_size()`. -/
def generate (self : StatefulLLMPipeline) (inputs : EncodedInputs)
    (config : GenerationConfig) (w : World) (fuel : Nat) : Option Run :=
  if inputs.batch ≠ 1 then some ⟨[], .error .batch_size⟩
  else if !config.valid then some ⟨[], .error .invalid_generation_config⟩
  else if !(config.is_greedy_decoding || config.is_multinomial) then
    some ⟨[], .error .unsupported_decoding⟩
  else if config.num_return_sequences ≠ 1 then some ⟨[], .error .num_return_sequences⟩
  else if inputs.batch * inputs.seq_len > self.m_max_prompt_len then
    some ⟨[], .error (.prompt_too_long self.m_max_prompt_len)⟩
  else generate_from_prefill self (inputs.batch * inputs.seq_len) w fuel

/-- The shape rule of the static reshaping, as the specification words it:
`[1, P]` for `input_ids`, else `[1, C]` for `attention_mask`, else `[1, P]`
for `position_ids`, else the input's own shape with the batch axis `1`, the
sequence axis `C - P` and the other dimensions unchanged. -/
def shape_rule (input : ModelInput) (P C : Nat) (kv : KVAxesPosition)
    (shape : PartialShape) : Prop :=
  if contains input.any_name "input_ids" then shape = [.static 1, .static P]
  else if contains input.any_name "attention_mask" then shape = [.static 1, .static C]
  else if contains input.any_name "position_ids" then shape = [.static 1, .static P]
  else shape.length = input.shape.length ∧
    shape[kv.batch]? = some (.static 1) ∧
    shape[kv.seq_len]? = some (.static (C - P)) ∧
    ∀ i, i ≠ kv.batch → i ≠ kv.seq_len → shape[i]? = input.shape[i]?

/-- A model with the three named inputs and one cache input of shape
`[?, 32, ?, 128]`. -/
def example_model : Model :=
  { inputs := [
      ⟨"input_ids", [.dynamic, .dynamic]⟩,
      ⟨"attention_mask", [.dynamic, .dynamic]⟩,
      ⟨"position_ids", [.dynamic, .dynamic]⟩,
      ⟨"past_key_values.0.value", [.dynamic, .static 32, .dynamic, .static 128]⟩]
    rt_info := [(["nncf", "weight_compression", "group_size"], -1)] }

/-- The model of `example_model` with other input ports and the same
compression metadata. -/
def example_model_other_inputs : Model :=
  { inputs := [⟨"input_ids", [.static 1, .dynamic]⟩]
    rt_info := [(["nncf", "weight_compression", "group_size"], -1),
                (["nncf", "weight_compression", "ratio_value"], 1)] }

/-- An attention node with a boolean mask as its fourth input and the causal
attribute unset. -/
def example_masked_attention : SDPA :=
  { inputs := [.Input 0 .f32, .Input 1 .f32, .Input 2 .f32, .Input 3 .boolean]
    causal := false }

/-- A subgraph that the `TransposeValueTensors` pattern matches and whose
transpose keeps the axis order: `MatMul(Softmax(in0), Concat(cache,
Transpose(in1, (0, 1, 2, 3)), axis 2))`. -/
def identity_order_subgraph : Node :=
  .MatMul (.Softmax (.Input 0 .f32) (-1))
    (.Concat (.Parameter "past_key_values.0.value" ["past_key_values.0.value"] .f32
        [.static 1, .static 2, .static 1, .static 1])
      (.Transpose (.Input 1 .f32) (.Constant .i32 [4] [.num 0, .num 1, .num 2, .num 3])) 2)
    false false

/-- The same subgraph with the axis order `(0, 2, 1, 3)` that brings the new
values `[b, s, h, e]` to the layout `[b, h, s, e]` of the cache. -/
def value_subgraph : Node :=
  .MatMul (.Softmax (.Input 0 .f32) (-1))
    (.Concat (.Parameter "past_key_values.0.value" ["past_key_values.0.value"] .f32
        [.static 1, .static 2, .static 1, .static 1])
      (.Transpose (.Input 1 .f32) (.Constant .i32 [4] [.num 0, .num 2, .num 1, .num 3])) 2)
    false false

/-- Integer tensors for the two subgraphs above: the cache `[1, 2, 1, 1]`
holds `1` and `2`, the outside producer `1` of shape `[1, 2, 2, 1]` holds
`3, 5, 7, 9`, and the attention weights `[1, 2, 1, 3]` (the softmax, taken as
the identity on the weights fed by producer `0`) select the last position. -/
def example_env : Env Int :=
  { param := fun _ =>
      { shape := [1, 2, 1, 1]
        data := fun idx => if idx = [0, 0, 0, 0] then 1 else if idx = [0, 1, 0, 0] then 2 else 0 }
    input := fun id =>
      if id = 0 then
        { shape := [1, 2, 1, 3]
          data := fun idx => if idx.getD 3 0 = 2 then 1 else 0 }
      else
        { shape := [1, 2, 2, 1]
          data := fun idx =>
            if idx = [0, 0, 0, 0] then 3 else if idx = [0, 0, 1, 0] then 5
            else if idx = [0, 1, 0, 0] then 7 else if idx = [0, 1, 1, 0] then 9 else 0 }
    softmax := fun t _ => t }

/-- The event is a call of `m_request.infer()`. -/
def Event.is_infer : Event → Bool
  | .infer_prefill _ => true
  | .infer_decode _ _ _ => true
  | _ => false

/-- The event is a call of `streamer_ptr->write`. -/
def Event.is_write : Event → Bool
  | .write _ => true
  | _ => false

/-- The number of inference calls among the events. -/
def infer_count (events : List Event) : Nat := events.countP Event.is_infer

/-- The number of tokens written to the streamer among the events. -/
def write_count (events : List Event) : Nat := events.countP Event.is_write

/-- The events that follow the `k`-th write (all events for `k = 0`, none when
fewer than `k` tokens were written). -/
def after_write : Nat → List Event → List Event
  | 0, events => events
  | _ + 1, [] => []
  | k + 1, .write _ :: events => after_write k events
  | k + 1, _ :: events => after_write (k + 1) events

/-- The streamer that answers `RUNNING` to its first `k - 1` writes and
`CANCEL` from the `k`-th write on. -/
def cancel_at (k : Nat) (written : List Int) : StreamingStatus :=
  if written.length < k then .RUNNING else .CANCEL

/-- A generation configuration that `generate` accepts: greedy decoding, one
returned sequence. -/
def greedy_config : GenerationConfig :=
  { valid := true, is_greedy_decoding := true, is_multinomial := false,
    num_return_sequences := 1 }

/-- A sampler that produces the tokens `0, 1, 2, ...`, streams each of them
and finishes the sequence with its ninth token, together with a streamer that
cancels at its third write. -/
def cancelling_world : World :=
  { sampler := fun i => { token := i, finished := decide (8 ≤ i), pushed := some [i] }
    streamer := some (cancel_at 3)
    padded_sequence_len := 1 }

/-- The invariant of a `generate` call whose streamer cancels at its `k`-th
write: the writes recorded are the tokens handed to the streamer, and either
fewer than `k` tokens were written, or exactly `k` were, the handle is
cancelled, and no inference follows the `k`-th write. -/
def cancel_invariant (k : Nat) (st : GenState) : Prop :=
  write_count st.events = st.written.length ∧
  (st.written.length < k ∨
    (st.written.length = k ∧ st.sequence_group.status = .CANCEL ∧
      infer_count (after_write k st.events) = 0 ∧ Event.handle_cancel ∈ st.events))

/-- The run of `generate` in `cancelling_world` on a prompt of five tokens:
the third write is answered with `CANCEL`. -/
def cancelled_run : Run :=
  { events := [.infer_prefill 5, .sample, .write 0,
      .infer_decode 0 5 5, .sample, .write 1,
      .infer_decode 1 6 6, .sample, .write 2, .handle_cancel, .streamer_end]
    result := .ok { tokens := [0, 1, 2], out_of_memory := false, status := .CANCEL } }

/-- A pipeline configuration that `updateStatefulConfig` accepts and whose
two capacities add up to `2 ^ 32 + 2`. -/
def wrapped_config : AnyMap :=
  [("MAX_PROMPT_LEN", .int64 4294967295), ("MIN_RESPONSE_LEN", .int64 3)]

/-- A sampler that produces the tokens `0, 1, 2` and finishes the sequence
with the third one; no streamer is attached. -/
def three_token_world : World :=
  { sampler := fun i => { token := i, finished := decide (2 ≤ i), pushed := none }
    streamer := none
    padded_sequence_len := 1 }

/-- The decode inferences recorded so far ran at positions below the total
cache capacity, and so does the current position. -/
def within_capacity (self : StatefulLLMPipeline) (st : GenState) : Prop :=
  st.position_ids_data < (self.m_kvcache_total : Int) ∧
  ∀ id pos len, Event.infer_decode id pos len ∈ st.events →
    pos < (self.m_kvcache_total : Int)

/-- The seven baseline entries that `get_baseline_common_config` returns in
every case. -/
def fixed_baseline_entries : AnyMap := [
  ("NPU_COMPILATION_MODE_PARAMS",
    .str "compute-layers-with-higher-precision=Sqrt,Power,ReduceMean,Add_RMSNorm"),
  ("NPUW_DEVICES", .str "NPU"),
  ("NPU_USE_NPUW", .str "YES"),
  ("NPUW_FOLD", .str "YES"),
  ("NPUW_WEIGHTS_BANK", .str "shared"),
  ("NPUW_SLICE_OUT", .str "YES"),
  ("NPUW_FUNCALL_ASYNC", .str "YES")]

/-- The part of `updateStatefulConfig` that follows the two capacities: the
six `update_config` calls and the five `rename_key` calls, in source order. -/
def stateful_config_entries (pipeline_config : AnyMap) (kv_pos : KVAxesPosition)
    (kMaxPromptLen kMinResponseLen : Nat) : AnyMap :=
  let pipeline_config := update_config pipeline_config ("NPU_USE_NPUW", .str "YES")
  let pipeline_config := update_config pipeline_config ("NPUW_LLM", .str "YES")
  let pipeline_config := update_config pipeline_config ("NPUW_LLM_BATCH_DIM", .size_t kv_pos.batch)
  let pipeline_config :=
    update_config pipeline_config ("NPUW_LLM_SEQ_LEN_DIM", .size_t kv_pos.seq_len)
  let pipeline_config :=
    update_config pipeline_config ("NPUW_LLM_MAX_PROMPT_LEN", .uint32 kMaxPromptLen)
  let pipeline_config :=
    update_config pipeline_config ("NPUW_LLM_MIN_RESPONSE_LEN", .uint32 kMinResponseLen)
  let pipeline_config := rename_key pipeline_config "++PREFILL_CONFIG" "++NPUW_LLM_PREFILL_CONFIG"
  let pipeline_config :=
    rename_key pipeline_config "++GENERATE_CONFIG" "++NPUW_LLM_GENERATE_CONFIG"
  let pipeline_config := rename_key pipeline_config "PREFILL_CONFIG" "NPUW_LLM_PREFILL_CONFIG"
  let pipeline_config := rename_key pipeline_config "GENERATE_CONFIG" "NPUW_LLM_GENERATE_CONFIG"
  rename_key pipeline_config "GENERATE_HINT" "NPUW_LLM_GENERATE_HINT"

/-- The five key translations of `updateStatefulConfig`, old name first. -/
def renamed_keys : List (String × String) :=
  [("++PREFILL_CONFIG", "++NPUW_LLM_PREFILL_CONFIG"),
   ("++GENERATE_CONFIG", "++NPUW_LLM_GENERATE_CONFIG"),
   ("PREFILL_CONFIG", "NPUW_LLM_PREFILL_CONFIG"),
   ("GENERATE_CONFIG", "NPUW_LLM_GENERATE_CONFIG"),
   ("GENERATE_HINT", "NPUW_LLM_GENERATE_HINT")]

/-- A pipeline configuration that sets `GENERATE_HINT` and also holds a stale
`NPUW_LLM_GENERATE_HINT`. -/
def hint_config : AnyMap :=
  [("GENERATE_HINT", .str "BEST_PERF"), ("NPUW_LLM_GENERATE_HINT", .str "FAST_COMPILE")]

/-- What `updateStatefulConfig` leaves of `hint_config` for the cache axes
`(0, 2)`. -/
def hint_config_result : AnyMap :=
  [("NPUW_LLM_GENERATE_HINT", .str "BEST_PERF"),
   ("NPU_USE_NPUW", .str "YES"), ("NPUW_LLM", .str "YES"),
   ("NPUW_LLM_BATCH_DIM", .size_t 0), ("NPUW_LLM_SEQ_LEN_DIM", .size_t 2),
   ("NPUW_LLM_MAX_PROMPT_LEN", .uint32 1024), ("NPUW_LLM_MIN_RESPONSE_LEN", .uint32 128)]

/-- A pipeline configuration that sets both capacities. -/
def capacity_config : AnyMap :=
  [("MAX_PROMPT_LEN", .int 2048), ("MIN_RESPONSE_LEN", .int64 256)]

/-! ## Cache directory -/

/-- `get_option<std::string>`: the value of `option_name` as a string, if the
key is present.  `as_string` stands for `ov::Any::as<std::string>()`, which
returns the string a value holds and converts or rejects the other payloads
inside OpenVINO. -/
def get_option_string (as_string : Any → Except Exception String) (config : AnyMap)
    (option_name : String) : Except Exception (Option String) :=
  match AnyMap.find config option_name with
  | some any =>
    match as_string any with
    | .ok s => .ok (some s)
    | .error e => .error e
  | none => .ok none

/-- `set_npuw_cache_dir`: the configuration after the call. -/
def set_npuw_cache_dir (as_string : Any → Except Exception String) (config : AnyMap) :
    Except Exception AnyMap :=
  match get_option_string as_string config "CACHE_DIR" with
  | .error e => .error e
  | .ok cache_dir =>
    match cache_dir with
    | some dir =>
      if AnyMap.count config "NPU_USE_NPUW" ≠ 0 then
        let config := AnyMap.emplace config "NPUW_CACHE_DIR" (.str dir)
        .ok (pop_option config "CACHE_DIR").2
      else .ok config
    | none => .ok config

/-- The conversion `as<std::string>()` on string payloads; any other payload is
rejected here. -/
def string_payload : Any → Except Exception String
  | .str s => .ok s
  | _ => .error .bad_any_cast

/-- A configuration that holds `NPU_USE_NPUW`, a `CACHE_DIR` and already an
`NPUW_CACHE_DIR`. -/
def cache_dir_config : AnyMap :=
  [("NPU_USE_NPUW", .str "YES"), ("CACHE_DIR", .str "/tmp/cache"),
   ("NPUW_CACHE_DIR", .str "/opt/npuw")]

/-! ## The text overload of `generate` -/

/-- `StringInputs`: one prompt, or a vector of prompts. -/
inductive StringInputs where
  | prompt (text : String)
  | prompts (texts : List String)
  deriving DecidableEq, Repr

/-- `ChatHistory`: the messages of a conversation, each a role and a content. -/
abbrev ChatHistory := List (String × String)

/-- Modelled from the spec: the tokenizer is an external collaborator
(tokenization and detokenization).  `encode text add_special_tokens` gives the
shape of the encoded `input_ids`. -/
structure Tokenizer where
  chat_template : String
  apply_chat_template : ChatHistory → String
  encode : String → Bool → EncodedInputs
  decode : List Int → String

/-- The chat members of `StatefulLLMPipeline`. -/
structure ChatState where
  m_is_chat_conversation : Bool
  m_history : ChatHistory
  m_chat_generation_finish_status : GenerationStatus
  deriving DecidableEq, Repr

/-- `DecodedResults`: the decoded text of the single sequence. -/
structure DecodedResults where
  texts : List String
  deriving DecidableEq, Repr

/-- One run of the text overload of `generate`: the events in order, the chat
members when the call ends, and how it ended. -/
structure TextRun where
  events : List Event
  chat : ChatState
  result : Except Exception DecodedResults
  deriving DecidableEq

/-- The tokenization step of the text overload: the chat members after it and
the encoded inputs.  In a chat the prompt is appended to the history first. -/
def tokenize_prompt (chat : ChatState) (tokenizer : Tokenizer) (config : GenerationConfig)
    (prompt : String) : ChatState × EncodedInputs :=
  if chat.m_is_chat_conversation then
    let history := chat.m_history ++ [("user", prompt)]
    ({ chat with m_history := history },
      tokenizer.encode (tokenizer.apply_chat_template history) false)
  else if config.apply_chat_template && tokenizer.chat_template ≠ "" then
    (chat, tokenizer.encode (tokenizer.apply_chat_template [("user", prompt)]) false)
  else (chat, tokenizer.encode prompt true)

/-- The text overload of `generate` once the prompt is known: tokenization,
the encoded overload, detokenization and the update of the chat history. -/
def generate_prompt (self : StatefulLLMPipeline) (chat : ChatState) (tokenizer : Tokenizer)
    (prompt : String) (config : GenerationConfig) (w : World) (fuel : Nat) : Option TextRun :=
  let (chat, tokenized_input) := tokenize_prompt chat tokenizer config prompt
  match generate self tokenized_input config w fuel with
  | none => none
  | some run =>
    match run.result with
    | .error e => some ⟨run.events, chat, .error e⟩
    | .ok encoded_results =>
      let chat := { chat with m_chat_generation_finish_status := encoded_results.status }
      let answer := tokenizer.decode encoded_results.tokens
      let chat :=
        if chat.m_is_chat_conversation then
          if chat.m_chat_generation_finish_status = .CANCEL then
            { chat with m_history := chat.m_history.dropLast }
          else { chat with m_history := chat.m_history ++ [("assistant", answer)] }
        else chat
      some ⟨run.events, chat, .ok ⟨[answer]⟩⟩

/-- `StatefulLLMPipeline::generate` on `StringInputs`.  A vector of prompts
must hold exactly one. -/
def generate_text (self : StatefulLLMPipeline) (chat : ChatState) (tokenizer : Tokenizer)
    (inputs : StringInputs) (config : GenerationConfig) (w : World) (fuel : Nat) :
    Option TextRun :=
  match inputs with
  | .prompts input_vector =>
    match input_vector with
    | [prompt] => generate_prompt self chat tokenizer prompt config w fuel
    | _ => some ⟨[], chat, .error .batch_size⟩
  | .prompt prompt => generate_prompt self chat tokenizer prompt config w fuel

/-- A tokenizer that encodes a text into one row with a token per character. -/
def example_tokenizer : Tokenizer :=
  { chat_template := ""
    apply_chat_template := fun history => String.join (history.map Prod.snd)
    encode := fun text _ => ⟨1, text.length⟩
    decode := fun tokens => String.join (tokens.map toString) }

/-- The chat members outside a conversation. -/
def no_chat : ChatState :=
  { m_is_chat_conversation := false, m_history := [],
    m_chat_generation_finish_status := .RUNNING }

/-- A beam-search configuration: neither greedy nor multinomial. -/
def beam_search_config : GenerationConfig :=
  { valid := true, is_greedy_decoding := false, is_multinomial := false,
    num_return_sequences := 1 }

/-! ## The prefill logits -/

/-- `ov::Tensor(tensor, begin, end)`: the region of interest from `begin` up
to `end` in every axis.  OpenVINO rejects a region whose coordinates do not
have the rank of the tensor or leave its shape. -/
def roi_tensor {α : Type} (tensor : Tensor α) (begin_ end_ : List Nat) :
    Except Exception (Tensor α) :=
  if begin_.length = tensor.shape.length ∧ end_.length = tensor.shape.length ∧
      (List.zip begin_ (List.zip end_ tensor.shape)).all
        (fun c => decide (c.1 ≤ c.2.1) && decide (c.2.1 ≤ c.2.2)) = true then
    .ok { shape := List.zipWith (fun e b => e - b) end_ begin_
          data := fun idx => tensor.data (List.zipWith (fun i b => i + b) idx begin_) }
  else .error .bad_slice

/-- `make_tensor_slice`: the slice `[start_pos, end_pos)` of `tensor` along
`dim`. -/
def make_tensor_slice {α : Type} (tensor : Tensor α) (dim start_pos end_pos : Nat) :
    Except Exception (Tensor α) :=
  let start_shape := (List.replicate tensor.shape.length 0).set dim start_pos
  let end_shape := tensor.shape.set dim end_pos
  roi_tensor tensor start_shape end_shape

/-- `a - b` in `size_t` arithmetic. -/
def sub_size_t (a b : Nat) : Nat := (a + 2 ^ 64 - b % 2 ^ 64) % 2 ^ 64

/-- The logits that the prefill step of `generate` hands to the sampler, from
the logits the inference returned: with a sequence dimension above one, the
last `prompt_len` positions. -/
def prefill_logits {α : Type} (padded_logits : Tensor α) (prompt_len : Nat) :
    Except Exception (Tensor α) :=
  let padded_sequence_len := padded_logits.shape.getD 1 0
  if padded_sequence_len > 1 then
    make_tensor_slice padded_logits 1 (sub_size_t padded_sequence_len prompt_len)
      padded_sequence_len
  else .ok padded_logits

/-- Padded prefill logits of shape `[1, 8, 4]` whose element at `[b, s, v]` is
`10 * s + v`. -/
def example_logits : Tensor Int :=
  { shape := [1, 8, 4]
    data := fun idx => 10 * (idx.getD 1 0 : Int) + idx.getD 2 0 }

/-- The event is a decode inference, one iteration of the decode loop that
ran to its end. -/
def Event.is_decode : Event → Bool
  | .infer_decode _ _ _ => true
  | _ => false

/-- The number of decode inferences among the events. -/
def decode_count (events : List Event) : Nat := events.countP Event.is_decode

/-- A sampler that produces the tokens `0, 1, 2, ...` and finishes the
sequence with its sixth token; no streamer is attached. -/
def six_token_world : World :=
  { sampler := fun i => { token := i, finished := decide (5 ≤ i), pushed := none }
    streamer := none
    padded_sequence_len := 1 }

/-! ## Tensor evaluation of the causal-mask subgraph -/

/-- A tensor of scalars; an element is `none` where an operation was applied
to operands it is not defined on. -/
abbrev ScalarTensor := Tensor (Option Scalar)

/-- NumPy broadcasting of two extents. -/
def broadcast_dim (x y : Nat) : Nat := if x = 1 then y else x

/-- NumPy broadcasting of two shapes given last axis first. -/
def broadcast_rev : List Nat → List Nat → List Nat
  | [], ys => ys
  | x :: xs, [] => x :: xs
  | x :: xs, y :: ys => broadcast_dim x y :: broadcast_rev xs ys

/-- NumPy broadcasting of two shapes. -/
def broadcast_shape (a b : List Nat) : List Nat :=
  (broadcast_rev a.reverse b.reverse).reverse

/-- The index into an operand of shape `shape` for the index `idx` into the
broadcast result: the trailing axes are matched, and an axis of extent `1` is
read at `0`. -/
def broadcast_index (shape idx : List Nat) : List Nat :=
  List.zipWith (fun d i => if d = 1 then 0 else i) shape (idx.drop (idx.length - shape.length))

/-- An element-wise operation on two tensors, with broadcasting. -/
def elementwise (f : Scalar → Scalar → Option Scalar) (a b : ScalarTensor) : ScalarTensor where
  shape := broadcast_shape a.shape b.shape
  data := fun idx =>
    match a.data (broadcast_index a.shape idx), b.data (broadcast_index b.shape idx) with
    | some x, some y => f x y
    | _, _ => none

/-- `Add` on two elements. -/
def scalar_add : Scalar → Scalar → Option Scalar
  | .num a, .num b => some (.num (a + b))
  | _, _ => none

/-- `GreaterEqual` on two elements. -/
def scalar_ge : Scalar → Scalar → Option Scalar
  | .num a, .num b => some (.bool (decide (a ≥ b)))
  | _, _ => none

/-- The integer held by a tensor of rank 0. -/
def scalar_value (t : ScalarTensor) : Option Int :=
  match t.shape, t.data [] with
  | [], some (.num n) => some n
  | _, _ => none

/-- The values of a one-dimensional tensor of non-negative integers. -/
def shape_values (t : ScalarTensor) : List Nat :=
  (List.range (t.shape.getD 0 0)).map (fun i =>
    match t.data [i] with
    | some (.num n) => n.toNat
    | _ => 0)

/-- The value of a subgraph built from the operations of the causal-mask
branch of `decompose`, following the OpenVINO operation semantics: `ShapeOf`,
`Gather` of one element of a one-dimensional tensor (a negative index counts
from the end), `Unsqueeze` by one axis, `Concat`, `Broadcast` to a target
shape, `Range` with a positive step, and the element-wise `Add`,
`GreaterEqual`, `Select`, `LogicalNot` and `ConvertLike` with NumPy
broadcasting.  Constants are scalars or one-dimensional.  Other operations
yield `none`. -/
def eval_tensor (input : Nat → ScalarTensor) : Node → Option ScalarTensor
  | .Input id _ => some (input id)
  | .Constant _ shape values =>
    match shape with
    | [] => some ⟨[], fun _ => values[0]?⟩
    | [n] => some ⟨[n], fun idx => values[idx.getD 0 0]?⟩
    | _ => none
  | .ShapeOf x _ =>
    match eval_tensor input x with
    | some t => some ⟨[t.shape.length], fun idx => some (.num (t.shape.getD (idx.getD 0 0) 0))⟩
    | none => none
  | .Gather data indices axis =>
    match eval_tensor input data, eval_tensor input indices, eval_tensor input axis with
    | some d, some i, some a =>
      match d.shape, scalar_value i, scalar_value a with
      | [n], some index, some 0 => some ⟨[], fun _ => d.data [normalize_axis index n]⟩
      | _, _, _ => none
    | _, _, _ => none
  | .ConvertLike x like =>
    match eval_tensor input x with
    | some t =>
      some ⟨t.shape, fun idx => (t.data idx).map (fun v => convert_scalar v like.get_element_type)⟩
    | none => none
  | .Unsqueeze x axes =>
    match eval_tensor input x, eval_tensor input axes with
    | some t, some a =>
      match scalar_value a with
      | some axis =>
        if 0 ≤ axis ∧ axis.toNat ≤ t.shape.length then
          some ⟨t.shape.insertIdx axis.toNat 1, fun idx => t.data (idx.eraseIdx axis.toNat)⟩
        else none
      | none => none
    | _, _ => none
  | .Concat a b axis =>
    match eval_tensor input a, eval_tensor input b with
    | some ta, some tb => some (ta.concat tb (normalize_axis axis ta.shape.length))
    | _, _ => none
  | .Broadcast x target_shape =>
    match eval_tensor input x, eval_tensor input target_shape with
    | some t, some s =>
      some ⟨shape_values s, fun idx => t.data (broadcast_index t.shape idx)⟩
    | _, _ => none
  | .Range start stop step _ =>
    match eval_tensor input start, eval_tensor input stop, eval_tensor input step with
    | some a, some b, some c =>
      match scalar_value a, scalar_value b, scalar_value c with
      | some first, some last, some by_ =>
        if 0 < by_ then
          some ⟨[((last - first + by_ - 1) / by_).toNat],
            fun idx => some (.num (first + (idx.getD 0 0 : Int) * by_))⟩
        else none
      | _, _, _ => none
    | _, _, _ => none
  | .Add a b =>
    match eval_tensor input a, eval_tensor input b with
    | some ta, some tb => some (elementwise scalar_add ta tb)
    | _, _ => none
  | .GreaterEqual a b =>
    match eval_tensor input a, eval_tensor input b with
    | some ta, some tb => some (elementwise scalar_ge ta tb)
    | _, _ => none
  | .LogicalNot x =>
    match eval_tensor input x with
    | some t =>
      some ⟨t.shape, fun idx =>
        match t.data idx with
        | some (.bool b) => some (.bool (!b))
        | _ => none⟩
    | none => none
  | .Select cond then_ else_ =>
    match eval_tensor input cond, eval_tensor input then_, eval_tensor input else_ with
    | some c, some t, some e =>
      some ⟨broadcast_shape (broadcast_shape c.shape t.shape) e.shape, fun idx =>
        match c.data (broadcast_index c.shape idx) with
        | some (.bool true) => t.data (broadcast_index t.shape idx)
        | some (.bool false) => e.data (broadcast_index e.shape idx)
        | _ => none⟩
    | _, _, _ => none
  | _ => none

/-- A causal attention node without mask input, and tensors for its query
`[1, 2, 3, 4]` and key `[1, 2, 5, 4]`: three query positions, five key
positions. -/
def example_causal_attention : SDPA :=
  { inputs := [.Input 0 .f32, .Input 1 .f32, .Input 2 .f32], causal := true }

/-- The shapes of the inputs of `example_causal_attention`; the elements do
not matter for the mask. -/
def example_attention_inputs (id : Nat) : ScalarTensor :=
  if id = 0 then ⟨[1, 2, 3, 4], fun _ => some (.num 0)⟩
  else ⟨[1, 2, 5, 4], fun _ => some (.num 0)⟩

/-! ## The scale of the attention decomposition -/

/-- The operand that `decompose` multiplies the query by: the second input of
the `Multiply` that feeds the scores `MatMul`. -/
def scale_of : Node → Option Node
  | .MatMul (.Multiply _ scale) _ _ _ => some scale
  | _ => none

/-- An attention node with the three mandatory inputs: query `[1, 2, 3, 4]`,
key `[1, 2, 5, 4]` (see `example_attention_inputs`), causal attribute unset. -/
def example_plain_attention : SDPA :=
  { inputs := [.Input 0 .f32, .Input 1 .f32, .Input 2 .f32], causal := false }

/-- An attention node with a float mask as fourth and an explicit scale as
fifth input. -/
def example_scaled_attention : SDPA :=
  { inputs := [.Input 0 .f32, .Input 1 .f32, .Input 2 .f32, .Input 3 .f32, .Input 4 .f32]
    causal := false }

/-! ## The rules of the configuration derivation -/

/-- The import branch of the constructor of `StatefulLLMPipeline`: the
capacity members computed from the `NPUW_LLM_MAX_PROMPT_LEN` and
`NPUW_LLM_MIN_RESPONSE_LEN` properties of the imported blob (both read
`as<uint32_t>()`). -/
def imported_capacities (max_prompt_len min_resp_len : Nat) : StatefulLLMPipeline :=
  { m_max_prompt_len := max_prompt_len
    m_kvcache_total := add_uint32 max_prompt_len min_resp_len }

/-- A pipeline configuration in which the user sets the device-namespaced
capacity key and not `MAX_PROMPT_LEN`. -/
def namespaced_capacity_config : AnyMap :=
  [("NPUW_LLM_MAX_PROMPT_LEN", .uint32 512)]

/-- A pipeline configuration whose `MAX_PROMPT_LEN` is `2 ^ 32`, as an
`int64_t`. -/
def oversized_config : AnyMap :=
  [("MAX_PROMPT_LEN", .int64 4294967296), ("NPUW_LLM", .str "YES")]

/-- A pipeline configuration that sets both capacity options as `int64_t`:
`MAX_PROMPT_LEN` is `2 ^ 32` and `MIN_RESPONSE_LEN` is `128`. -/
def oversized_capacity_config : AnyMap :=
  [("MAX_PROMPT_LEN", .int64 4294967296), ("MIN_RESPONSE_LEN", .int64 128)]

/-! ## The inputs of the decode inferences -/

/-- The local state of `generate` at the head of the decode loop, for a
prompt of `prompt_len` tokens: after the prefill inference, the first
sampling and the streaming of its token. -/
def loop_entry_state (prompt_len : Nat) (w : World) : GenState :=
  decode_state prompt_len (stream_generated_tokens w.streamer (sample w (prefill_state prompt_len)))

/-- The local state of `generate` at the `m_request.infer()` call of the
`k`-th iteration of the decode loop (`k ≥ 1`), from the state at the head of
the loop: the iterations before it run as in `decode_loop`, and the `k`-th
one up to its inference.  `none` when the loop ends before that call. -/
def state_at_decode (self : StatefulLLMPipeline) (w : World) : Nat → GenState → Option GenState
  | 0, _ => none
  | k + 1, st =>
    if loop_condition st.sequence_group then
      if st.position_ids_data + 1 = (self.m_kvcache_total : Int) then none
      else
        let last_token := st.sequence_group.generated_ids.getLastD 0
        let st := { st with
          input_ids_data := last_token
          position_ids_data := st.position_ids_data + 1
          attention_mask_data := st.attention_mask_data ++ [1] }
        let st := { st with
          events := st.events ++
            [.infer_decode st.input_ids_data st.position_ids_data st.attention_mask_data.length] }
        if k = 0 then some st
        else
          let st := sample w st
          let st := stream_generated_tokens w.streamer st
          state_at_decode self w k st
    else none

/-- A sampler that produces the tokens `10, 11, 12, ...` without ever
finishing the sequence; no streamer is attached. -/
def endless_world : World :=
  { sampler := fun i => { token := 10 + i, finished := false, pushed := none }
    streamer := none
    padded_sequence_len := 1 }

/-- The local state at the second decode inference in `endless_world`, for a
prompt of three tokens. -/
def example_decode_state : GenState :=
  { sequence_group :=
      { generated_ids := [10, 11], running := true, out_of_memory := false,
        status := .RUNNING, queue := [] }
    input_ids_data := 11
    position_ids_data := 4
    attention_mask_data := [1, 1, 1, 1]
    written := []
    n_samples := 2
    events := [.infer_prefill 3, .sample, .infer_decode 10 3 3, .sample, .infer_decode 11 4 4] }

/-! ## The chat history -/

/-- `StatefulLLMPipeline::start_chat`. -/
def start_chat (chat : ChatState) (system_message : String) : ChatState :=
  let chat :=
    if system_message ≠ "" then
      { chat with m_history := chat.m_history ++ [("system", system_message)] }
    else chat
  { chat with m_is_chat_conversation := true }

/-- `StatefulLLMPipeline::finish_chat`. -/
def finish_chat (chat : ChatState) : ChatState :=
  { chat with m_is_chat_conversation := false, m_history := [] }

/-- The prompt that the text overload of `generate` takes from its inputs: the
string, or the single element of the vector. -/
def StringInputs.prompt_of : StringInputs → Option String
  | .prompt text => some text
  | .prompts [text] => some text
  | .prompts _ => none

/-- The chat members right after `start_chat("Be brief")` on a fresh
pipeline. -/
def example_chat : ChatState :=
  start_chat no_chat "Be brief"

/-- The run of the text overload on the prompt `"Hi"` in `example_chat` with
`three_token_world`: the templated prompt has ten tokens and three tokens are
generated. -/
def example_chat_run : TextRun :=
  { events := [.infer_prefill 10, .sample, .infer_decode 0 10 10, .sample,
      .infer_decode 1 11 11, .sample]
    chat := ⟨true, [("system", "Be brief"), ("user", "Hi"), ("assistant", "012")], .RUNNING⟩
    result := .ok ⟨["012"]⟩ }

/-- The run of the text overload on the prompt `"Hi"` in `example_chat` with
`cancelling_world`: the streamer cancels at its third write. -/
def example_cancelled_chat_run : TextRun :=
  { events := [.infer_prefill 10, .sample, .write 0,
      .infer_decode 0 10 10, .sample, .write 1,
      .infer_decode 1 11 11, .sample, .write 2, .handle_cancel, .streamer_end]
    chat := ⟨true, [("system", "Be brief")], .CANCEL⟩
    result := .ok ⟨["012"]⟩ }

/-! ## Zero-point alignment -/

/-- `ov::shape_size`: the number of elements of a shape. -/
def shape_size (shape : List Nat) : Nat := shape.foldl (· * ·) 1

/-- The `uint8_t` that `get_vector<uint8_t>()` holds for a stored value. -/
def to_uint8 : Scalar → Nat
  | .num v => (v % 256).toNat
  | .bool b => if b then 1 else 0
  | .neg_inf => 0

/-- The body of the loop of `align_u4_zp_constants` for one operation of the
model: the node that the consumers of the operation read after it.  For a
`u4` constant with one element that is a new `u4` constant of the same shape
holding `get_vector<uint8_t>()[0] & 0x0f`; any other operation is left to its
consumers as it is. -/
def align_u4_zp_constant (op : Node) : Node :=
  match op with
  | .Constant element_type shape values =>
    if element_type = .u4 ∧ shape_size shape = 1 then
      .Constant .u4 shape [.num (((values.map to_uint8).getD 0 0 &&& 0x0f : Nat) : Int)]
    else op
  | _ => op

/-- `align_u4_zp_constants` on the operations `model->get_ops()`: for every
operation, in the same order, the node its consumers read afterwards. -/
def align_u4_zp_constants (ops : List Node) : List Node :=
  ops.map align_u4_zp_constant

/-- The operations of a small model: a `u4` zero point whose stored byte is
`0x1f`, a `u4` zero point `7`, a `u4` constant with two elements, and an `i32`
scalar. -/
def example_constants : List Node :=
  [.Constant .u4 [] [.num 31], .Constant .u4 [1, 1] [.num 7],
   .Constant .u4 [2] [.num 31, .num 3], .Constant .i32 [] [.num 31]]

/-! ## Slices on the cache inputs -/

/-- `get_output_shape(0)`: the static shape of a partial shape; a dynamic
dimension throws. -/
def get_output_shape : PartialShape → Except Exception (List Nat)
  | [] => .ok []
  | .static n :: rest =>
    match get_output_shape rest with
    | .ok shape => .ok (n :: shape)
    | .error e => .error e
  | .dynamic :: _ => .error .dynamic_shape

/-- `static_cast<int32_t>` of a `size_t`. -/
def cast_int32 (value : Nat) : Int :=
  if value % 2 ^ 32 < 2 ^ 31 then (value % 2 ^ 32 : Nat) else ((value % 2 ^ 32 : Nat) : Int) - 2 ^ 32

/-- The `i32` constant of shape `[1]` holding `v`. -/
def const_i32_vector (v : Int) : Node := .Constant .i32 [1] [.num v]

/-- What the consumers of a parameter read after
`add_slices_to_kvcache_inputs`: the parameter itself, or an
`ov::opset13::Slice` of the new parameter with its `start`, `stop`, `step` and
`axes` inputs. -/
inductive Source where
  | parameter (param : Node)
  | slice (data start stop step axes : Node) (friendly_name : String)
  deriving DecidableEq, Repr

/-- The body of the loop of `add_slices_to_kvcache_inputs` for one parameter
of the model: the parameter that is pushed to `new_params`, and what the
former consumers of the parameter read afterwards.  `get_any_name` is the
OpenVINO function of that name on the set of tensor names.  `shape[2]` on a
shape of rank below three is undefined in the source and an error here;
`shape[2] += 1` is `size_t` arithmetic. -/
def add_slice_to_kvcache_input (get_any_name : List String → Except Exception String)
    (param : Node) : Except Exception (Node × Source) :=
  match param with
  | .Parameter _friendly_name names element_type partial_shape =>
    match get_any_name names with
    | .error e => .error e
    | .ok tensor_name =>
      if !contains tensor_name "past_key_values" then .ok (param, .parameter param)
      else
        match get_output_shape partial_shape with
        | .error e => .error e
        | .ok shape =>
          if shape.length ≤ 2 then .error .out_of_range
          else
            let shape := shape.set 2 ((shape.getD 2 0 + 1) % 2 ^ 64)
            let new_param :=
              Node.Parameter tensor_name names element_type (shape.map Dimension.static)
            let slice_start := const_i32_vector 1
            let slice_stop := const_i32_vector (cast_int32 (shape.getD 2 0))
            let slice_step := const_i32_vector 1
            let slice_axes := const_i32_vector 2
            let slice_node := Source.slice new_param slice_start slice_stop slice_step
              slice_axes (tensor_name ++ "_Slice")
            .ok (new_param, slice_node)
  | _ => .error .not_a_parameter

/-- `add_slices_to_kvcache_inputs` on the parameters `model->get_parameters()`:
for every parameter, in order, the parameter of the returned model at that
place and what the former consumers of the original parameter read. -/
def add_slices_to_kvcache_inputs (get_any_name : List String → Except Exception String) :
    List Node → Except Exception (List (Node × Source))
  | [] => .ok []
  | param :: rest =>
    match add_slice_to_kvcache_input get_any_name param with
    | .error e => .error e
    | .ok new_param =>
      match add_slices_to_kvcache_inputs get_any_name rest with
      | .error e => .error e
      | .ok new_params => .ok (new_param :: new_params)

/-- The extent of a `Slice` along an axis of extent `dim`, for a positive
step, after the OpenVINO operation specification: a negative `start` or `stop`
counts from the end, both are clamped to `[0, dim]`, and the positions
`start, start + step, ...` below `stop` are taken. -/
def slice_extent (dim : Nat) (start stop step : Int) : Nat :=
  let norm := fun (i : Int) => max 0 (min (dim : Int) (if i < 0 then i + dim else i))
  ((norm stop - norm start + step - 1) / step).toNat

/-- The first position that a `Slice` reads along an axis of extent `dim`. -/
def slice_first (dim : Nat) (start : Int) : Nat :=
  (max 0 (min (dim : Int) (if start < 0 then start + dim else start))).toNat

/-- The static shape of what a consumer reads: the shape of the parameter, or
the shape that `Slice` infers from the shape of its data input and its four
one-element constants (positive step). -/
def Source.get_shape : Source → Option (List Nat)
  | .parameter (.Parameter _ _ _ partial_shape) => (get_output_shape partial_shape).toOption
  | .slice (.Parameter _ _ _ partial_shape) (.Constant _ _ [.num start])
      (.Constant _ _ [.num stop]) (.Constant _ _ [.num step]) (.Constant _ _ [.num axis]) _ =>
    match get_output_shape partial_shape with
    | .ok shape =>
      if 0 < step ∧ 0 ≤ axis ∧ axis.toNat < shape.length then
        some (shape.set axis.toNat (slice_extent (shape.getD axis.toNat 0) start stop step))
      else none
    | .error _ => none
  | _ => none

/-- The tensor that a consumer reads, given the tensor bound to the parameter
of the returned model: for a `Slice`, element `i` along the axis is element
`first + i * step` of the data. -/
def Source.read {α : Type} (value : Tensor α) : Source → Option (Tensor α)
  | .parameter _ => some value
  | .slice _ (.Constant _ _ [.num start]) (.Constant _ _ [.num stop])
      (.Constant _ _ [.num step]) (.Constant _ _ [.num axis]) _ =>
    if 0 < step ∧ 0 ≤ axis ∧ axis.toNat < value.shape.length then
      some
        { shape := value.shape.set axis.toNat
            (slice_extent (value.shape.getD axis.toNat 0) start stop step)
          data := fun idx =>
            value.data (idx.set axis.toNat
              (slice_first (value.shape.getD axis.toNat 0) start +
                idx.getD axis.toNat 0 * step.toNat)) }
    else none
  | _ => none

/-- `get_any_name` taken as the first of the names; a tensor without names
throws. -/
def first_name : List String → Except Exception String
  | [] => .error .no_tensor_name
  | name :: _ => .ok name

/-- The parameters of a small model: the token ids and one value cache of
static shape `[1, 2, 3, 4]`. -/
def example_parameters : List Node :=
  [.Parameter "input_ids" ["input_ids"] .i64 [.static 1, .static 1],
   .Parameter "Parameter_7" ["past_key_values.0.value"] .f16
     [.static 1, .static 2, .static 3, .static 4]]

/-- The parameters of a model whose cache has `2 ^ 31 - 1` positions. -/
def huge_cache_parameters : List Node :=
  [.Parameter "Parameter_7" ["past_key_values.0.value"] .f16
     [.static 1, .static 1, .static 2147483647, .static 1]]

/-- What `add_slices_to_kvcache_inputs` returns for `example_parameters`: the
cache becomes a parameter of shape `[1, 2, 4, 4]` that is read through a
`Slice` from `1` to `4`. -/
def example_sliced_parameters : List (Node × Source) :=
  [(.Parameter "input_ids" ["input_ids"] .i64 [.static 1, .static 1],
    .parameter (.Parameter "input_ids" ["input_ids"] .i64 [.static 1, .static 1])),
   (.Parameter "past_key_values.0.value" ["past_key_values.0.value"] .f16
      [.static 1, .static 2, .static 4, .static 4],
    .slice (.Parameter "past_key_values.0.value" ["past_key_values.0.value"] .f16
        [.static 1, .static 2, .static 4, .static 4])
      (const_i32_vector 1) (const_i32_vector 4) (const_i32_vector 1)
      (const_i32_vector 2) "past_key_values.0.value_Slice")]

/-! ## `optimize_value_tensors` -/

/-- The parameter that the pattern of `TransposeValueTensors` binds on a
root, when it matches. -/
def matched_param : Node → Option Node
  | .MatMul (.Softmax _ _)
      (.Concat (.Parameter friendly_name names element_type shape) (.Transpose _ _) _) _ _ =>
    some (.Parameter friendly_name names element_type shape)
  | _ => none

theorem AnyMap.find_nil (k : String) : AnyMap.find [] k = none := rfl

theorem AnyMap.find_cons (k k' : String) (v : Any) (rest : AnyMap) :
    AnyMap.find ((k', v) :: rest) k = if k = k' then some v else AnyMap.find rest k := by
  unfold AnyMap.find
  rw [List.lookup_cons]
  by_cases h : k = k'
  · simp [h]
  · have : (k == k') = false := by simpa using h
    simp [this, h]

theorem AnyMap.find_append_of_none (m : AnyMap) (k k' : String) (v : Any)
    (h : AnyMap.find m k' = none) :
    AnyMap.find (m ++ [(k', v)]) k = if k = k' then some v else AnyMap.find m k := by
  induction m with
  | nil => simp [AnyMap.find_cons, AnyMap.find_nil]
  | cons kv rest ih =>
    obtain ⟨a, b⟩ := kv
    rw [AnyMap.find_cons] at h
    by_cases hk : k' = a
    · simp [hk] at h
    · simp only [hk, if_false] at h
      rw [List.cons_append, AnyMap.find_cons, AnyMap.find_cons, ih h]
      by_cases h1 : k = a
      · have h2 : ¬ a = k' := fun e => hk e.symm
        simp [h1, h2]
      · simp [h1]

theorem AnyMap.find_assign (m : AnyMap) (k k' : String) (v : Any) :
    AnyMap.find (AnyMap.assign m k' v) k =
      if k = k' then (if (AnyMap.find m k').isSome then some v else none)
      else AnyMap.find m k := by
  induction m with
  | nil => simp [AnyMap.assign, AnyMap.find_nil]
  | cons kv rest ih =>
    obtain ⟨a, b⟩ := kv
    simp only [AnyMap.assign]
    by_cases ha : a = k'
    · subst ha
      simp only [beq_self_eq_true, if_true, AnyMap.find_cons]
      by_cases hk : k = a
      · simp [hk]
      · simp [hk]
    · have hb : (a == k') = false := by simpa using ha
      simp only [hb, Bool.false_eq_true, if_false, AnyMap.find_cons, ih]
      by_cases hk : k = k'
      · subst hk
        have : ¬ k = a := fun e => ha e.symm
        simp [this]
      · simp [hk]

theorem AnyMap.find_emplace (m : AnyMap) (k k' : String) (v : Any) :
    AnyMap.find (AnyMap.emplace m k' v) k =
      if k = k' then (match AnyMap.find m k' with | some old => some old | none => some v)
      else AnyMap.find m k := by
  unfold AnyMap.emplace
  cases h : AnyMap.find m k' with
  | none =>
    simp only [Option.isSome_none, Bool.false_eq_true, if_false]
    rw [AnyMap.find_append_of_none m k k' v h]
  | some old =>
    simp only [Option.isSome_some, if_true]
    by_cases hk : k = k'
    · simp [hk, h]
    · simp [hk]

theorem find_merge_entry (lhs : AnyMap) (kv : String × Any) (k : String) :
    AnyMap.find (merge_entry lhs kv) k = if k = kv.1 then some kv.2 else AnyMap.find lhs k := by
  unfold merge_entry
  cases h : AnyMap.find lhs kv.1 with
  | none =>
    simp only
    rw [AnyMap.find_emplace, h]
  | some old =>
    simp only
    rw [AnyMap.find_assign, h]
    simp

theorem AnyMap.find_eq_none_iff (m : AnyMap) (k : String) :
    AnyMap.find m k = none ↔ k ∉ AnyMap.keys m := by
  induction m with
  | nil => simp [AnyMap.find_nil, AnyMap.keys]
  | cons kv rest ih =>
    obtain ⟨a, b⟩ := kv
    rw [AnyMap.find_cons]
    by_cases hk : k = a
    · simp [hk, AnyMap.keys]
    · simp only [hk, if_false, ih]
      simp [AnyMap.keys, hk]

theorem find_merge_config_with (rhs : AnyMap) (hrhs : AnyMap.WF rhs) (lhs : AnyMap) (k : String) :
    AnyMap.find (merge_config_with lhs rhs) k =
      match AnyMap.find rhs k with
      | some v => some v
      | none => AnyMap.find lhs k := by
  induction rhs generalizing lhs with
  | nil => simp [merge_config_with, AnyMap.find_nil]
  | cons kv rest ih =>
    obtain ⟨a, b⟩ := kv
    have hnd : a ∉ AnyMap.keys rest ∧ AnyMap.WF rest := by
      simpa [AnyMap.WF, AnyMap.keys] using hrhs
    have ih' := ih hnd.2 (merge_entry lhs (a, b))
    simp only [merge_config_with, List.foldl_cons] at ih' ⊢
    rw [ih', AnyMap.find_cons, find_merge_entry]
    by_cases hk : k = a
    · subst hk
      have : AnyMap.find rest k = none := (AnyMap.find_eq_none_iff rest k).2 hnd.1
      simp [this]
    · simp [hk]

theorem mem_keys_iff_find (m : AnyMap) (k : String) :
    k ∈ AnyMap.keys m ↔ (AnyMap.find m k).isSome := by
  have := AnyMap.find_eq_none_iff m k
  cases h : AnyMap.find m k with
  | none => simp [h] at this; simp [this]
  | some v => simp [h] at this; simp [this]
/-! ## Configuration plumbing -/

/-- C9: `pop_int_and_cast` raises exactly when the key is present and its
value either holds neither an `int` nor an `int64_t` or is negative; an absent
key yields no value, no error, and the unchanged map. -/
theorem C9_pop_int_and_cast_raises_iff (config : AnyMap) (key : String) :
    ((∃ e, pop_int_and_cast config key = .error e) ↔
      ∃ any, AnyMap.find config key = some any ∧
        ((∀ v, any ≠ .int v ∧ any ≠ .int64 v) ∨
          ∃ v, (any = .int v ∨ any = .int64 v) ∧ v < 0)) ∧
    (AnyMap.find config key = none → pop_int_and_cast config key = .ok (none, config)) := by
  unfold pop_int_and_cast pop_option
  cases h : AnyMap.find config key with
  | none => simp
  | some any =>
    cases any with
    | int v =>
      by_cases hv : v < 0
      · simp [hv]
      · simp [hv]
    | int64 v =>
      by_cases hv : v < 0
      · simp [hv]
      · simp [hv]
    | _ => simp

/-- C9, at concrete maps: a string under the key and a negative `int64_t`
raise, a non-negative `int` and an absent key do not. -/
theorem C9_pop_int_and_cast_examples :
    pop_int_and_cast [("MAX_PROMPT_LEN", .str "1024")] "MAX_PROMPT_LEN"
      = .error (.type_mismatch "MAX_PROMPT_LEN") ∧
    pop_int_and_cast [("MAX_PROMPT_LEN", .int64 (-1))] "MAX_PROMPT_LEN"
      = .error (.negative "MAX_PROMPT_LEN") ∧
    pop_int_and_cast [("MAX_PROMPT_LEN", .int 2048)] "MAX_PROMPT_LEN" = .ok (some 2048, []) ∧
    pop_int_and_cast [("NPUW_LLM", .str "YES")] "MAX_PROMPT_LEN"
      = .ok (none, [("NPUW_LLM", .str "YES")]) :=
  ⟨by decide, by decide, by decide,
    (C9_pop_int_and_cast_raises_iff [("NPUW_LLM", .str "YES")] "MAX_PROMPT_LEN").2 (by decide)⟩

/-- C10: after `merge_config_with(lhs, rhs)` every key of `rhs` maps to the
value `rhs` gives it, every other key maps to what `lhs` gave it before, and
the keys are exactly those of `lhs` or `rhs`.  `rhs` is an input of the
function only, so it is not modified. -/
theorem C10_merge_config_with_last_writer_wins (lhs rhs : AnyMap) (hrhs : AnyMap.WF rhs) :
    (∀ k, k ∈ AnyMap.keys rhs →
      AnyMap.find (merge_config_with lhs rhs) k = AnyMap.find rhs k) ∧
    (∀ k, k ∉ AnyMap.keys rhs →
      AnyMap.find (merge_config_with lhs rhs) k = AnyMap.find lhs k) ∧
    (∀ k, k ∈ AnyMap.keys (merge_config_with lhs rhs) ↔
      k ∈ AnyMap.keys lhs ∨ k ∈ AnyMap.keys rhs) := by
  refine ⟨?_, ?_, ?_⟩
  · intro k hk
    rw [find_merge_config_with rhs hrhs lhs k]
    rw [mem_keys_iff_find] at hk
    cases h : AnyMap.find rhs k with
    | none => simp [h] at hk
    | some v => rfl
  · intro k hk
    rw [find_merge_config_with rhs hrhs lhs k, (AnyMap.find_eq_none_iff rhs k).2 hk]
  · intro k
    rw [mem_keys_iff_find, mem_keys_iff_find, mem_keys_iff_find,
      find_merge_config_with rhs hrhs lhs k]
    cases h : AnyMap.find rhs k with
    | none => simp
    | some v => simp

/-- C10, at a concrete pair of maps: the conflicting key `NPUW_DQ` takes the
value of `rhs`, the key only in `lhs` keeps its value, the key only in `rhs`
is added. -/
theorem C10_merge_config_with_witness :
    AnyMap.WF [("NPUW_DQ", .str "NO"), ("NPUW_PMM", .str "NO")] ∧
    AnyMap.find (merge_config_with [("NPUW_FOLD", .str "YES"), ("NPUW_DQ", .str "YES")]
      [("NPUW_DQ", .str "NO"), ("NPUW_PMM", .str "NO")]) "NPUW_DQ" = some (.str "NO") ∧
    AnyMap.find (merge_config_with [("NPUW_FOLD", .str "YES"), ("NPUW_DQ", .str "YES")]
      [("NPUW_DQ", .str "NO"), ("NPUW_PMM", .str "NO")]) "NPUW_FOLD" = some (.str "YES") :=
  have h : AnyMap.WF [("NPUW_DQ", .str "NO"), ("NPUW_PMM", .str "NO")] := by
    unfold AnyMap.WF AnyMap.keys; decide
  ⟨h,
    (C10_merge_config_with_last_writer_wins
      [("NPUW_FOLD", .str "YES"), ("NPUW_DQ", .str "YES")] _ h).1 "NPUW_DQ"
        (by unfold AnyMap.keys; decide),
    (C10_merge_config_with_last_writer_wins
      [("NPUW_FOLD", .str "YES"), ("NPUW_DQ", .str "YES")] _ h).2.1 "NPUW_FOLD"
        (by unfold AnyMap.keys; decide)⟩

/-! ## Static reshaping -/

theorem lookup_append_singleton {β : Type} (l : List (String × β)) (k k' : String) (v : β) :
    List.lookup k (l ++ [(k', v)]) =
      match List.lookup k l with
      | some x => some x
      | none => if k = k' then some v else none := by
  induction l with
  | nil =>
    by_cases h : k = k'
    · simp [List.lookup, h]
    · have : (k == k') = false := by simpa using h
      simp [List.lookup, h, this]
  | cons kv rest ih =>
    obtain ⟨a, b⟩ := kv
    by_cases h : k = a
    · simp [List.lookup, h]
    · have : (k == a) = false := by simpa using h
      simp [List.lookup, this, ih]

theorem sub_uint32_eq (a b : Nat) (hba : b ≤ a) (ha : a < 2 ^ 32) : sub_uint32 a b = a - b := by
  unfold sub_uint32
  have hb : b % 2 ^ 32 = b := Nat.mod_eq_of_lt (by omega)
  rw [hb]
  have : a + 2 ^ 32 - b = (a - b) + 2 ^ 32 := by omega
  rw [this, Nat.add_mod_right]
  exact Nat.mod_eq_of_lt (by omega)

/-- The shape that the last branch of `reshape_to_static` computes for a cache
input: the batch axis is `1`, the sequence axis is `C - P`, the rest is kept. -/
theorem cache_shape_spec (shape : PartialShape) (P C : Nat) (kv : KVAxesPosition)
    (hPC : P ≤ C) (hC : C < 2 ^ 32) (haxes : kv.batch ≠ kv.seq_len)
    (hb : kv.batch < shape.length) (hs : kv.seq_len < shape.length) :
    ∃ new_shape,
      (do
        let s ← set_dimension shape kv.batch (.static 1)
        set_dimension s kv.seq_len (.static (sub_uint32 C P))) = .ok new_shape ∧
      new_shape.length = shape.length ∧
      new_shape[kv.batch]? = some (.static 1) ∧
      new_shape[kv.seq_len]? = some (.static (C - P)) ∧
      ∀ i, i ≠ kv.batch → i ≠ kv.seq_len → new_shape[i]? = shape[i]? := by
  refine ⟨(shape.set kv.batch (.static 1)).set kv.seq_len (.static (C - P)), ?_, ?_, ?_, ?_, ?_⟩
  · simp [set_dimension, hb, hs, sub_uint32_eq C P hPC hC, bind, Except.bind]
  · simp
  · rw [List.getElem?_set_ne (Ne.symm haxes)]
    simp [hb]
  · simp [hs]
  · intro i hib his
    rw [List.getElem?_set_ne (Ne.symm his), List.getElem?_set_ne (Ne.symm hib)]

theorem new_shape_of_spec (input : ModelInput) (P C : Nat) (kv : KVAxesPosition)
    (hPC : P ≤ C) (hC : C < 2 ^ 32) (haxes : kv.batch ≠ kv.seq_len)
    (hrank : contains input.any_name "input_ids" = false →
      contains input.any_name "attention_mask" = false →
      contains input.any_name "position_ids" = false →
      kv.batch < input.shape.length ∧ kv.seq_len < input.shape.length) :
    ∃ shape, new_shape_of input P C kv = .ok shape ∧ shape_rule input P C kv shape := by
  unfold new_shape_of shape_rule
  by_cases h1 : contains input.any_name "input_ids" = true
  · simp [h1]
  · by_cases h2 : contains input.any_name "attention_mask" = true
    · simp [h1, h2]
    · by_cases h3 : contains input.any_name "position_ids" = true
      · simp [h1, h2, h3]
      · simp only [h1, h2, h3, Bool.false_eq_true, if_false]
        have hr := hrank (by simpa using h1) (by simpa using h2) (by simpa using h3)
        exact cache_shape_spec input.shape P C kv hPC hC haxes hr.1 hr.2

theorem reshape_loop_spec (P C : Nat) (kv : KVAxesPosition) (inputs : List ModelInput) :
    ∀ acc : List (String × PartialShape),
    (inputs.map ModelInput.any_name).Nodup →
    (∀ input ∈ inputs, List.lookup input.any_name acc = none) →
    (∀ input ∈ inputs, ∃ s, new_shape_of input P C kv = .ok s) →
    ∃ out, reshape_loop P C kv inputs acc = .ok out ∧
      (∀ n s, List.lookup n acc = some s → List.lookup n out = some s) ∧
      ∀ input ∈ inputs, ∃ s, new_shape_of input P C kv = .ok s ∧
        List.lookup input.any_name out = some s := by
  induction inputs with
  | nil =>
    intro acc _ _ _
    exact ⟨acc, rfl, fun _ _ h => h, by simp⟩
  | cons input rest ih =>
    intro acc hnd hfresh hok
    obtain ⟨s0, hs0⟩ := hok input (List.mem_cons_self _ _)
    have hnd' : input.any_name ∉ rest.map ModelInput.any_name ∧
        (rest.map ModelInput.any_name).Nodup := by simpa using hnd
    have hacc : List.lookup input.any_name acc = none := hfresh input (List.mem_cons_self _ _)
    have hemp : emplace_shape acc input.any_name s0 = acc ++ [(input.any_name, s0)] := by
      simp [emplace_shape, hacc]
    have hfresh' : ∀ i ∈ rest, List.lookup i.any_name (acc ++ [(input.any_name, s0)]) = none := by
      intro i hi
      rw [lookup_append_singleton, hfresh i (List.mem_cons_of_mem _ hi)]
      have : i.any_name ≠ input.any_name := by
        intro e
        exact hnd'.1 (e ▸ List.mem_map_of_mem _ hi)
      simp [this]
    obtain ⟨out, hout, hpres, hall⟩ :=
      ih (acc ++ [(input.any_name, s0)]) hnd'.2 hfresh'
        (fun i hi => hok i (List.mem_cons_of_mem _ hi))
    refine ⟨out, ?_, ?_, ?_⟩
    · simp only [reshape_loop, hs0, hemp, bind, Except.bind]
      exact hout
    · intro n s hn
      apply hpres
      rw [lookup_append_singleton, hn]
    · intro i hi
      rcases List.mem_cons.1 hi with rfl | hi'
      · refine ⟨s0, hs0, hpres _ _ ?_⟩
        rw [lookup_append_singleton, hacc]
        simp
      · exact hall i hi'

/-- C7: with `P ≤ C`, `reshape_to_static` hands `model->reshape` a map that
gives every input the shape `[1, P]` when its name contains `input_ids`, else
`[1, C]` when it contains `attention_mask`, else `[1, P]` when it contains
`position_ids`, and otherwise its own shape with the batch axis set to `1`,
the sequence axis set to `C - P` and every other dimension unchanged.  The
inputs of a model have distinct names, and the batch and sequence axes are two
axes of every cache input. -/
theorem C7_reshape_to_static_shapes (model : Model) (P C : Nat) (kv : KVAxesPosition)
    (hPC : P ≤ C) (hC : C < 2 ^ 32)
    (hnames : (model.inputs.map ModelInput.any_name).Nodup)
    (haxes : kv.batch ≠ kv.seq_len)
    (hrank : ∀ input ∈ model.inputs,
      contains input.any_name "input_ids" = false →
      contains input.any_name "attention_mask" = false →
      contains input.any_name "position_ids" = false →
      kv.batch < input.shape.length ∧ kv.seq_len < input.shape.length) :
    ∃ new_shapes, reshape_to_static model P C kv = .ok new_shapes ∧
      ∀ input ∈ model.inputs, ∃ shape,
        List.lookup input.any_name new_shapes = some shape ∧
        if contains input.any_name "input_ids" then shape = [.static 1, .static P]
        else if contains input.any_name "attention_mask" then shape = [.static 1, .static C]
        else if contains input.any_name "position_ids" then shape = [.static 1, .static P]
        else shape.length = input.shape.length ∧
          shape[kv.batch]? = some (.static 1) ∧
          shape[kv.seq_len]? = some (.static (C - P)) ∧
          ∀ i, i ≠ kv.batch → i ≠ kv.seq_len → shape[i]? = input.shape[i]? := by
  have hok : ∀ input ∈ model.inputs, ∃ s, new_shape_of input P C kv = .ok s := by
    intro input hi
    obtain ⟨s, hs, _⟩ := new_shape_of_spec input P C kv hPC hC haxes (hrank input hi)
    exact ⟨s, hs⟩
  obtain ⟨out, hout, _, hall⟩ :=
    reshape_loop_spec P C kv model.inputs [] hnames (by simp [List.lookup]) hok
  refine ⟨out, hout, ?_⟩
  intro input hi
  obtain ⟨s, hs, hlook⟩ := hall input hi
  obtain ⟨s', hs', hrule⟩ := new_shape_of_spec input P C kv hPC hC haxes (hrank input hi)
  have : s = s' := by
    rw [hs] at hs'
    exact Except.ok.inj hs'
  subst this
  exact ⟨s, hlook, hrule⟩

/-- C7, for `P = 128` and `C = 256`: the named inputs resolve to `[1, 128]`
and `[1, 256]`, and the cache input `[?, 32, ?, 128]` to `[1, 32, 128, 128]`. -/
theorem C7_reshape_to_static_witness :
    reshape_to_static example_model 128 256 ⟨0, 2⟩ = .ok [
      ("input_ids", [.static 1, .static 128]),
      ("attention_mask", [.static 1, .static 256]),
      ("position_ids", [.static 1, .static 128]),
      ("past_key_values.0.value", [.static 1, .static 32, .static 128, .static 128])] ∧
    ∃ new_shapes, reshape_to_static example_model 128 256 ⟨0, 2⟩ = .ok new_shapes ∧
      ∀ input ∈ example_model.inputs, ∃ shape,
        List.lookup input.any_name new_shapes = some shape ∧
        if contains input.any_name "input_ids" then shape = [.static 1, .static 128]
        else if contains input.any_name "attention_mask" then shape = [.static 1, .static 256]
        else if contains input.any_name "position_ids" then shape = [.static 1, .static 128]
        else shape.length = input.shape.length ∧
          shape[0]? = some (.static 1) ∧
          shape[2]? = some (.static (256 - 128)) ∧
          ∀ i, i ≠ 0 → i ≠ 2 → shape[i]? = input.shape[i]? :=
  ⟨by decide,
    C7_reshape_to_static_shapes example_model 128 256 ⟨0, 2⟩ (by decide) (by decide)
      (by decide) (by decide) (by decide)⟩

/-! ## Configuration derivation -/

/-- C8: the derived prefill and generate configurations are functions of the
hardware descriptor, the compression metadata of the model, the hint and the
value of `DISABLE_OPENVINO_GENAI_NPU_L0` alone: two calls that agree on these
(whatever else differs between the models) return the same entries, hence the
same keys and the same values. -/
theorem C8_config_derivation_deterministic (model₁ model₂ : Model)
    (npudesc : Option NPUDesc) (hint : GenerateHint) (npu_l0 : Option String)
    (hmeta : List.lookup ["nncf", "weight_compression", "group_size"] model₁.rt_info =
      List.lookup ["nncf", "weight_compression", "group_size"] model₂.rt_info) :
    get_default_prefill_config model₁ npudesc npu_l0 =
      get_default_prefill_config model₂ npudesc npu_l0 ∧
    get_default_generate_config model₁ npudesc hint npu_l0 =
      get_default_generate_config model₂ npudesc hint npu_l0 := by
  have hcw : is_cw_compressed model₁ = is_cw_compressed model₂ := by
    simp only [is_cw_compressed, hmeta]
  constructor
  · simp only [get_default_prefill_config, get_default_common_config, hcw]
  · simp only [get_default_generate_config, get_default_common_config]

/-- C8, at two different models with the same compression metadata, for a
device of architecture `4000` and the variable set to `1`. -/
theorem C8_config_derivation_witness :
    example_model ≠ example_model_other_inputs ∧
    get_default_prefill_config example_model (some ⟨"4000", 4, false⟩) (some "1") =
      get_default_prefill_config example_model_other_inputs (some ⟨"4000", 4, false⟩)
        (some "1") ∧
    get_default_generate_config example_model (some ⟨"4000", 4, false⟩) .BEST_PERF (some "1") =
      get_default_generate_config example_model_other_inputs (some ⟨"4000", 4, false⟩)
        .BEST_PERF (some "1") :=
  ⟨by decide,
    C8_config_derivation_deterministic example_model example_model_other_inputs
      (some ⟨"4000", 4, false⟩) .BEST_PERF (some "1") (by decide)⟩

/-! ## Graph rewrites -/

/-- Companion of C4, what the code computes: with a boolean mask and the
causal attribute unset, the term that `decompose` adds to the scores before
the softmax is minus infinity where the mask is `true` and `0` where the mask
is `false`. -/
theorem boolean_mask_term (node : SDPA) (input : Nat → Scalar) (m : Bool)
    (hcausal : node.causal = false) (hmask : 3 < node.inputs.length)
    (hbool : (node.input_value 3).get_element_type = .boolean)
    (hquery : (node.input_value 0).get_element_type ≠ .boolean)
    (hval : eval_elem input (node.input_value 3) = some (.bool m)) :
    ∃ term, added_term (decompose node) = some term ∧
      eval_elem input term = some (if m then .neg_inf else .num 0) := by
  refine ⟨.Select (.LogicalNot (node.input_value 3))
      (.ConvertLike (node.input_value 3) (decompose_scores node)) (decompose_minus_inf node),
    ?_, ?_⟩
  · simp [decompose, decompose_mask, hcausal, hmask, hbool, added_term]
  · have hty : (decompose_scores node).get_element_type = (node.input_value 0).get_element_type := by
      simp [decompose_scores, Node.get_element_type]
    cases m with
    | true =>
      simp only [eval_elem, hval, decompose_minus_inf, Bool.not_true, hty]
      cases h : (node.input_value 0).get_element_type <;> simp_all [convert_scalar]
    | false =>
      simp only [eval_elem, hval, Bool.not_false, hty]
      cases h : (node.input_value 0).get_element_type <;> simp_all [convert_scalar]

/-- C4, evaluated on an attention node with a boolean mask and no causal
attribute: the term added to the scores before the softmax is minus infinity
at a position where the mask is `true` (keep) and `0` at a position where the
mask is `false`; the claim states the opposite. -/
theorem C4_boolean_mask_term_inverted :
    (added_term (decompose example_masked_attention)).bind
        (eval_elem (fun _ => .bool true)) = some .neg_inf ∧
    (added_term (decompose example_masked_attention)).bind
        (eval_elem (fun _ => .bool false)) = some (.num 0) := by
  constructor <;> decide

/-- C5: on a matched subgraph whose cache parameter has shape `[b, h, s, e]`,
the callback of `TransposeValueTensors` replaces the parameter by one of shape
`[b, h, e, s]` with the same element type (and names), rebuilds the transpose
with the axis order `(0, 2, 3, 1)`, rebuilds the concat of the new parameter
and the new transpose on axis `3`, and sets `transpose_b` of the matmul. -/
theorem C5_transpose_value_tensors_rewrite (ctx : Context) (scores : Node)
    (softmax_axis : Int) (friendly_name : String) (names : List String)
    (element_type : ElementType) (b h s e : Dimension) (x order : Node) (axis : Int)
    (transpose_a transpose_b : Bool) :
    TransposeValueTensors_callback ctx
      (.MatMul (.Softmax scores softmax_axis)
        (.Concat (.Parameter friendly_name names element_type [b, h, s, e])
          (.Transpose x order) axis) transpose_a transpose_b) =
    .ok (some
      (.MatMul (.Softmax scores softmax_axis)
        (.Concat (.Parameter friendly_name names element_type [b, h, e, s])
          (.Transpose x (.Constant .i32 [4] [.num 0, .num 2, .num 3, .num 1])) 3)
        transpose_a true,
       { new_params := ctx.new_params ++ [.Parameter friendly_name names element_type [b, h, e, s]]
         old_params :=
           ctx.old_params ++ [.Parameter friendly_name names element_type [b, h, s, e]] })) := by
  simp [TransposeValueTensors_callback, swap_2_3]

/-- C6 fails for a matched subgraph whose transpose does not use the order
`(0, 2, 1, 3)`: the pattern matches, both subgraphs are well shaped and give a
`[1, 2, 1, 1]` result, and at index `[0, 0, 0, 0]` the original yields `5`
while the rewritten subgraph, fed the transposed cache, yields `7`. -/
theorem C6_counterexample_identity_order :
    ∃ rewritten ctx r r',
      TransposeValueTensors_callback ⟨[], []⟩ identity_order_subgraph
        = .ok (some (rewritten, ctx)) ∧
      eval_subgraph example_env identity_order_subgraph = some r ∧
      eval_subgraph (example_env.with_transposed "past_key_values.0.value") rewritten
        = some r' ∧
      r.shape = [1, 2, 1, 1] ∧ r'.shape = [1, 2, 1, 1] ∧
      r.data [0, 0, 0, 0] = 5 ∧ r'.data [0, 0, 0, 0] = 7 := by
  refine ⟨_, _, _, _, rfl, rfl, rfl, ?_, ?_, ?_, ?_⟩
  · decide
  · decide
  · decide
  · decide
theorem transpose_last_two_shape {α : Type} (t : Tensor α) :
    (transpose_last_two t).shape =
      [t.shape.getD 0 0, t.shape.getD 1 0, t.shape.getD 3 0, t.shape.getD 2 0] := by
  simp [transpose_last_two, Tensor.transpose]

theorem transpose_last_two_data {α : Type} (t : Tensor α) (h : t.shape.length = 4)
    (i0 i1 i2 i3 : Nat) :
    (transpose_last_two t).data [i0, i1, i2, i3] = t.data [i0, i1, i3, i2] := by
  simp [transpose_last_two, Tensor.transpose, h, List.range_succ, List.indexOf_cons]

/-- The new values in cache layout, read through either transpose: element
`[i0, i1, c, k]` of `Transpose(x, (0, 2, 3, 1))` is element `[i0, i1, k, c]` of
`Transpose(x, (0, 2, 1, 3))`. -/
theorem transpose_orders_agree {α : Type} (x : Tensor α) (i0 i1 k c : Nat) :
    (x.transpose [0, 2, 3, 1]).data [i0, i1, c, k] =
      (x.transpose [0, 2, 1, 3]).data [i0, i1, k, c] := by
  simp only [Tensor.transpose]
  congr 1
  apply List.map_congr_left
  intro j _
  rcases j with _ | _ | _ | _ | j <;> simp [List.indexOf_cons]
theorem concat_layouts_agree {α : Type} (p x : Tensor α) (hp : p.shape.length = 4)
    (i0 i1 k c : Nat) :
    ((transpose_last_two p).concat (x.transpose [0, 2, 3, 1]) 3).data [i0, i1, c, k] =
      (p.concat (x.transpose [0, 2, 1, 3]) 2).data [i0, i1, k, c] := by
  have h3 : (transpose_last_two p).shape.getD 3 0 = p.shape.getD 2 0 := by
    rw [transpose_last_two_shape]; rfl
  simp only [Tensor.concat, h3]
  have e1 : ([i0, i1, c, k] : List Nat).getD 3 0 = k := rfl
  have e2 : ([i0, i1, k, c] : List Nat).getD 2 0 = k := rfl
  rw [e1, e2]
  by_cases hk : k < p.shape.getD 2 0
  · simp only [hk, if_true]
    exact transpose_last_two_data p hp i0 i1 c k
  · simp only [hk, if_false]
    exact transpose_orders_agree x i0 i1 (k - p.shape.getD 2 0) c

theorem length_four {β : Type} (l : List β) (h : l.length = 4) :
    ∃ a b c d, l = [a, b, c, d] := by
  match l, h with
  | [a, b, c, d], _ => exact ⟨a, b, c, d, rfl⟩

/-- C6, amended: for a matched subgraph whose cache parameter has rank 4,
whose transpose uses the axis order `(0, 2, 1, 3)`, whose concat joins on axis
`2` and whose matmul does not transpose its second operand, the rewritten
subgraph, fed the original cache value with its last two axes exchanged,
yields a tensor of the same shape with the same element at every index
`[i0, i1, i2, i3]` as the original subgraph fed the original cache value.  The
attention weights and the new values are produced outside the pattern and are
the same on both sides. -/
theorem C6_layout_inversion_preserves_result {α : Type} [Zero α] [Add α] [Mul α]
    (env : Env α) (ctx : Context) (scores x order : Node) (softmax_axis axis : Int)
    (friendly_name : String) (names : List String) (element_type : ElementType)
    (shape : PartialShape) (transpose_a : Bool) (scores_value new_values : Tensor α)
    (hshape : shape.length = 4)
    (hrank : (env.param friendly_name).shape.length = shape.length)
    (horder : order_values order = some [0, 2, 1, 3])
    (haxis : axis = 2 ∨ axis = -2)
    (hscores : eval_subgraph env scores = some scores_value)
    (hscores' : eval_subgraph (env.with_transposed friendly_name) scores = some scores_value)
    (hx : eval_subgraph env x = some new_values)
    (hx' : eval_subgraph (env.with_transposed friendly_name) x = some new_values) :
    ∃ rewritten ctx' r r',
      TransposeValueTensors_callback ctx
        (.MatMul (.Softmax scores softmax_axis)
          (.Concat (.Parameter friendly_name names element_type shape) (.Transpose x order) axis)
          transpose_a false) = .ok (some (rewritten, ctx')) ∧
      eval_subgraph env
        (.MatMul (.Softmax scores softmax_axis)
          (.Concat (.Parameter friendly_name names element_type shape) (.Transpose x order) axis)
          transpose_a false) = some r ∧
      eval_subgraph (env.with_transposed friendly_name) rewritten = some r' ∧
      r'.shape = r.shape ∧
      ∀ i0 i1 i2 i3, r'.data [i0, i1, i2, i3] = r.data [i0, i1, i2, i3] := by
  have hp4 : (env.param friendly_name).shape.length = 4 := by rw [hrank, hshape]
  have hnorm : normalize_axis axis 4 = 2 := by
    rcases haxis with h | h <;> subst h <;> decide
  have hord' : order_values (.Constant .i32 [4] [.num 0, .num 2, .num 3, .num 1])
      = some [0, 2, 3, 1] := by decide
  have hparam' : (env.with_transposed friendly_name).param friendly_name
      = transpose_last_two (env.param friendly_name) := by
    simp [Env.with_transposed]
  have hsoft' : (env.with_transposed friendly_name).softmax = env.softmax := rfl
  have htl4 : (transpose_last_two (env.param friendly_name)).shape.length = 4 := by
    rw [transpose_last_two_shape]; rfl
  refine ⟨.MatMul (.Softmax scores softmax_axis)
      (.Concat (.Parameter friendly_name names element_type (swap_2_3 shape))
        (.Transpose x (.Constant .i32 [4] [.num 0, .num 2, .num 3, .num 1])) 3) transpose_a true,
    { new_params := ctx.new_params ++ [.Parameter friendly_name names element_type (swap_2_3 shape)]
      old_params := ctx.old_params ++ [.Parameter friendly_name names element_type shape] },
    (env.softmax scores_value softmax_axis).matmul
      ((env.param friendly_name).concat (new_values.transpose [0, 2, 1, 3]) 2) transpose_a false,
    (env.softmax scores_value softmax_axis).matmul
      ((transpose_last_two (env.param friendly_name)).concat
        (new_values.transpose [0, 2, 3, 1]) 3) transpose_a true,
    ?_, ?_, ?_, ?_, ?_⟩
  · simp [TransposeValueTensors_callback, hshape]
  · simp only [eval_subgraph, hscores, hx, horder, hp4, hnorm]
  · simp only [eval_subgraph, hscores', hx', hord', hparam', hsoft', htl4]
    rfl
  · obtain ⟨a, b, c, d, hs⟩ := length_four _ hp4
    simp [Tensor.matmul, Tensor.concat, transpose_last_two_shape, hs]
  · intro i0 i1 i2 i3
    simp only [Tensor.matmul]
    congr 1
    funext acc k
    have := concat_layouts_agree (env.param friendly_name) new_values hp4 i0 i1 k i3
    simp only [matrix_index, List.length_cons, List.length_nil] at this ⊢
    simpa using congrArg (fun v => acc + _ * v) this

/-- C6 (amended), at the value subgraph with the order `(0, 2, 1, 3)` and the
integer tensors of `example_env`: the pattern matches, and the rewritten
subgraph fed the transposed cache agrees with the original one. -/
theorem C6_layout_inversion_witness :
    order_values (.Constant .i32 [4] [.num 0, .num 2, .num 1, .num 3]) = some [0, 2, 1, 3] ∧
    ∃ rewritten ctx' r r',
      TransposeValueTensors_callback ⟨[], []⟩ value_subgraph = .ok (some (rewritten, ctx')) ∧
      eval_subgraph example_env value_subgraph = some r ∧
      eval_subgraph (example_env.with_transposed "past_key_values.0.value") rewritten
        = some r' ∧
      r'.shape = r.shape ∧
      ∀ i0 i1 i2 i3, r'.data [i0, i1, i2, i3] = r.data [i0, i1, i2, i3] :=
  ⟨by decide,
    C6_layout_inversion_preserves_result example_env ⟨[], []⟩ (.Input 0 .f32) (.Input 1 .f32)
      (.Constant .i32 [4] [.num 0, .num 2, .num 1, .num 3]) (-1) 2
      "past_key_values.0.value" ["past_key_values.0.value"] .f32
      [.static 1, .static 2, .static 1, .static 1] false
      (example_env.input 0) (example_env.input 1)
      rfl rfl (by decide) (Or.inl rfl) rfl rfl rfl rfl⟩

/-! ## The generation loop -/

theorem finish_no_capacity_error (w : World) (st : GenState) (n : Nat) :
    (finish w st).result ≠ .error (.prompt_too_long n) := by
  unfold finish
  split_ifs <;> simp

theorem generate_from_prefill_no_capacity_error (self : StatefulLLMPipeline)
    (prompt_len : Nat) (w : World) (fuel : Nat) (run : Run)
    (hrun : generate_from_prefill self prompt_len w fuel = some run) (n : Nat) :
    run.result ≠ .error (.prompt_too_long n) := by
  unfold generate_from_prefill at hrun
  split_ifs at hrun
  · cases hrun; simp
  · cases hrun; simp
  · simp only [Option.map_eq_some'] at hrun
    obtain ⟨st, _, rfl⟩ := hrun
    exact finish_no_capacity_error w st n

/-- C1: a prompt with more tokens than `m_max_prompt_len` makes `generate`
raise, and no inference has been issued when it does (with the other entry
checks passed, the error is the capacity error); a prompt of at most
`m_max_prompt_len` tokens never raises the capacity error. -/
theorem C1_prompt_capacity_check (self : StatefulLLMPipeline) (inputs : EncodedInputs)
    (config : GenerationConfig) (w : World) (fuel : Nat) :
    (self.m_max_prompt_len < inputs.batch * inputs.seq_len →
      ∃ run e, generate self inputs config w fuel = some run ∧
        run.result = .error e ∧ infer_count run.events = 0 ∧
        (inputs.batch = 1 → config.valid = true →
          (config.is_greedy_decoding || config.is_multinomial) = true →
          config.num_return_sequences = 1 →
          e = .prompt_too_long self.m_max_prompt_len)) ∧
    (inputs.batch * inputs.seq_len ≤ self.m_max_prompt_len →
      ∀ run, generate self inputs config w fuel = some run →
        ∀ n, run.result ≠ .error (.prompt_too_long n)) := by
  constructor
  · intro hlen
    unfold generate
    by_cases h1 : inputs.batch ≠ 1
    · exact ⟨⟨[], .error .batch_size⟩, .batch_size, by rw [if_pos h1], rfl, rfl,
        fun h => absurd h h1⟩
    · by_cases h2 : (!config.valid) = true
      · refine ⟨⟨[], .error .invalid_generation_config⟩, .invalid_generation_config,
          by rw [if_neg h1, if_pos h2], rfl, rfl, ?_⟩
        intro _ hv; simp [hv] at h2
      · by_cases h3 : (!(config.is_greedy_decoding || config.is_multinomial)) = true
        · refine ⟨⟨[], .error .unsupported_decoding⟩, .unsupported_decoding,
            by rw [if_neg h1, if_neg h2, if_pos h3], rfl, rfl, ?_⟩
          intro _ _ hg; simp [hg] at h3
        · by_cases h4 : config.num_return_sequences ≠ 1
          · exact ⟨⟨[], .error .num_return_sequences⟩, .num_return_sequences,
              by rw [if_neg h1, if_neg h2, if_neg h3, if_pos h4], rfl, rfl,
              fun _ _ _ h => absurd h h4⟩
          · exact ⟨⟨[], .error (.prompt_too_long self.m_max_prompt_len)⟩,
              .prompt_too_long self.m_max_prompt_len,
              by rw [if_neg h1, if_neg h2, if_neg h3, if_neg h4, if_pos hlen],
              rfl, rfl, fun _ _ _ _ => rfl⟩
  · intro hlen run hrun n
    have hnot : ¬ (inputs.batch * inputs.seq_len > self.m_max_prompt_len) := by omega
    unfold generate at hrun
    split_ifs at hrun
    · cases hrun; simp
    · cases hrun; simp
    · cases hrun; simp
    · cases hrun; simp
    · exact generate_from_prefill_no_capacity_error self _ w fuel run hrun n

/-- C1, at the default capacities: a prompt of 1025 tokens is rejected with the
capacity error before any inference, whatever the sampler and the streamer. -/
theorem C1_prompt_capacity_witness :
    (1024 < 1 * 1025) ∧
    ∃ run e, generate ⟨1024, 1152⟩ ⟨1, 1025⟩ greedy_config cancelling_world 8 = some run ∧
      run.result = .error e ∧ infer_count run.events = 0 ∧
      (1 = 1 → greedy_config.valid = true →
        (greedy_config.is_greedy_decoding || greedy_config.is_multinomial) = true →
        greedy_config.num_return_sequences = 1 →
        e = .prompt_too_long 1024) :=
  ⟨by decide,
    (C1_prompt_capacity_check ⟨1024, 1152⟩ ⟨1, 1025⟩ greedy_config cancelling_world 8).1
      (by decide)⟩

/-! ### Cancellation -/

theorem write_count_append (a b : List Event) :
    write_count (a ++ b) = write_count a + write_count b := by
  simp [write_count, List.countP_append]

theorem infer_count_append (a b : List Event) :
    infer_count (a ++ b) = infer_count a + infer_count b := by
  simp [infer_count, List.countP_append]

theorem after_write_nil (k : Nat) : after_write k [] = [] := by
  cases k <;> simp [after_write]

theorem after_write_zero (events : List Event) : after_write 0 events = events := by
  cases events <;> simp [after_write]

/-- Events appended once `k` tokens were written stay behind the `k`-th write. -/
theorem after_write_append_of_le (more : List Event) :
    ∀ (k : Nat) (events : List Event), k ≤ write_count events →
      after_write k (events ++ more) = after_write k events ++ more := by
  intro k events
  induction events generalizing k with
  | nil =>
    intro h
    have : k = 0 := by simpa [write_count] using h
    subst this
    simp [after_write_zero]
  | cons e rest ih =>
    intro h
    cases k with
    | zero => simp [after_write_zero]
    | succ k =>
      cases e with
      | write t =>
        have : k ≤ write_count rest := by
          simp [write_count, Event.is_write] at h ⊢
          exact h
        simpa [after_write] using ih k this
      | _ =>
        have : k + 1 ≤ write_count rest := by
          simpa [write_count, Event.is_write] using h
        simpa [after_write] using ih (k + 1) this

/-- While fewer than `k` tokens were written, the `k`-th write is still to
come among the events that follow. -/
theorem after_write_append_of_lt (more : List Event) :
    ∀ (k : Nat) (events : List Event), write_count events < k →
      after_write k (events ++ more) = after_write (k - write_count events) more := by
  intro k events
  induction events generalizing k with
  | nil => intro _; simp [write_count]
  | cons e rest ih =>
    intro h
    cases k with
    | zero => omega
    | succ k =>
      cases e with
      | write t =>
        have h' : write_count rest < k := by
          simp [write_count, Event.is_write] at h ⊢
          exact h
        have e1 : write_count (Event.write t :: rest) = write_count rest + 1 := by
          simp [write_count, Event.is_write]
        rw [e1, Nat.add_sub_add_right]
        simpa [after_write] using ih k h'
      | _ =>
        have h' : write_count rest < k + 1 := by
          simpa [write_count, Event.is_write] using h
        simpa [after_write, write_count, Event.is_write] using ih (k + 1) h'

theorem write_tokens_cancel_invariant (k : Nat) (write : List Int → StreamingStatus)
    (hrunning : ∀ h : List Int, h.length < k → write h = .RUNNING)
    (hcancel : ∀ h : List Int, h.length = k → write h = .CANCEL) :
    ∀ (tokens : List Int) (st : GenState),
      write_count st.events = st.written.length → st.written.length < k →
      cancel_invariant k (write_tokens write tokens st) := by
  intro tokens
  induction tokens with
  | nil =>
    intro st hc hlt
    exact ⟨hc, Or.inl hlt⟩
  | cons t rest ih =>
    intro st hc hlt
    have hc' : write_count (st.events ++ [Event.write t]) = (st.written ++ [t]).length := by
      rw [write_count_append, hc]
      simp [write_count, Event.is_write]
    by_cases hlen : st.written.length + 1 < k
    · have hw : write (st.written ++ [t]) = .RUNNING := hrunning _ (by simpa using hlen)
      simp only [write_tokens, hw]
      exact ih _ hc' (by simpa using hlen)
    · have hk : st.written.length + 1 = k := by omega
      have hw : write (st.written ++ [t]) = .CANCEL := hcancel _ (by simpa using hk)
      simp only [write_tokens, hw]
      refine ⟨?_, Or.inr ⟨by simpa using hk, rfl, ?_, by simp⟩⟩
      · simp only [write_count_append, hc]
        simp [write_count, Event.is_write]
      · have hlt' : write_count st.events < k := by omega
        have : st.events ++ [Event.write t] ++ [Event.handle_cancel]
            = st.events ++ [Event.write t, Event.handle_cancel] := by simp
        simp only [this]
        rw [after_write_append_of_lt _ k st.events hlt']
        have h1 : k - write_count st.events = 1 := by omega
        rw [h1]
        simp [after_write, infer_count, Event.is_infer]

theorem stream_cancel_invariant (k : Nat) (write : List Int → StreamingStatus)
    (hrunning : ∀ h : List Int, h.length < k → write h = .RUNNING)
    (hcancel : ∀ h : List Int, h.length = k → write h = .CANCEL)
    (st : GenState) (hc : write_count st.events = st.written.length)
    (hlt : st.written.length < k) :
    cancel_invariant k (stream_generated_tokens (some write) st) := by
  unfold stream_generated_tokens
  cases hq : st.sequence_group.queue with
  | nil => exact ⟨hc, Or.inl hlt⟩
  | cons token queue =>
    exact write_tokens_cancel_invariant k write hrunning hcancel token _ hc hlt

theorem loop_condition_not_cancelled (sg : SequenceGroup) (h : loop_condition sg = true) :
    sg.status ≠ .CANCEL := by
  intro hs
  simp [loop_condition, SequenceGroup.handle_cancelled, hs] at h

theorem decode_loop_cancel_invariant (self : StatefulLLMPipeline) (w : World) (k : Nat)
    (write : List Int → StreamingStatus) (hw : w.streamer = some write)
    (hrunning : ∀ h : List Int, h.length < k → write h = .RUNNING)
    (hcancel : ∀ h : List Int, h.length = k → write h = .CANCEL) :
    ∀ (fuel : Nat) (st st' : GenState), cancel_invariant k st →
      decode_loop self w fuel st = some st' → cancel_invariant k st' := by
  intro fuel
  induction fuel with
  | zero =>
    intro st st' hinv h
    unfold decode_loop at h
    split_ifs at h
    cases h
    exact hinv
  | succ fuel ih =>
    intro st st' hinv h
    unfold decode_loop at h
    by_cases hcond : loop_condition st.sequence_group = true
    · have hlt : st.written.length < k := by
        rcases hinv.2 with h1 | h2
        · exact h1
        · exact absurd h2.2.1 (loop_condition_not_cancelled _ hcond)
      simp only [hcond, if_true] at h
      split_ifs at h
      · cases h
        refine ⟨?_, Or.inl hlt⟩
        rw [write_count_append, hinv.1]
        simp [write_count, Event.is_write]
      · refine ih _ st' ?_ h
        rw [hw]
        apply stream_cancel_invariant k write hrunning hcancel
        · simp only [sample, write_count_append, hinv.1]
          simp [write_count, Event.is_write]
        · simpa [sample] using hlt
    · simp only [hcond, Bool.false_eq_true, if_false] at h
      cases h
      exact hinv

theorem finish_events (w : World) (st : GenState) (h : w.streamer.isSome = true) :
    (finish w st).events = st.events ++ [.streamer_end] := by
  unfold finish
  split_ifs <;> rfl

/-- C3: when the streamer answers `RUNNING` to its first `k - 1` writes and
`CANCEL` to its `k`-th write, and the call gets as far as a `k`-th write, then
exactly `k` tokens are written during the call, `handle->cancel()` is called,
and no inference is issued after the `k`-th write. -/
theorem C3_cancel_at_kth_write (self : StatefulLLMPipeline) (inputs : EncodedInputs)
    (config : GenerationConfig) (w : World) (fuel k : Nat)
    (write : List Int → StreamingStatus) (run : Run)
    (hw : w.streamer = some write) (hk : 1 ≤ k)
    (hrunning : ∀ h : List Int, h.length < k → write h = .RUNNING)
    (hcancel : ∀ h : List Int, h.length = k → write h = .CANCEL)
    (hrun : generate self inputs config w fuel = some run)
    (hkth : k ≤ write_count run.events) :
    write_count run.events = k ∧ Event.handle_cancel ∈ run.events ∧
      infer_count (after_write k run.events) = 0 := by
  have hdone : ∀ st : GenState, cancel_invariant k st → k ≤ write_count st.events →
      write_count st.events = k ∧ Event.handle_cancel ∈ st.events ∧
        infer_count (after_write k st.events) = 0 := by
    intro st hinv hle
    rcases hinv.2 with h1 | h2
    · have := hinv.1
      omega
    · exact ⟨by rw [hinv.1, h2.1], h2.2.2.2, h2.2.2.1⟩
  have hsome : w.streamer.isSome = true := by simp [hw]
  have hinv0 : ∀ n, cancel_invariant k
      (stream_generated_tokens w.streamer (sample w (prefill_state n))) := by
    intro n
    rw [hw]
    apply stream_cancel_invariant k write hrunning hcancel
    · simp [sample, prefill_state, write_count, Event.is_write]
    · simpa [sample, prefill_state] using hk
  unfold generate at hrun
  split_ifs at hrun
  · cases hrun; simp [write_count] at hkth; omega
  · cases hrun; simp [write_count] at hkth; omega
  · cases hrun; simp [write_count] at hkth; omega
  · cases hrun; simp [write_count] at hkth; omega
  · cases hrun; simp [write_count] at hkth; omega
  · unfold generate_from_prefill at hrun
    split_ifs at hrun
    · cases hrun; simp [write_count, Event.is_write] at hkth; omega
    · cases hrun
      exact hdone _ (hinv0 _) hkth
    · simp only [Option.map_eq_some'] at hrun
      obtain ⟨st, hloop, rfl⟩ := hrun
      have hinv : cancel_invariant k st :=
        decode_loop_cancel_invariant self w k write hw hrunning hcancel fuel _ st
          (show cancel_invariant k (decode_state _ _) from hinv0 _) hloop
      rw [finish_events w st hsome] at hkth ⊢
      have hcount : write_count (st.events ++ [Event.streamer_end]) = write_count st.events := by
        simp [write_count_append, write_count, Event.is_write]
      rw [hcount] at hkth ⊢
      obtain ⟨h1, h2, h3⟩ := hdone st hinv hkth
      refine ⟨h1, by simp [h2], ?_⟩
      rw [after_write_append_of_le _ k st.events hkth, infer_count_append, h3]
      simp [infer_count, Event.is_infer]

/-- C3, for a streamer that cancels at its third write and a sampler that
streams one token per call: three tokens are written, the last event before
the end-of-stream flush is the cancellation, and the two decode inferences
both precede the third write. -/
theorem C3_cancel_at_third_write_witness :
    generate ⟨1024, 1152⟩ ⟨1, 5⟩ greedy_config cancelling_world 8 = some cancelled_run ∧
    write_count cancelled_run.events = 3 ∧
    Event.handle_cancel ∈ cancelled_run.events ∧
    infer_count (after_write 3 cancelled_run.events) = 0 :=
  ⟨by decide,
    C3_cancel_at_kth_write ⟨1024, 1152⟩ ⟨1, 5⟩ greedy_config cancelling_world 8 3
      (cancel_at 3) cancelled_run rfl (by decide)
      (fun h hlt => by simp [cancel_at, hlt])
      (fun h heq => by simp [cancel_at, heq])
      (by decide) (by decide)⟩

/-! ### Cache capacity -/

/-- C2, evaluated on a configuration whose capacities wrap around in
`uint32_t`: `MAX_PROMPT_LEN = 4294967295` and `MIN_RESPONSE_LEN = 3` are
accepted and give `m_kvcache_total = 2`; a prompt of three tokens is accepted,
and the decode loop then runs inferences at positions `3` and `4`, beyond the
total cache capacity, without ever marking the sequence out of memory. -/
theorem C2_decode_beyond_wrapped_capacity :
    (updateStatefulConfig wrapped_config ⟨0, 2⟩).map Prod.fst = .ok ⟨4294967295, 2⟩ ∧
    generate ⟨4294967295, 2⟩ ⟨1, 3⟩ greedy_config three_token_world 8 = some
      ⟨[.infer_prefill 3, .sample, .infer_decode 0 3 3, .sample, .infer_decode 1 4 4, .sample],
       .ok ⟨[0, 1, 2], false, .RUNNING⟩⟩ := by
  constructor <;> decide

theorem mem_sample_events (w : World) (st : GenState) (e : Event) :
    e ∈ (sample w st).events ↔ e ∈ st.events ∨ e = .sample := by
  simp [sample]

theorem write_tokens_decode_events (write : List Int → StreamingStatus) :
    ∀ (tokens : List Int) (st : GenState),
      (write_tokens write tokens st).position_ids_data = st.position_ids_data ∧
      ∀ id pos len, Event.infer_decode id pos len ∈ (write_tokens write tokens st).events →
        Event.infer_decode id pos len ∈ st.events := by
  intro tokens
  induction tokens with
  | nil => intro st; exact ⟨rfl, fun _ _ _ h => h⟩
  | cons t rest ih =>
    intro st
    cases hw : write (st.written ++ [t]) with
    | RUNNING =>
      simp only [write_tokens, hw]
      obtain ⟨h1, h2⟩ := ih { st with written := st.written ++ [t],
                                      events := st.events ++ [.write t] }
      refine ⟨h1, fun id pos len h => ?_⟩
      have := h2 id pos len h
      simpa using this
    | CANCEL =>
      simp only [write_tokens, hw]
      refine ⟨trivial, fun id pos len h => ?_⟩
      simpa using h
    | STOP =>
      simp only [write_tokens, hw]
      refine ⟨trivial, fun id pos len h => ?_⟩
      simpa using h

theorem stream_decode_events (streamer_ptr : Option (List Int → StreamingStatus))
    (st : GenState) :
    (stream_generated_tokens streamer_ptr st).position_ids_data = st.position_ids_data ∧
    ∀ id pos len, Event.infer_decode id pos len ∈ (stream_generated_tokens streamer_ptr st).events →
      Event.infer_decode id pos len ∈ st.events := by
  unfold stream_generated_tokens
  split
  · exact write_tokens_decode_events _ _ _
  · exact ⟨rfl, fun _ _ _ h => h⟩

theorem decode_loop_within_capacity (self : StatefulLLMPipeline) (w : World) :
    ∀ (fuel : Nat) (st st' : GenState), within_capacity self st →
      decode_loop self w fuel st = some st' → within_capacity self st' := by
  intro fuel
  induction fuel with
  | zero =>
    intro st st' hinv h
    unfold decode_loop at h
    split_ifs at h
    cases h
    exact hinv
  | succ fuel ih =>
    intro st st' hinv h
    unfold decode_loop at h
    split_ifs at h with hcond hfull
    · cases h
      refine ⟨hinv.1, fun id pos len hm => ?_⟩
      simp only [List.mem_append, List.mem_singleton] at hm
      rcases hm with hm | hm
      · exact hinv.2 id pos len hm
      · cases hm
    · refine ih _ st' ?_ h
      have hpos : st.position_ids_data + 1 < (self.m_kvcache_total : Int) := by
        have := hinv.1
        omega
      obtain ⟨h1, h2⟩ := stream_decode_events w.streamer (sample w
        { st with
          input_ids_data := st.sequence_group.generated_ids.getLastD 0
          position_ids_data := st.position_ids_data + 1
          attention_mask_data := st.attention_mask_data ++ [1]
          events := st.events ++
            [.infer_decode (st.sequence_group.generated_ids.getLastD 0)
              (st.position_ids_data + 1) (st.attention_mask_data ++ [1]).length] })
      refine ⟨by rw [h1]; exact hpos, fun id pos len hm => ?_⟩
      have hm' := h2 id pos len hm
      rw [mem_sample_events] at hm'
      rcases hm' with hm' | hm'
      · simp only [List.mem_append, List.mem_singleton] at hm'
        rcases hm' with hm' | hm'
        · exact hinv.2 id pos len hm'
        · cases hm'
          exact hpos
      · cases hm'
    · cases h
      exact hinv

/-- Companion of C2: when the total cache capacity is at least the prompt
capacity (the sum of the two configured lengths did not wrap around), every
decode inference of `generate` runs at a position below `m_kvcache_total`. -/
theorem decode_positions_within_capacity (self : StatefulLLMPipeline)
    (inputs : EncodedInputs) (config : GenerationConfig) (w : World) (fuel : Nat) (run : Run)
    (hcap : self.m_max_prompt_len ≤ self.m_kvcache_total)
    (hrun : generate self inputs config w fuel = some run) :
    ∀ id pos len, Event.infer_decode id pos len ∈ run.events →
      pos < (self.m_kvcache_total : Int) := by
  intro id pos len hm
  unfold generate at hrun
  split_ifs at hrun with h1 h2 h3 h4 h5
  · cases hrun; simp at hm
  · cases hrun; simp at hm
  · cases hrun; simp at hm
  · cases hrun; simp at hm
  · cases hrun; simp at hm
  · unfold generate_from_prefill at hrun
    have h0 : ∀ id pos len, Event.infer_decode id pos len ∉
        (stream_generated_tokens w.streamer
          (sample w (prefill_state (inputs.batch * inputs.seq_len)))).events := by
      intro id pos len hmem
      have := (stream_decode_events w.streamer _).2 id pos len hmem
      rw [mem_sample_events] at this
      simp [prefill_state] at this
    split_ifs at hrun with h6 h7
    · cases hrun; simp at hm
    · cases hrun
      exact absurd hm (h0 id pos len)
    · simp only [Option.map_eq_some'] at hrun
      obtain ⟨st, hloop, rfl⟩ := hrun
      have hinv : within_capacity self st := by
        refine decode_loop_within_capacity self w fuel _ st ⟨?_, ?_⟩ hloop
        · simp only [decode_state]
          omega
        · intro id pos len hmem
          exact absurd hmem (h0 id pos len)
      have hm' : Event.infer_decode id pos len ∈ st.events := by
        unfold finish at hm
        split_ifs at hm <;> simpa using hm
      exact hinv.2 id pos len hm'

/-! ## The baseline configuration -/

theorem baseline_with_compiler_dq (desc : NPUDesc) (h : desc.compiler_dq = true) :
    get_baseline_common_config (some desc) =
      fixed_baseline_entries ++
        [("NPUW_DQ", .str "YES"), ("NPUW_DQ_FULL", .str "NO"),
         ("NPU_COMPILER_DYNAMIC_QUANTIZATION", .str "YES")] := by
  simp only [get_baseline_common_config, h, if_true]
  decide

theorem baseline_without_compiler_dq (npudesc : Option NPUDesc)
    (h : has_compiler_dq npudesc = false) :
    get_baseline_common_config npudesc =
      [("NPU_COMPILATION_MODE_PARAMS",
          .str "compute-layers-with-higher-precision=Sqrt,Power,ReduceMean,Add_RMSNorm"),
       ("NPUW_DEVICES", .str "NPU"),
       ("NPU_USE_NPUW", .str "YES"),
       ("NPUW_FOLD", .str "YES"),
       ("NPUW_DCOFF_TYPE", .str "f16"),
       ("NPUW_DCOFF_SCALE", .str "YES"),
       ("NPUW_WEIGHTS_BANK", .str "shared"),
       ("NPUW_SLICE_OUT", .str "YES"),
       ("NPUW_FUNCALL_ASYNC", .str "YES")] := by
  cases npudesc with
  | none => rfl
  | some desc =>
    have hd : desc.compiler_dq = false := by simpa [has_compiler_dq] using h
    simp [get_baseline_common_config, hd]

/-- C12: with a descriptor that reports compiler-side dynamic quantization,
`get_baseline_common_config` holds `NPUW_DQ=YES`, `NPUW_DQ_FULL=NO` and
`NPU_COMPILER_DYNAMIC_QUANTIZATION=YES` and neither `NPUW_DCOFF_TYPE` nor
`NPUW_DCOFF_SCALE`; otherwise it holds `NPUW_DCOFF_TYPE=f16` and
`NPUW_DCOFF_SCALE=YES` and none of the three.  In both cases the seven other
baseline entries are present with their fixed values, and there is no further
key. -/
theorem C12_baseline_common_config (npudesc : Option NPUDesc) :
    (has_compiler_dq npudesc = true →
      AnyMap.find (get_baseline_common_config npudesc) "NPUW_DQ" = some (.str "YES") ∧
      AnyMap.find (get_baseline_common_config npudesc) "NPUW_DQ_FULL" = some (.str "NO") ∧
      AnyMap.find (get_baseline_common_config npudesc) "NPU_COMPILER_DYNAMIC_QUANTIZATION"
        = some (.str "YES") ∧
      AnyMap.find (get_baseline_common_config npudesc) "NPUW_DCOFF_TYPE" = none ∧
      AnyMap.find (get_baseline_common_config npudesc) "NPUW_DCOFF_SCALE" = none ∧
      (get_baseline_common_config npudesc).length = 10) ∧
    (has_compiler_dq npudesc = false →
      AnyMap.find (get_baseline_common_config npudesc) "NPUW_DCOFF_TYPE" = some (.str "f16") ∧
      AnyMap.find (get_baseline_common_config npudesc) "NPUW_DCOFF_SCALE" = some (.str "YES") ∧
      AnyMap.find (get_baseline_common_config npudesc) "NPUW_DQ" = none ∧
      AnyMap.find (get_baseline_common_config npudesc) "NPUW_DQ_FULL" = none ∧
      AnyMap.find (get_baseline_common_config npudesc) "NPU_COMPILER_DYNAMIC_QUANTIZATION"
        = none ∧
      (get_baseline_common_config npudesc).length = 9) ∧
    (∀ kv ∈ fixed_baseline_entries,
      AnyMap.find (get_baseline_common_config npudesc) kv.1 = some kv.2) ∧
    AnyMap.WF (get_baseline_common_config npudesc) := by
  cases hdq : has_compiler_dq npudesc with
  | true =>
    cases npudesc with
    | none => simp [has_compiler_dq] at hdq
    | some desc =>
      have hd : desc.compiler_dq = true := by simpa [has_compiler_dq] using hdq
      rw [baseline_with_compiler_dq desc hd]
      refine ⟨fun _ => ?_, fun h => Bool.noConfusion h, ?_, ?_⟩
      · decide
      · decide
      · unfold AnyMap.WF AnyMap.keys; decide
  | false =>
    rw [baseline_without_compiler_dq npudesc hdq]
    refine ⟨fun h => Bool.noConfusion h, fun _ => ?_, ?_, ?_⟩
    · decide
    · decide
    · unfold AnyMap.WF AnyMap.keys; decide

/-- C12, for a device with compiler-side dynamic quantization and for no
device at all. -/
theorem C12_baseline_common_config_witness :
    AnyMap.find (get_baseline_common_config (some ⟨"4000", 4, true⟩)) "NPUW_DQ_FULL"
      = some (.str "NO") ∧
    AnyMap.find (get_baseline_common_config none) "NPUW_DCOFF_TYPE" = some (.str "f16") :=
  ⟨((C12_baseline_common_config (some ⟨"4000", 4, true⟩)).1 rfl).2.1,
   ((C12_baseline_common_config none).2.1 rfl).1⟩

/-! ## The per-phase configurations -/

theorem AnyMap.emplace_of_find_none (m : AnyMap) (k : String) (v : Any)
    (h : AnyMap.find m k = none) : AnyMap.emplace m k v = m ++ [(k, v)] := by
  simp [AnyMap.emplace, h]

theorem AnyMap.find_append_singleton (m : AnyMap) (k k' : String) (v : Any) :
    AnyMap.find (m ++ [(k', v)]) k =
      match AnyMap.find m k with
      | some x => some x
      | none => if k = k' then some v else none := by
  unfold AnyMap.find
  rw [lookup_append_singleton]
  cases List.lookup k m <;> rfl

/-- The entry that `get_default_common_config` adds to the baseline: weight
banks on the CPU when `DISABLE_OPENVINO_GENAI_NPU_L0` reads as `1`, function
calls for all otherwise. -/
theorem common_config_eq (model : Model) (npudesc : Option NPUDesc) (npu_l0 : Option String) :
    get_default_common_config model npudesc npu_l0 =
      get_baseline_common_config npudesc ++
        [if (npu_l0.map atoi) = some 1 then ("NPUW_WEIGHTS_BANK_ALLOC", Any.str "CPU")
         else ("NPUW_FUNCALL_FOR_ALL", Any.str "YES")] := by
  have h1 : AnyMap.find (get_baseline_common_config npudesc) "NPUW_WEIGHTS_BANK_ALLOC" = none := by
    cases hdq : has_compiler_dq npudesc with
    | true =>
      cases npudesc with
      | none => simp [has_compiler_dq] at hdq
      | some desc =>
        rw [baseline_with_compiler_dq desc (by simpa [has_compiler_dq] using hdq)]
        decide
    | false =>
      rw [baseline_without_compiler_dq npudesc hdq]
      decide
  have h2 : AnyMap.find (get_baseline_common_config npudesc) "NPUW_FUNCALL_FOR_ALL" = none := by
    cases hdq : has_compiler_dq npudesc with
    | true =>
      cases npudesc with
      | none => simp [has_compiler_dq] at hdq
      | some desc =>
        rw [baseline_with_compiler_dq desc (by simpa [has_compiler_dq] using hdq)]
        decide
    | false =>
      rw [baseline_without_compiler_dq npudesc hdq]
      decide
  unfold get_default_common_config
  cases npu_l0 with
  | none => simp [AnyMap.emplace_of_find_none _ _ _ h2]
  | some value =>
    by_cases hv : atoi value = 1
    · simp [hv, AnyMap.emplace_of_find_none _ _ _ h1]
    · simp [hv, AnyMap.emplace_of_find_none _ _ _ h2]

/-- The keys that the phase rules add are not keys of the common
configuration; `NPUW_DQ` is one exactly when compiler-side dynamic
quantization is active. -/
theorem common_config_keys (model : Model) (npudesc : Option NPUDesc) (npu_l0 : Option String) :
    AnyMap.find (get_default_common_config model npudesc npu_l0) "NPU_DPU_GROUPS" = none ∧
    AnyMap.find (get_default_common_config model npudesc npu_l0) "NPUW_PMM" = none ∧
    AnyMap.find (get_default_common_config model npudesc npu_l0) "NPUW_ONLINE_PIPELINE" = none ∧
    AnyMap.find (get_default_common_config model npudesc npu_l0) "NPUW_UNFOLD_IREQS" = none ∧
    AnyMap.find (get_default_common_config model npudesc npu_l0) "NPUW_DQ" =
      if has_compiler_dq npudesc then some (.str "YES") else none := by
  rw [common_config_eq]
  cases hdq : has_compiler_dq npudesc with
  | true =>
    cases npudesc with
    | none => simp [has_compiler_dq] at hdq
    | some desc =>
      rw [baseline_with_compiler_dq desc (by simpa [has_compiler_dq] using hdq)]
      by_cases hv : (npu_l0.map atoi) = some 1
      · simp only [hv, if_true]; decide
      · simp only [hv, if_false]; decide
  | false =>
    rw [baseline_without_compiler_dq npudesc hdq]
    by_cases hv : (npu_l0.map atoi) = some 1
    · simp only [hv, if_true]; decide
    · simp only [hv, if_false]; decide

theorem is_cw_compressed_iff (model : Model) :
    is_cw_compressed model = true ↔
      List.lookup ["nncf", "weight_compression", "group_size"] model.rt_info = some (-1) := by
  cases h : List.lookup ["nncf", "weight_compression", "group_size"] model.rt_info with
  | none => simp [is_cw_compressed, h]
  | some g =>
    by_cases hg : g = -1
    · simp [is_cw_compressed, h, hg]
    · simp [is_cw_compressed, h, hg]

/-- The software dynamic-quantization rule of the prefill phase, on a
configuration that holds neither key yet. -/
theorem prefill_dq_step (config : AnyMap) (model : Model) (dq : Bool)
    (hpmm : AnyMap.find config "NPUW_PMM" = none)
    (hdq : dq = false → AnyMap.find config "NPUW_DQ" = none) :
    (if (!dq) = true then
      (if is_cw_compressed model = true then AnyMap.emplace config "NPUW_DQ" (.str "YES")
       else AnyMap.emplace config "NPUW_PMM" (.str "NO"))
     else config) =
    config ++
      (if dq = true then []
       else if List.lookup ["nncf", "weight_compression", "group_size"] model.rt_info
            = some (-1) then [("NPUW_DQ", Any.str "YES")]
       else [("NPUW_PMM", Any.str "NO")]) := by
  cases dq with
  | true => simp
  | false =>
    simp only [Bool.not_false, if_true, Bool.false_eq_true, if_false]
    by_cases hcw : is_cw_compressed model = true
    · have hl := (is_cw_compressed_iff model).1 hcw
      simp only [hcw, if_true, hl]
      exact AnyMap.emplace_of_find_none _ _ _ (hdq rfl)
    · have hl : ¬ List.lookup ["nncf", "weight_compression", "group_size"] model.rt_info
          = some (-1) := fun h => hcw ((is_cw_compressed_iff model).2 h)
      simp only [hcw, if_false, hl]
      exact AnyMap.emplace_of_find_none _ _ _ hpmm

theorem AnyMap.find_append_singleton_ne (m : AnyMap) (k k' : String) (v : Any) (h : k ≠ k') :
    AnyMap.find (m ++ [(k', v)]) k = AnyMap.find m k := by
  rw [AnyMap.find_append_singleton]
  cases AnyMap.find m k <;> simp [h]

/-- C13: `get_default_prefill_config` is `get_default_common_config` followed
by exactly these entries: `NPU_DPU_GROUPS = max_tiles` when and only when the
descriptor is present with arch `"4000"` and `max_tiles ≠ -1`; and, when the
descriptor is absent or lacks compiler-side dynamic quantization, `NPUW_DQ=YES`
if the group-size metadata exists and equals `-1` and `NPUW_PMM=NO` otherwise.
None of the added keys is a key of the common configuration, and with
compiler-side dynamic quantization `NPUW_PMM` is absent. -/
theorem C13_prefill_config_extends_common (model : Model) (npudesc : Option NPUDesc)
    (npu_l0 : Option String) :
    get_default_prefill_config model npudesc npu_l0 =
      get_default_common_config model npudesc npu_l0 ++
      (match npudesc with
        | some desc =>
          if desc.arch = "4000" ∧ desc.max_tiles ≠ -1 then
            [("NPU_DPU_GROUPS", Any.int64 desc.max_tiles)]
          else []
        | none => []) ++
      (if has_compiler_dq npudesc then []
       else if List.lookup ["nncf", "weight_compression", "group_size"] model.rt_info
            = some (-1) then [("NPUW_DQ", Any.str "YES")]
       else [("NPUW_PMM", Any.str "NO")]) ∧
    AnyMap.find (get_default_common_config model npudesc npu_l0) "NPU_DPU_GROUPS" = none ∧
    AnyMap.find (get_default_common_config model npudesc npu_l0) "NPUW_PMM" = none ∧
    (has_compiler_dq npudesc = false →
      AnyMap.find (get_default_common_config model npudesc npu_l0) "NPUW_DQ" = none) ∧
    (has_compiler_dq npudesc = true →
      AnyMap.find (get_default_prefill_config model npudesc npu_l0) "NPUW_PMM" = none) := by
  obtain ⟨hdpu, hpmm, _, _, hdq⟩ := common_config_keys model npudesc npu_l0
  have hdq' : has_compiler_dq npudesc = false →
      AnyMap.find (get_default_common_config model npudesc npu_l0) "NPUW_DQ" = none := by
    intro h
    rw [hdq, h]
    rfl
  refine ⟨?_, hdpu, hpmm, hdq', ?_⟩
  · unfold get_default_prefill_config
    cases npudesc with
    | none =>
      simp only [List.append_nil]
      exact prefill_dq_step _ model _ hpmm hdq'
    | some desc =>
      by_cases hc : desc.arch = "4000" ∧ desc.max_tiles ≠ -1
      · simp only [hc, and_self, if_true, ne_eq, not_false_eq_true]
        rw [AnyMap.emplace_of_find_none _ _ _ hdpu]
        refine prefill_dq_step _ model _ ?_ ?_
        · rw [AnyMap.find_append_singleton_ne _ _ _ _ (by decide)]
          exact hpmm
        · intro h
          rw [AnyMap.find_append_singleton_ne _ _ _ _ (by decide)]
          exact hdq' h
      · simp only [hc, if_false, List.append_nil]
        exact prefill_dq_step _ model _ hpmm hdq'
  · intro h
    unfold get_default_prefill_config
    simp only [h, Bool.not_true, Bool.false_eq_true, if_false]
    cases npudesc with
    | none => exact hpmm
    | some desc =>
      by_cases hc : desc.arch = "4000" ∧ desc.max_tiles ≠ -1
      · simp only [hc, and_self, if_true, ne_eq, not_false_eq_true]
        rw [AnyMap.emplace_of_find_none _ _ _ hdpu,
          AnyMap.find_append_singleton_ne _ _ _ _ (by decide)]
        exact hpmm
      · simp only [hc, if_false]
        exact hpmm

theorem AnyMap.find_append_none (m l : AnyMap) (k : String)
    (hm : AnyMap.find m k = none) (hl : AnyMap.find l k = none) :
    AnyMap.find (m ++ l) k = none := by
  rw [AnyMap.find_eq_none_iff] at hm hl ⊢
  simp only [AnyMap.keys, List.map_append, List.mem_append] at hm hl ⊢
  exact fun h => h.elim hm hl

theorem AnyMap.emplace_if (c : Prop) [Decidable c] (m : AnyMap) (k : String) (v : Any)
    (h : AnyMap.find m k = none) :
    (if c then AnyMap.emplace m k v else m) = m ++ (if c then [(k, v)] else []) := by
  by_cases hc : c
  · simp only [hc, if_true]
    exact AnyMap.emplace_of_find_none m k v h
  · simp only [hc, if_false, List.append_nil]

/-- C14: `get_default_generate_config` is `get_default_common_config` followed
by exactly these entries: `NPUW_ONLINE_PIPELINE=NONE` when and only when the
hint is `BEST_PERF`, `NPU_DPU_GROUPS=4` when and only when the descriptor is
present with arch `"4000"`, `NPUW_UNFOLD_IREQS=YES` when and only when the hint
is `FAST_COMPILE`, and `NPUW_DQ=YES` whenever the descriptor is absent or lacks
compiler-side dynamic quantization, whatever the model.  None of the added
keys is a key of the common configuration. -/
theorem C14_generate_config_extends_common (model : Model) (npudesc : Option NPUDesc)
    (hint : GenerateHint) (npu_l0 : Option String) :
    get_default_generate_config model npudesc hint npu_l0 =
      get_default_common_config model npudesc npu_l0 ++
      (if hint = .BEST_PERF then [("NPUW_ONLINE_PIPELINE", Any.str "NONE")] else []) ++
      (match npudesc with
        | some desc => if desc.arch = "4000" then [("NPU_DPU_GROUPS", Any.int 4)] else []
        | none => []) ++
      (if hint = .FAST_COMPILE then [("NPUW_UNFOLD_IREQS", Any.str "YES")] else []) ++
      (if has_compiler_dq npudesc then [] else [("NPUW_DQ", Any.str "YES")]) ∧
    AnyMap.find (get_default_common_config model npudesc npu_l0) "NPUW_ONLINE_PIPELINE" = none ∧
    AnyMap.find (get_default_common_config model npudesc npu_l0) "NPU_DPU_GROUPS" = none ∧
    AnyMap.find (get_default_common_config model npudesc npu_l0) "NPUW_UNFOLD_IREQS" = none ∧
    (has_compiler_dq npudesc = false →
      AnyMap.find (get_default_common_config model npudesc npu_l0) "NPUW_DQ" = none) ∧
    ¬ (hint = .FAST_COMPILE ∧ hint = .BEST_PERF) := by
  obtain ⟨hdpu, _, hop, hunf, hdq⟩ := common_config_keys model npudesc npu_l0
  have hdq' : has_compiler_dq npudesc = false →
      AnyMap.find (get_default_common_config model npudesc npu_l0) "NPUW_DQ" = none := by
    intro h
    rw [hdq, h]
    rfl
  refine ⟨?_, hop, hdpu, hunf, hdq', ?_⟩
  · unfold get_default_generate_config
    simp only
    rw [AnyMap.emplace_if _ _ _ _ hop]
    have h1 : ∀ k, k ≠ "NPUW_ONLINE_PIPELINE" →
        AnyMap.find (get_default_common_config model npudesc npu_l0) k = none →
        AnyMap.find (get_default_common_config model npudesc npu_l0 ++
          (if hint = .BEST_PERF then [("NPUW_ONLINE_PIPELINE", Any.str "NONE")] else [])) k
          = none := by
      intro k hk hc
      apply AnyMap.find_append_none _ _ _ hc
      split
      · rw [AnyMap.find_cons, if_neg hk]; rfl
      · rfl
    cases npudesc with
    | none =>
      simp only [List.append_nil]
      rw [AnyMap.emplace_if _ _ _ _ (h1 _ (by decide) hunf)]
      have h3 : AnyMap.find (get_default_common_config model none npu_l0 ++
          (if hint = .BEST_PERF then [("NPUW_ONLINE_PIPELINE", Any.str "NONE")] else []) ++
          (if hint = .FAST_COMPILE then [("NPUW_UNFOLD_IREQS", Any.str "YES")] else []))
          "NPUW_DQ" = none := by
        apply AnyMap.find_append_none _ _ _ (h1 _ (by decide) (hdq' rfl))
        split
        · decide
        · rfl
      simp only [has_compiler_dq, Bool.not_false, if_true, Bool.false_eq_true, if_false]
      exact AnyMap.emplace_of_find_none _ _ _ h3
    | some desc =>
      simp only
      rw [AnyMap.emplace_if _ _ _ _ (h1 _ (by decide) hdpu)]
      have h2 : ∀ k, k ≠ "NPUW_ONLINE_PIPELINE" → k ≠ "NPU_DPU_GROUPS" →
          AnyMap.find (get_default_common_config model (some desc) npu_l0) k = none →
          AnyMap.find (get_default_common_config model (some desc) npu_l0 ++
            (if hint = .BEST_PERF then [("NPUW_ONLINE_PIPELINE", Any.str "NONE")] else []) ++
            (if desc.arch = "4000" then [("NPU_DPU_GROUPS", Any.int 4)] else [])) k
            = none := by
        intro k hk hk' hc
        apply AnyMap.find_append_none _ _ _ (h1 k hk hc)
        split
        · rw [AnyMap.find_cons, if_neg hk']; rfl
        · rfl
      rw [AnyMap.emplace_if _ _ _ _ (h2 _ (by decide) (by decide) hunf)]
      cases hcd : desc.compiler_dq with
      | true => simp [has_compiler_dq, hcd]
      | false =>
        have h3 : AnyMap.find (get_default_common_config model (some desc) npu_l0 ++
            (if hint = .BEST_PERF then [("NPUW_ONLINE_PIPELINE", Any.str "NONE")] else []) ++
            (if desc.arch = "4000" then [("NPU_DPU_GROUPS", Any.int 4)] else []) ++
            (if hint = .FAST_COMPILE then [("NPUW_UNFOLD_IREQS", Any.str "YES")] else []))
            "NPUW_DQ" = none := by
          apply AnyMap.find_append_none _ _ _
            (h2 _ (by decide) (by decide) (hdq' (by simp [has_compiler_dq, hcd])))
          split
          · decide
          · rfl
        simp only [has_compiler_dq, hcd, Bool.not_false, if_true, Bool.false_eq_true, if_false]
        exact AnyMap.emplace_of_find_none _ _ _ h3
  · intro h
    rw [h.1] at h
    exact absurd h.2 (by decide)

/-! ## `updateStatefulConfig` -/

theorem AnyMap.find_erase (m : AnyMap) (k k' : String) :
    AnyMap.find (AnyMap.erase m k') k = if k = k' then none else AnyMap.find m k := by
  induction m with
  | nil => simp [AnyMap.erase, AnyMap.find_nil]
  | cons kv rest ih =>
    obtain ⟨a, b⟩ := kv
    unfold AnyMap.erase at ih ⊢
    by_cases ha : a = k'
    · subst ha
      simp only [List.filter_cons, bne_self_eq_false, Bool.false_eq_true, if_false, ih,
        AnyMap.find_cons]
      by_cases hk : k = a <;> simp [hk]
    · have hb : (a != k') = true := by simpa using ha
      simp only [List.filter_cons, hb, if_true, AnyMap.find_cons, ih]
      by_cases hk : k = a
      · have : ¬ k = k' := fun e => ha (hk ▸ e)
        simp [hk, this]
        intro e; exact absurd e ha
      · simp [hk]

theorem AnyMap.find_set (m : AnyMap) (k k' : String) (v : Any) :
    AnyMap.find (AnyMap.set m k' v) k = if k = k' then some v else AnyMap.find m k := by
  unfold AnyMap.set
  cases h : AnyMap.find m k' with
  | none =>
    simp only [Option.isSome_none, Bool.false_eq_true, if_false]
    rw [AnyMap.find_append_singleton]
    by_cases hk : k = k'
    · subst hk; simp [h]
    · cases AnyMap.find m k <;> simp [hk]
  | some old =>
    simp only [Option.isSome_some, if_true]
    rw [AnyMap.find_assign, h]
    simp

theorem find_update_config_ne (m : AnyMap) (k k' : String) (v : Any) (h : k ≠ k') :
    AnyMap.find (update_config m (k', v)) k = AnyMap.find m k := by
  unfold update_config
  split
  · rw [AnyMap.find_emplace]
    simp [h]
  · rfl

theorem find_update_config_self (m : AnyMap) (k : String) (v : Any) :
    AnyMap.find (update_config m (k, v)) k =
      match AnyMap.find m k with
      | some old => some old
      | none => some v := by
  unfold update_config AnyMap.count
  cases h : AnyMap.find m k with
  | none => simp [AnyMap.find_emplace, h]
  | some old => simp [h]

theorem find_rename_key_ne (m : AnyMap) (old_key new_key k : String)
    (h1 : k ≠ old_key) (h2 : k ≠ new_key) :
    AnyMap.find (rename_key m old_key new_key) k = AnyMap.find m k := by
  unfold rename_key pop_option AnyMap.count
  cases h : AnyMap.find m old_key with
  | none => simp
  | some v => simp [AnyMap.find_set, AnyMap.find_erase, h1, h2]

theorem find_rename_key_old (m : AnyMap) (old_key new_key : String) (h : old_key ≠ new_key) :
    AnyMap.find (rename_key m old_key new_key) old_key = none := by
  unfold rename_key pop_option AnyMap.count
  cases hf : AnyMap.find m old_key with
  | none => simp [hf]
  | some v => simp [AnyMap.find_set, AnyMap.find_erase, h]

theorem find_rename_key_new (m : AnyMap) (old_key new_key : String) :
    AnyMap.find (rename_key m old_key new_key) new_key =
      match AnyMap.find m old_key with
      | some v => some v
      | none => AnyMap.find m new_key := by
  unfold rename_key pop_option AnyMap.count
  cases hf : AnyMap.find m old_key with
  | none => simp
  | some v => simp [AnyMap.find_set]

/-- What a successful `pop_int_and_cast` leaves: the key is gone, every other
key is as before; the value returned is `none` exactly for an absent key. -/
theorem pop_int_and_cast_ok (m m' : AnyMap) (key : String) (r : Option Nat)
    (h : pop_int_and_cast m key = .ok (r, m')) :
    (∀ k, AnyMap.find m' k = if k = key then none else AnyMap.find m k) ∧
    (match AnyMap.find m key with
      | none => r = none
      | some (.int64 v) => 0 ≤ v ∧ r = some (cast_uint32 v)
      | some (.int v) => 0 ≤ v ∧ r = some (cast_uint32 v)
      | some _ => False) := by
  unfold pop_int_and_cast pop_option at h
  cases hf : AnyMap.find m key with
  | none =>
    simp only [hf] at h
    cases h
    refine ⟨fun k => ?_, rfl⟩
    by_cases hk : k = key
    · simp [hk, hf]
    · simp [hk]
  | some any =>
    simp only [hf] at h
    cases any with
    | int64 v =>
      by_cases hv : v < 0
      · simp [hv] at h
      · simp only [hv, if_false] at h
        cases h
        exact ⟨fun k => AnyMap.find_erase m k key, by omega, rfl⟩
    | int v =>
      by_cases hv : v < 0
      · simp [hv] at h
      · simp only [hv, if_false] at h
        cases h
        exact ⟨fun k => AnyMap.find_erase m k key, by omega, rfl⟩
    | _ => simp at h

/-- `updateStatefulConfig` returns exactly when both pops succeed, and what it
returns then. -/
theorem updateStatefulConfig_ok (cfg cfg' : AnyMap) (kv_pos : KVAxesPosition)
    (self : StatefulLLMPipeline) (h : updateStatefulConfig cfg kv_pos = .ok (self, cfg')) :
    ∃ a b c1 c2,
      pop_int_and_cast cfg "MAX_PROMPT_LEN" = .ok (a, c1) ∧
      pop_int_and_cast c1 "MIN_RESPONSE_LEN" = .ok (b, c2) ∧
      self = ⟨a.getD 1024, add_uint32 (a.getD 1024) (b.getD 128)⟩ ∧
      cfg' = stateful_config_entries c2 kv_pos (a.getD 1024) (b.getD 128) := by
  unfold updateStatefulConfig at h
  cases h1 : pop_int_and_cast cfg "MAX_PROMPT_LEN" with
  | error e => simp [h1, bind, Except.bind] at h
  | ok r1 =>
    obtain ⟨a, c1⟩ := r1
    cases h2 : pop_int_and_cast c1 "MIN_RESPONSE_LEN" with
    | error e => simp [h1, h2, bind, Except.bind] at h
    | ok r2 =>
      obtain ⟨b, c2⟩ := r2
      simp only [h1, h2, bind, Except.bind, pure, Except.pure, Except.ok.injEq,
        Prod.mk.injEq] at h
      exact ⟨a, b, c1, c2, rfl, h2, h.1.symm, h.2.symm⟩

theorem find_entries_old (c : AnyMap) (kv_pos : KVAxesPosition) (a b : Nat)
    (p : String × String) (hp : p ∈ renamed_keys) :
    AnyMap.find (stateful_config_entries c kv_pos a b) p.1 = none := by
  simp only [renamed_keys, List.mem_cons, List.mem_singleton, List.not_mem_nil, or_false] at hp
  rcases hp with rfl | rfl | rfl | rfl | rfl <;>
    simp [stateful_config_entries, find_rename_key_ne, find_rename_key_old]

theorem find_entries_new (c : AnyMap) (kv_pos : KVAxesPosition) (a b : Nat)
    (p : String × String) (hp : p ∈ renamed_keys) :
    AnyMap.find (stateful_config_entries c kv_pos a b) p.2 =
      match AnyMap.find c p.1 with
      | some v => some v
      | none => AnyMap.find c p.2 := by
  simp only [renamed_keys, List.mem_cons, List.mem_singleton, List.not_mem_nil, or_false] at hp
  rcases hp with rfl | rfl | rfl | rfl | rfl <;>
    simp [stateful_config_entries, find_rename_key_ne, find_rename_key_new,
      find_update_config_ne]

theorem find_entries_capacities (c : AnyMap) (kv_pos : KVAxesPosition) (a b : Nat) :
    AnyMap.find (stateful_config_entries c kv_pos a b) "NPUW_LLM_MAX_PROMPT_LEN" =
      (match AnyMap.find c "NPUW_LLM_MAX_PROMPT_LEN" with
        | some old => some old
        | none => some (.uint32 a)) ∧
    AnyMap.find (stateful_config_entries c kv_pos a b) "NPUW_LLM_MIN_RESPONSE_LEN" =
      (match AnyMap.find c "NPUW_LLM_MIN_RESPONSE_LEN" with
        | some old => some old
        | none => some (.uint32 b)) ∧
    AnyMap.find (stateful_config_entries c kv_pos a b) "MAX_PROMPT_LEN" =
      AnyMap.find c "MAX_PROMPT_LEN" ∧
    AnyMap.find (stateful_config_entries c kv_pos a b) "MIN_RESPONSE_LEN" =
      AnyMap.find c "MIN_RESPONSE_LEN" := by
  refine ⟨?_, ?_, ?_, ?_⟩ <;>
    simp [stateful_config_entries, find_rename_key_ne, find_update_config_ne,
      find_update_config_self]

/-- C11: after a successful `updateStatefulConfig`, for each of the five key
translations: when the old key was present in the input configuration it is
absent from the result and the new key holds the value the old key had,
whatever the new key held before; when the old key was absent, the entry of
the new key is what it was. -/
theorem C11_renamed_keys (cfg cfg' : AnyMap) (kv_pos : KVAxesPosition)
    (self : StatefulLLMPipeline) (h : updateStatefulConfig cfg kv_pos = .ok (self, cfg')) :
    ∀ p ∈ [("++PREFILL_CONFIG", "++NPUW_LLM_PREFILL_CONFIG"),
           ("++GENERATE_CONFIG", "++NPUW_LLM_GENERATE_CONFIG"),
           ("PREFILL_CONFIG", "NPUW_LLM_PREFILL_CONFIG"),
           ("GENERATE_CONFIG", "NPUW_LLM_GENERATE_CONFIG"),
           ("GENERATE_HINT", "NPUW_LLM_GENERATE_HINT")],
      (∀ v, AnyMap.find cfg p.1 = some v →
        AnyMap.find cfg' p.1 = none ∧ AnyMap.find cfg' p.2 = some v) ∧
      (AnyMap.find cfg p.1 = none → AnyMap.find cfg' p.1 = none ∧
        AnyMap.find cfg' p.2 = AnyMap.find cfg p.2) := by
  intro p hp
  obtain ⟨a, b, c1, c2, h1, h2, hself, hcfg⟩ := updateStatefulConfig_ok cfg cfg' kv_pos self h
  rw [hcfg]
  clear h hcfg hself
  have hc1 := (pop_int_and_cast_ok cfg c1 _ a h1).1
  have hc2 := (pop_int_and_cast_ok c1 c2 _ b h2).1
  have hkeep : ∀ k, k ≠ "MAX_PROMPT_LEN" → k ≠ "MIN_RESPONSE_LEN" →
      AnyMap.find c2 k = AnyMap.find cfg k := by
    intro k hk1 hk2
    rw [hc2 k, if_neg hk2, hc1 k, if_neg hk1]
  have hp' : p ∈ renamed_keys := hp
  have hold : AnyMap.find c2 p.1 = AnyMap.find cfg p.1 := by
    simp only [List.mem_cons, List.mem_singleton, List.not_mem_nil, or_false] at hp
    rcases hp with rfl | rfl | rfl | rfl | rfl <;> exact hkeep _ (by decide) (by decide)
  have hnew : AnyMap.find c2 p.2 = AnyMap.find cfg p.2 := by
    simp only [List.mem_cons, List.mem_singleton, List.not_mem_nil, or_false] at hp
    rcases hp with rfl | rfl | rfl | rfl | rfl <;> exact hkeep _ (by decide) (by decide)
  have e1 := find_entries_old c2 kv_pos (a.getD 1024) (b.getD 128) p hp'
  have e2 := find_entries_new c2 kv_pos (a.getD 1024) (b.getD 128) p hp'
  rw [hold, hnew] at e2
  constructor
  · intro v hv
    rw [hv] at e2
    exact ⟨e1, e2⟩
  · intro hv
    rw [hv] at e2
    exact ⟨e1, e2⟩

/-- C11, on a configuration that sets `GENERATE_HINT` and also holds a stale
`NPUW_LLM_GENERATE_HINT`: the old key is gone and the new key holds the value
of the old one. -/
theorem C11_renamed_keys_witness :
    updateStatefulConfig hint_config ⟨0, 2⟩ = .ok (⟨1024, 1152⟩, hint_config_result) ∧
    AnyMap.find hint_config_result "GENERATE_HINT" = none ∧
    AnyMap.find hint_config_result "NPUW_LLM_GENERATE_HINT" = some (.str "BEST_PERF") :=
  ⟨by decide,
    ((C11_renamed_keys hint_config hint_config_result ⟨0, 2⟩ ⟨1024, 1152⟩ (by decide)
      ("GENERATE_HINT", "NPUW_LLM_GENERATE_HINT") (by simp)).1 (.str "BEST_PERF") rfl)⟩

theorem pop_int_and_cast_of_absent (m : AnyMap) (key : String)
    (h : AnyMap.find m key = none) : pop_int_and_cast m key = .ok (none, m) := by
  simp [pop_int_and_cast, pop_option, h]

theorem pop_int_and_cast_of_value (m : AnyMap) (key : String) (any : Any) (v : Int)
    (h : AnyMap.find m key = some any) (hany : any = .int v ∨ any = .int64 v) (hv : 0 ≤ v) :
    pop_int_and_cast m key = .ok (some (cast_uint32 v), AnyMap.erase m key) := by
  have hn : ¬ v < 0 := by omega
  rcases hany with rfl | rfl <;> simp [pop_int_and_cast, pop_option, h, hn]

theorem cast_uint32_of_lt (v : Int) (h0 : 0 ≤ v) (h : v < 2 ^ 32) :
    (cast_uint32 v : Int) = v := by
  unfold cast_uint32
  have : v.toNat < 2 ^ 32 := by omega
  rw [Nat.mod_eq_of_lt this]
  omega

/-- Without `MAX_PROMPT_LEN` and `MIN_RESPONSE_LEN` in the configuration,
`updateStatefulConfig` sets `m_max_prompt_len = 1024` and
`m_kvcache_total = 1152` and stores `NPUW_LLM_MAX_PROMPT_LEN = 1024` and
`NPUW_LLM_MIN_RESPONSE_LEN = 128` unless the user supplied those keys.  With
both options present (an `int` or `int64_t`, not negative), both are removed
from the configuration and the capacities are computed from their values cast
to `uint32_t`, which below `2 ^ 32` are the values themselves. -/
theorem updateStatefulConfig_capacities (cfg : AnyMap) (kv_pos : KVAxesPosition) :
    (AnyMap.find cfg "MAX_PROMPT_LEN" = none → AnyMap.find cfg "MIN_RESPONSE_LEN" = none →
      ∃ cfg', updateStatefulConfig cfg kv_pos = .ok (⟨1024, 1152⟩, cfg') ∧
        (AnyMap.find cfg "NPUW_LLM_MAX_PROMPT_LEN" = none →
          AnyMap.find cfg' "NPUW_LLM_MAX_PROMPT_LEN" = some (.uint32 1024)) ∧
        (AnyMap.find cfg "NPUW_LLM_MIN_RESPONSE_LEN" = none →
          AnyMap.find cfg' "NPUW_LLM_MIN_RESPONSE_LEN" = some (.uint32 128))) ∧
    (∀ (a b : Any) (va vb : Int),
      AnyMap.find cfg "MAX_PROMPT_LEN" = some a → (a = .int va ∨ a = .int64 va) → 0 ≤ va →
      AnyMap.find cfg "MIN_RESPONSE_LEN" = some b → (b = .int vb ∨ b = .int64 vb) → 0 ≤ vb →
      ∃ cfg', updateStatefulConfig cfg kv_pos =
          .ok (⟨cast_uint32 va, add_uint32 (cast_uint32 va) (cast_uint32 vb)⟩, cfg') ∧
        AnyMap.find cfg' "MAX_PROMPT_LEN" = none ∧
        AnyMap.find cfg' "MIN_RESPONSE_LEN" = none ∧
        (AnyMap.find cfg "NPUW_LLM_MAX_PROMPT_LEN" = none →
          AnyMap.find cfg' "NPUW_LLM_MAX_PROMPT_LEN" = some (.uint32 (cast_uint32 va))) ∧
        (AnyMap.find cfg "NPUW_LLM_MIN_RESPONSE_LEN" = none →
          AnyMap.find cfg' "NPUW_LLM_MIN_RESPONSE_LEN" = some (.uint32 (cast_uint32 vb))) ∧
        (va < 2 ^ 32 → (cast_uint32 va : Int) = va) ∧
        (vb < 2 ^ 32 → (cast_uint32 vb : Int) = vb)) := by
  constructor
  · intro hmax hmin
    have h1 := pop_int_and_cast_of_absent cfg _ hmax
    have h2 := pop_int_and_cast_of_absent cfg _ hmin
    refine ⟨stateful_config_entries cfg kv_pos 1024 128, ?_, ?_, ?_⟩
    · unfold updateStatefulConfig
      simp only [h1, h2, bind, Except.bind, pure, Except.pure]
      rfl
    · intro h
      rw [(find_entries_capacities cfg kv_pos 1024 128).1, h]
    · intro h
      rw [(find_entries_capacities cfg kv_pos 1024 128).2.1, h]
  · intro a b va vb ha hta hva hb htb hvb
    have h1 := pop_int_and_cast_of_value cfg _ a va ha hta hva
    have hb' : AnyMap.find (AnyMap.erase cfg "MAX_PROMPT_LEN") "MIN_RESPONSE_LEN" = some b := by
      rw [AnyMap.find_erase, if_neg (by decide)]
      exact hb
    have h2 := pop_int_and_cast_of_value _ _ b vb hb' htb hvb
    have hkeep : ∀ k, AnyMap.find
        (AnyMap.erase (AnyMap.erase cfg "MAX_PROMPT_LEN") "MIN_RESPONSE_LEN") k =
        if k = "MIN_RESPONSE_LEN" then none else if k = "MAX_PROMPT_LEN" then none
        else AnyMap.find cfg k := by
      intro k
      rw [AnyMap.find_erase, AnyMap.find_erase]
    obtain ⟨e1, e2, e3, e4⟩ := find_entries_capacities
      (AnyMap.erase (AnyMap.erase cfg "MAX_PROMPT_LEN") "MIN_RESPONSE_LEN") kv_pos
      (cast_uint32 va) (cast_uint32 vb)
    refine ⟨stateful_config_entries
      (AnyMap.erase (AnyMap.erase cfg "MAX_PROMPT_LEN") "MIN_RESPONSE_LEN") kv_pos
      (cast_uint32 va) (cast_uint32 vb), ?_, ?_, ?_, ?_, ?_,
      cast_uint32_of_lt va hva, cast_uint32_of_lt vb hvb⟩
    · unfold updateStatefulConfig
      simp only [h1, h2, bind, Except.bind, pure, Except.pure]
      rfl
    · rw [e3, hkeep]; simp
    · rw [e4, hkeep]; simp
    · intro h
      rw [e1, hkeep, if_neg (by decide), if_neg (by decide), h]
    · intro h
      rw [e2, hkeep, if_neg (by decide), if_neg (by decide), h]

/-- The capacities on the empty configuration and on one that sets both
options. -/
theorem updateStatefulConfig_capacities_example :
    (∃ cfg', updateStatefulConfig [] ⟨0, 2⟩ = .ok (⟨1024, 1152⟩, cfg') ∧
      (AnyMap.find [] "NPUW_LLM_MAX_PROMPT_LEN" = none →
        AnyMap.find cfg' "NPUW_LLM_MAX_PROMPT_LEN" = some (.uint32 1024)) ∧
      (AnyMap.find [] "NPUW_LLM_MIN_RESPONSE_LEN" = none →
        AnyMap.find cfg' "NPUW_LLM_MIN_RESPONSE_LEN" = some (.uint32 128))) ∧
    (updateStatefulConfig capacity_config ⟨0, 2⟩).map Prod.fst = .ok ⟨2048, 2304⟩ :=
  ⟨(updateStatefulConfig_capacities [] ⟨0, 2⟩).1 rfl rfl, by decide⟩

/-- C17, evaluated at `oversized_capacity_config`: both options are present
and both are removed, the value `128` of `MIN_RESPONSE_LEN` is used, and the
value `4294967296` of `MAX_PROMPT_LEN` is not: the prompt capacity is `0`, the
total is `128`, and `0` is what `NPUW_LLM_MAX_PROMPT_LEN` stores. -/
theorem C17_oversized_option_not_used :
    AnyMap.find oversized_capacity_config "MAX_PROMPT_LEN" = some (.int64 4294967296) ∧
    AnyMap.find oversized_capacity_config "MIN_RESPONSE_LEN" = some (.int64 128) ∧
    updateStatefulConfig oversized_capacity_config ⟨0, 2⟩ =
      .ok (⟨0, 128⟩,
        [("NPU_USE_NPUW", .str "YES"), ("NPUW_LLM", .str "YES"),
         ("NPUW_LLM_BATCH_DIM", .size_t 0), ("NPUW_LLM_SEQ_LEN_DIM", .size_t 2),
         ("NPUW_LLM_MAX_PROMPT_LEN", .uint32 0),
         ("NPUW_LLM_MIN_RESPONSE_LEN", .uint32 128)]) ∧
    ((0 : Nat) : Int) ≠ 4294967296 := by
  refine ⟨?_, ?_, ?_, ?_⟩ <;> decide

/-! ## Cache directory -/

/-- C19 fails when `NPUW_CACHE_DIR` is already present: the configuration
holds `NPU_USE_NPUW` and `CACHE_DIR = /tmp/cache`, and after the call
`CACHE_DIR` is gone while `NPUW_CACHE_DIR` keeps `/opt/npuw` instead of taking
the value of `CACHE_DIR`. -/
theorem C19_counterexample_existing_cache_dir :
    AnyMap.find cache_dir_config "NPU_USE_NPUW" = some (.str "YES") ∧
    AnyMap.find cache_dir_config "CACHE_DIR" = some (.str "/tmp/cache") ∧
    set_npuw_cache_dir string_payload cache_dir_config =
      .ok [("NPU_USE_NPUW", .str "YES"), ("NPUW_CACHE_DIR", .str "/opt/npuw")] ∧
    AnyMap.find [("NPU_USE_NPUW", .str "YES"), ("NPUW_CACHE_DIR", .str "/opt/npuw")]
      "NPUW_CACHE_DIR" ≠ some (.str "/tmp/cache") := by
  refine ⟨?_, ?_, ?_, ?_⟩ <;> decide

/-- C19, amended: for a configuration that holds `NPU_USE_NPUW` and a
`CACHE_DIR` string `d`, after `set_npuw_cache_dir` the key `CACHE_DIR` is
absent, `NPUW_CACHE_DIR` holds `d` when it was absent before and keeps its
value otherwise, and every other key is as before; a configuration that lacks
`CACHE_DIR` is returned as it is, and so is one that lacks `NPU_USE_NPUW`:
the call returns it when `CACHE_DIR` is a string, and whenever it returns. -/
theorem C19_set_npuw_cache_dir (as_string : Any → Except Exception String)
    (config : AnyMap) (has : ∀ s, as_string (.str s) = .ok s) :
    (∀ d, AnyMap.find config "NPU_USE_NPUW" ≠ none →
      AnyMap.find config "CACHE_DIR" = some (.str d) →
      ∃ result, set_npuw_cache_dir as_string config = .ok result ∧
        AnyMap.find result "CACHE_DIR" = none ∧
        AnyMap.find result "NPUW_CACHE_DIR" =
          (match AnyMap.find config "NPUW_CACHE_DIR" with
            | some old => some old
            | none => some (.str d)) ∧
        ∀ k, k ≠ "CACHE_DIR" → k ≠ "NPUW_CACHE_DIR" →
          AnyMap.find result k = AnyMap.find config k) ∧
    (AnyMap.find config "CACHE_DIR" = none →
      set_npuw_cache_dir as_string config = .ok config) ∧
    (AnyMap.find config "NPU_USE_NPUW" = none →
      (∀ d, AnyMap.find config "CACHE_DIR" = some (.str d) →
        set_npuw_cache_dir as_string config = .ok config) ∧
      ∀ result, set_npuw_cache_dir as_string config = .ok result → result = config) := by
  refine ⟨?_, ?_, ?_⟩
  · intro d huse hdir
    have hcount : AnyMap.count config "NPU_USE_NPUW" ≠ 0 := by
      unfold AnyMap.count
      cases h : AnyMap.find config "NPU_USE_NPUW" with
      | none => exact absurd h huse
      | some v => simp
    have hdir' : AnyMap.find (AnyMap.emplace config "NPUW_CACHE_DIR" (.str d)) "CACHE_DIR"
        = some (.str d) := by
      rw [AnyMap.find_emplace, if_neg (by decide)]
      exact hdir
    refine ⟨AnyMap.erase (AnyMap.emplace config "NPUW_CACHE_DIR" (.str d)) "CACHE_DIR",
      ?_, ?_, ?_, ?_⟩
    · simp only [set_npuw_cache_dir, get_option_string, hdir, has, hcount, ne_eq,
        not_false_eq_true, if_true, pop_option, hdir']
    · rw [AnyMap.find_erase]; simp
    · rw [AnyMap.find_erase, if_neg (by decide), AnyMap.find_emplace]; simp
    · intro k hk1 hk2
      rw [AnyMap.find_erase, if_neg hk1, AnyMap.find_emplace, if_neg hk2]
  · intro hdir
    simp only [set_npuw_cache_dir, get_option_string, hdir]
  · intro huse
    have hcount : AnyMap.count config "NPU_USE_NPUW" = 0 := by
      simp [AnyMap.count, huse]
    refine ⟨?_, ?_⟩
    · intro d hdir
      simp only [set_npuw_cache_dir, get_option_string, hdir, has, hcount, ne_eq,
        not_true_eq_false, if_false]
    intro result hres
    unfold set_npuw_cache_dir at hres
    cases hopt : get_option_string as_string config "CACHE_DIR" with
    | error e => simp [hopt] at hres
    | ok cache_dir =>
      cases cache_dir with
      | none => simp only [hopt] at hres; exact (Except.ok.inj hres).symm
      | some dir =>
        simp only [hopt, hcount, ne_eq, not_true_eq_false, if_false] at hres
        exact (Except.ok.inj hres).symm

/-- C19 (amended), on a configuration with `NPU_USE_NPUW` and `CACHE_DIR` and
no `NPUW_CACHE_DIR`. -/
theorem C19_set_npuw_cache_dir_witness :
    set_npuw_cache_dir string_payload
      [("NPU_USE_NPUW", .str "YES"), ("CACHE_DIR", .str "/tmp/cache")] =
      .ok [("NPU_USE_NPUW", .str "YES"), ("NPUW_CACHE_DIR", .str "/tmp/cache")] ∧
    ∃ result, set_npuw_cache_dir string_payload
        [("NPU_USE_NPUW", .str "YES"), ("CACHE_DIR", .str "/tmp/cache")] = .ok result ∧
      AnyMap.find result "CACHE_DIR" = none ∧
      AnyMap.find result "NPUW_CACHE_DIR" =
        (match AnyMap.find [("NPU_USE_NPUW", Any.str "YES"), ("CACHE_DIR", Any.str "/tmp/cache")]
            "NPUW_CACHE_DIR" with
          | some old => some old
          | none => some (.str "/tmp/cache")) ∧
      ∀ k, k ≠ "CACHE_DIR" → k ≠ "NPUW_CACHE_DIR" →
        AnyMap.find result k =
          AnyMap.find [("NPU_USE_NPUW", Any.str "YES"), ("CACHE_DIR", Any.str "/tmp/cache")] k :=
  ⟨by decide,
    (C19_set_npuw_cache_dir string_payload
      [("NPU_USE_NPUW", .str "YES"), ("CACHE_DIR", .str "/tmp/cache")] (fun _ => rfl)).1
      "/tmp/cache" (by decide) (by decide)⟩

/-! ## Entry preconditions of `generate` -/

/-- The encoded overload ends in an error with no event recorded when the
batch size is not one, the decoding is neither greedy nor multinomial, or more
than one sequence is asked for. -/
theorem generate_rejects (self : StatefulLLMPipeline) (inputs : EncodedInputs)
    (config : GenerationConfig) (w : World) (fuel : Nat)
    (h : inputs.batch ≠ 1 ∨ (config.is_greedy_decoding || config.is_multinomial) = false ∨
      config.num_return_sequences ≠ 1) :
    ∃ e, generate self inputs config w fuel = some ⟨[], .error e⟩ := by
  unfold generate
  by_cases h1 : inputs.batch ≠ 1
  · exact ⟨_, by rw [if_pos h1]⟩
  · by_cases h2 : (!config.valid) = true
    · exact ⟨_, by rw [if_neg h1, if_pos h2]⟩
    · by_cases h3 : (!(config.is_greedy_decoding || config.is_multinomial)) = true
      · exact ⟨_, by rw [if_neg h1, if_neg h2, if_pos h3]⟩
      · by_cases h4 : config.num_return_sequences ≠ 1
        · exact ⟨_, by rw [if_neg h1, if_neg h2, if_neg h3, if_pos h4]⟩
        · rcases h with h | h | h
          · exact absurd h h1
          · simp [h] at h3
          · exact absurd h h4

theorem generate_prompt_rejects (self : StatefulLLMPipeline) (chat : ChatState)
    (tokenizer : Tokenizer) (prompt : String) (config : GenerationConfig) (w : World)
    (fuel : Nat)
    (h : (config.is_greedy_decoding || config.is_multinomial) = false ∨
      config.num_return_sequences ≠ 1) :
    ∃ run e, generate_prompt self chat tokenizer prompt config w fuel = some run ∧
      run.result = .error e ∧ run.events = [] := by
  obtain ⟨e, he⟩ := generate_rejects self (tokenize_prompt chat tokenizer config prompt).2
    config w fuel (Or.inr h)
  refine ⟨⟨[], (tokenize_prompt chat tokenizer config prompt).1, .error e⟩, e, ?_, rfl, rfl⟩
  simp only [generate_prompt, he]

/-- C16: `generate` ends in an error, with no inference issued, whenever the
batch size is not one (a vector of prompts whose size is not one, or
`input_ids` whose first dimension is not one), whenever the configuration is
neither greedy nor multinomial, and whenever `num_return_sequences` is not
one; the last two hold for the encoded and for the text overload. -/
theorem C16_entry_preconditions (self : StatefulLLMPipeline) (chat : ChatState)
    (tokenizer : Tokenizer) (config : GenerationConfig) (w : World) (fuel : Nat) :
    (∀ texts : List String, texts.length ≠ 1 →
      ∃ run e, generate_text self chat tokenizer (.prompts texts) config w fuel = some run ∧
        run.result = .error e ∧ infer_count run.events = 0) ∧
    (∀ inputs : EncodedInputs, inputs.batch ≠ 1 →
      ∃ run e, generate self inputs config w fuel = some run ∧
        run.result = .error e ∧ infer_count run.events = 0) ∧
    (((config.is_greedy_decoding || config.is_multinomial) = false ∨
        config.num_return_sequences ≠ 1) →
      (∀ inputs : EncodedInputs,
        ∃ run e, generate self inputs config w fuel = some run ∧
          run.result = .error e ∧ infer_count run.events = 0) ∧
      (∀ inputs : StringInputs,
        ∃ run e, generate_text self chat tokenizer inputs config w fuel = some run ∧
          run.result = .error e ∧ infer_count run.events = 0)) := by
  refine ⟨?_, ?_, ?_⟩
  · intro texts ht
    refine ⟨⟨[], chat, .error .batch_size⟩, .batch_size, ?_, rfl, rfl⟩
    unfold generate_text
    match texts, ht with
    | [], _ => rfl
    | [_], h => exact absurd rfl h
    | _ :: _ :: _, _ => rfl
  · intro inputs hb
    obtain ⟨e, he⟩ := generate_rejects self inputs config w fuel (Or.inl hb)
    exact ⟨_, e, he, rfl, rfl⟩
  · intro hc
    constructor
    · intro inputs
      obtain ⟨e, he⟩ := generate_rejects self inputs config w fuel (Or.inr hc)
      exact ⟨_, e, he, rfl, rfl⟩
    · intro inputs
      cases inputs with
      | prompt text =>
        obtain ⟨run, e, h1, h2, h3⟩ :=
          generate_prompt_rejects self chat tokenizer text config w fuel hc
        exact ⟨run, e, h1, h2, by rw [h3]; rfl⟩
      | prompts texts =>
        match texts with
        | [] => exact ⟨⟨[], chat, .error .batch_size⟩, .batch_size, rfl, rfl, rfl⟩
        | [text] =>
          obtain ⟨run, e, h1, h2, h3⟩ :=
            generate_prompt_rejects self chat tokenizer text config w fuel hc
          exact ⟨run, e, h1, h2, by rw [h3]; rfl⟩
        | _ :: _ :: _ => exact ⟨⟨[], chat, .error .batch_size⟩, .batch_size, rfl, rfl, rfl⟩

/-- C16, at a vector of two prompts and at a beam-search configuration. -/
theorem C16_entry_preconditions_witness :
    generate_text ⟨1024, 1152⟩ no_chat example_tokenizer (.prompts ["Hello", "World"])
      greedy_config cancelling_world 8 = some ⟨[], no_chat, .error .batch_size⟩ ∧
    generate_text ⟨1024, 1152⟩ no_chat example_tokenizer (.prompt "Hello")
      beam_search_config cancelling_world 8 = some ⟨[], no_chat, .error .unsupported_decoding⟩ ∧
    (∀ inputs : EncodedInputs,
      ∃ run e, generate ⟨1024, 1152⟩ inputs beam_search_config cancelling_world 8 = some run ∧
        run.result = .error e ∧ infer_count run.events = 0) :=
  ⟨by decide, by decide,
    ((C16_entry_preconditions ⟨1024, 1152⟩ no_chat example_tokenizer beam_search_config
      cancelling_world 8).2.2 (Or.inl rfl)).1⟩

/-! ## The prefill logits -/

theorem sub_size_t_eq (a b : Nat) (hba : b ≤ a) (ha : a < 2 ^ 64) : sub_size_t a b = a - b := by
  unfold sub_size_t
  have hb : b % 2 ^ 64 = b := Nat.mod_eq_of_lt (by omega)
  rw [hb]
  have : a + 2 ^ 64 - b = (a - b) + 2 ^ 64 := by omega
  rw [this, Nat.add_mod_right]
  exact Nat.mod_eq_of_lt (by omega)

theorem zipWith_sub_zeros (l : List Nat) :
    List.zipWith (fun e b => e - b) l (List.replicate l.length 0) = l := by
  induction l with
  | nil => rfl
  | cons a rest ih => simp [List.replicate_succ, ih]

theorem zipWith_add_zeros (l : List Nat) (n : Nat) (h : l.length = n) :
    List.zipWith (fun i b => i + b) l (List.replicate n 0) = l := by
  subst h
  induction l with
  | nil => rfl
  | cons a rest ih => simp [List.replicate_succ, ih]

theorem roi_bounds_zeros (l : List Nat) :
    (List.zip (List.replicate l.length 0) (List.zip l l)).all
      (fun c => decide (c.1 ≤ c.2.1) && decide (c.2.1 ≤ c.2.2)) = true := by
  induction l with
  | nil => rfl
  | cons a rest ih => simp [List.replicate_succ, ih]

/-- The slice of the prefill logits when the prompt fits the sequence
dimension. -/
theorem prefill_logits_ok {α : Type} (batch L : Nat) (rest : List Nat)
    (data : List Nat → α) (prompt_len : Nat) (hL : L < 2 ^ 64) (h1 : 1 < L)
    (hp : prompt_len ≤ L) :
    ∃ logits, prefill_logits ⟨batch :: L :: rest, data⟩ prompt_len = .ok logits ∧
      logits.shape = batch :: prompt_len :: rest ∧
      ∀ (b s : Nat) (idx : List Nat), idx.length = rest.length →
        logits.data (b :: s :: idx) = data (b :: (s + (L - prompt_len)) :: idx) := by
  have hsub : sub_size_t L prompt_len = L - prompt_len := sub_size_t_eq L prompt_len hp hL
  refine ⟨{ shape := batch :: prompt_len :: rest
            data := fun idx => data (List.zipWith (fun i b => i + b) idx
              (0 :: (L - prompt_len) :: List.replicate rest.length 0)) }, ?_, rfl, ?_⟩
  · have hb : (List.zip (0 :: (L - prompt_len) :: List.replicate rest.length 0)
        (List.zip (batch :: L :: rest) (batch :: L :: rest))).all
        (fun c => decide (c.1 ≤ c.2.1) && decide (c.2.1 ≤ c.2.2)) = true := by
      have := roi_bounds_zeros rest
      simp only [List.zip_cons_cons, List.all_cons, this, Bool.and_true]
      simp
    have hdiff : L - (L - prompt_len) = prompt_len := by omega
    simp only [prefill_logits, List.getD_cons_succ, List.getD_cons_zero, gt_iff_lt, h1,
      if_true, make_tensor_slice, hsub, List.length_cons, List.replicate_succ,
      List.set_cons_succ, List.set_cons_zero, roi_tensor, List.length_replicate, true_and,
      hb, List.zipWith_cons_cons, Nat.sub_zero, zipWith_sub_zeros, hdiff, and_self]
  · intro b s idx hidx
    simp only [List.zipWith_cons_cons, Nat.add_zero,
      zipWith_add_zeros idx rest.length hidx]

/-- C15: when the logits returned by the prefill inference have a sequence
dimension `L > 1` and `prompt_len ≤ L`, the logits handed to the sampler are
the slice `[L - prompt_len, L)` along axis 1: their sequence length is
`prompt_len`, every other dimension is unchanged, and element `[b, s, ...]` is
element `[b, s + (L - prompt_len), ...]` of the returned logits; with `L = 1`
the logits are handed over as they are. -/
theorem C15_prefill_logits_slice {α : Type} (batch L : Nat) (rest : List Nat)
    (data : List Nat → α) (prompt_len : Nat) (hL : L < 2 ^ 64) :
    (1 < L → prompt_len ≤ L →
      ∃ logits, prefill_logits ⟨batch :: L :: rest, data⟩ prompt_len = .ok logits ∧
        logits.shape = batch :: prompt_len :: rest ∧
        ∀ (b s : Nat) (idx : List Nat), idx.length = rest.length →
          logits.data (b :: s :: idx) = data (b :: (s + (L - prompt_len)) :: idx)) ∧
    (L = 1 →
      prefill_logits ⟨batch :: L :: rest, data⟩ prompt_len = .ok ⟨batch :: L :: rest, data⟩) := by
  constructor
  · intro h1 hp
    exact prefill_logits_ok batch L rest data prompt_len hL h1 hp
  · intro h1
    subst h1
    simp [prefill_logits]

/-- C15, on logits of shape `[1, 8, 4]` and a prompt of three tokens: the
sampler gets shape `[1, 3, 4]`, whose position `0` is position `5` of the
returned logits. -/
theorem C15_prefill_logits_witness :
    (prefill_logits example_logits 3).map Tensor.shape = .ok [1, 3, 4] ∧
    (prefill_logits example_logits 3).map (fun t => t.data [0, 0, 2]) = .ok 52 ∧
    ∃ logits, prefill_logits example_logits 3 = .ok logits ∧
      logits.shape = [1, 3, 4] ∧
      ∀ (b s : Nat) (idx : List Nat), idx.length = 1 →
        logits.data (b :: s :: idx) = example_logits.data (b :: (s + (8 - 3)) :: idx) :=
  ⟨by decide, by decide,
    (C15_prefill_logits_slice 1 8 [4] example_logits.data 3 (by decide)).1
      (by decide) (by decide)⟩

/-- The slice is rejected exactly when the sequence dimension is above one and
shorter than the prompt, which is the condition under which `generate` ends
with the slice error. -/
theorem prefill_logits_error_iff {α : Type} (batch L : Nat) (rest : List Nat)
    (data : List Nat → α) (prompt_len : Nat) (hL : L < 2 ^ 64) (hp : prompt_len < 2 ^ 64) :
    (∃ e, prefill_logits ⟨batch :: L :: rest, data⟩ prompt_len = .error e) ↔
      (L > 1 ∧ prompt_len > L) := by
  constructor
  · rintro ⟨e, he⟩
    by_cases h1 : 1 < L
    · by_cases h2 : prompt_len ≤ L
      · obtain ⟨logits, hl, _⟩ :=
          prefill_logits_ok batch L rest data prompt_len hL h1 h2
        rw [hl] at he
        cases he
      · exact ⟨h1, by omega⟩
    · have : ¬ L > 1 := h1
      simp [prefill_logits, this] at he
  · rintro ⟨h1, h2⟩
    have hsub : sub_size_t L prompt_len = L + 2 ^ 64 - prompt_len := by
      unfold sub_size_t
      rw [Nat.mod_eq_of_lt hp]
      exact Nat.mod_eq_of_lt (by omega)
    have hgt : ¬ (L + 2 ^ 64 - prompt_len ≤ L) := by omega
    refine ⟨.bad_slice, ?_⟩
    simp only [prefill_logits, List.getD_cons_succ, List.getD_cons_zero, h1, if_true,
      make_tensor_slice, hsub, List.length_cons, List.replicate_succ, List.set_cons_succ,
      List.set_cons_zero, roi_tensor, List.zip_cons_cons, List.all_cons, hgt, decide_False,
      Bool.false_and, Bool.and_false, Bool.false_eq_true, and_false, if_false]

/-! ### Termination of the decode loop -/

/-- C18, evaluated on capacities that wrapped around: with
`m_max_prompt_len = 4294967295` and `m_kvcache_total = 2` (what
`updateStatefulConfig` computes from `wrapped_config`), a prompt of three
tokens is accepted, the decode loop runs five iterations and six tokens are
returned, although `m_kvcache_total - n` is negative. -/
theorem C18_loop_exceeds_wrapped_bound :
    (updateStatefulConfig wrapped_config ⟨0, 2⟩).map Prod.fst = .ok ⟨4294967295, 2⟩ ∧
    (generate ⟨4294967295, 2⟩ ⟨1, 3⟩ greedy_config six_token_world 16).map
      (fun run => (decode_count run.events, run.result)) =
      some (5, .ok ⟨[0, 1, 2, 3, 4, 5], false, .RUNNING⟩) ∧
    ((2 : Int) - 3 + 1 < 6) := by
  refine ⟨?_, ?_, ?_⟩ <;> decide

theorem decode_count_append (a b : List Event) :
    decode_count (a ++ b) = decode_count a + decode_count b := by
  simp [decode_count, List.countP_append]

theorem write_tokens_frame (write : List Int → StreamingStatus) :
    ∀ (tokens : List Int) (st : GenState),
      (write_tokens write tokens st).position_ids_data = st.position_ids_data ∧
      (write_tokens write tokens st).sequence_group.generated_ids
        = st.sequence_group.generated_ids ∧
      decode_count (write_tokens write tokens st).events = decode_count st.events := by
  intro tokens
  induction tokens with
  | nil => intro st; exact ⟨rfl, rfl, rfl⟩
  | cons t rest ih =>
    intro st
    cases hw : write (st.written ++ [t]) with
    | RUNNING =>
      simp only [write_tokens, hw]
      obtain ⟨h1, h2, h3⟩ := ih { st with written := st.written ++ [t],
                                          events := st.events ++ [.write t] }
      refine ⟨h1, h2, ?_⟩
      rw [h3, decode_count_append]
      rfl
    | CANCEL =>
      simp only [write_tokens, hw]
      refine ⟨trivial, trivial, ?_⟩
      simp [decode_count_append, decode_count, Event.is_decode]
    | STOP =>
      simp only [write_tokens, hw]
      refine ⟨trivial, trivial, ?_⟩
      simp [decode_count_append, decode_count, Event.is_decode]

theorem stream_frame (streamer_ptr : Option (List Int → StreamingStatus)) (st : GenState) :
    (stream_generated_tokens streamer_ptr st).position_ids_data = st.position_ids_data ∧
    (stream_generated_tokens streamer_ptr st).sequence_group.generated_ids
      = st.sequence_group.generated_ids ∧
    decode_count (stream_generated_tokens streamer_ptr st).events = decode_count st.events := by
  unfold stream_generated_tokens
  split
  · exact write_tokens_frame _ _ _
  · exact ⟨rfl, rfl, rfl⟩

/-- With `d` free cache positions left and fuel for `d + 1` passes, the decode
loop ends: its condition is false afterwards, and it ran at most `d` decode
inferences and added at most `d` tokens. -/
theorem decode_loop_terminates (self : StatefulLLMPipeline) (w : World) :
    ∀ (fuel : Nat) (st : GenState) (d : Nat),
      st.position_ids_data + 1 + (d : Int) = (self.m_kvcache_total : Int) → d + 1 ≤ fuel →
      ∃ st', decode_loop self w fuel st = some st' ∧
        loop_condition st'.sequence_group = false ∧
        decode_count st'.events ≤ decode_count st.events + d ∧
        st'.sequence_group.generated_ids.length ≤ st.sequence_group.generated_ids.length + d ∧
        st.sequence_group.generated_ids.length ≤ st'.sequence_group.generated_ids.length := by
  intro fuel
  induction fuel with
  | zero => intro st d _ h; omega
  | succ fuel ih =>
    intro st d hd hfuel
    unfold decode_loop
    by_cases hcond : loop_condition st.sequence_group = true
    · simp only [hcond, if_true]
      by_cases hfull : st.position_ids_data + 1 = (self.m_kvcache_total : Int)
      · simp only [hfull, if_true]
        refine ⟨_, rfl, ?_, ?_, ?_, ?_⟩
        · simp [loop_condition, SequenceGroup.set_out_of_memory]
        · simp [decode_count_append, decode_count, Event.is_decode]
        · simp [SequenceGroup.set_out_of_memory]
        · simp [SequenceGroup.set_out_of_memory]
      · simp only [hfull, if_false]
        have hd1 : 1 ≤ d := by omega
        obtain ⟨f1, f2, f3⟩ := stream_frame w.streamer (sample w
          { st with
            input_ids_data := st.sequence_group.generated_ids.getLastD 0
            position_ids_data := st.position_ids_data + 1
            attention_mask_data := st.attention_mask_data ++ [1]
            events := st.events ++
              [.infer_decode (st.sequence_group.generated_ids.getLastD 0)
                (st.position_ids_data + 1) (st.attention_mask_data ++ [1]).length] })
        obtain ⟨st', hst', hc', hn', hg', hm'⟩ := ih _ (d - 1)
          (by rw [f1]; simp only [sample]; omega) (by omega)
        refine ⟨st', hst', hc', ?_, ?_, ?_⟩
        · rw [f3] at hn'
          simp only [sample, decode_count_append] at hn'
          simp only [decode_count, Event.is_decode, List.countP_cons, List.countP_nil] at hn' ⊢
          simp at hn'
          omega
        · rw [f2] at hg'
          simp only [sample, List.length_append, List.length_singleton] at hg'
          omega
        · rw [f2] at hm'
          simp only [sample, List.length_append, List.length_singleton] at hm'
          omega
    · have hc : loop_condition st.sequence_group = false := by simpa using hcond
      simp only [hc, Bool.false_eq_true, if_false]
      exact ⟨st, rfl, hc, by omega, by omega, le_refl _⟩

theorem finished_of_loop_end (sg : SequenceGroup) (h : loop_condition sg = false) :
    sg.finished_sequences = 1 := by
  unfold SequenceGroup.finished_sequences
  unfold loop_condition at h
  cases hr : sg.running <;> cases hs : sg.handle_stopped <;> cases hc : sg.handle_cancelled <;>
    simp_all

/-- Companion of C18: when the total cache capacity is at least the prompt
capacity (the sum of the two configured lengths did not wrap around), an
accepted prompt of `n ≥ 1` tokens makes `generate` return within
`m_kvcache_total - n + 1` passes of the loop, after at most
`m_kvcache_total - n` decode inferences, with a non-empty token sequence of at
most `m_kvcache_total - n + 1` tokens. -/
theorem generate_terminates_within_capacity (self : StatefulLLMPipeline)
    (inputs : EncodedInputs) (config : GenerationConfig) (w : World) (fuel : Nat)
    (hbatch : inputs.batch = 1) (hvalid : config.valid = true)
    (hdecoding : (config.is_greedy_decoding || config.is_multinomial) = true)
    (hreturn : config.num_return_sequences = 1)
    (hn : 1 ≤ inputs.seq_len) (hmax : inputs.seq_len ≤ self.m_max_prompt_len)
    (hcap : self.m_max_prompt_len ≤ self.m_kvcache_total)
    (hslice : ¬ (w.padded_sequence_len > 1 ∧ inputs.seq_len > w.padded_sequence_len))
    (hfuel : self.m_kvcache_total - inputs.seq_len + 1 ≤ fuel) :
    ∃ run res, generate self inputs config w fuel = some run ∧ run.result = .ok res ∧
      decode_count run.events ≤ self.m_kvcache_total - inputs.seq_len ∧
      res.tokens ≠ [] ∧
      res.tokens.length ≤ self.m_kvcache_total - inputs.seq_len + 1 := by
  have hlen : inputs.batch * inputs.seq_len = inputs.seq_len := by rw [hbatch, Nat.one_mul]
  obtain ⟨f1, f2, f3⟩ := stream_frame w.streamer (sample w (prefill_state inputs.seq_len))
  obtain ⟨st', hst', hc', hn', hg', hm'⟩ := decode_loop_terminates self w fuel
    (decode_state inputs.seq_len
      (stream_generated_tokens w.streamer (sample w (prefill_state inputs.seq_len))))
    (self.m_kvcache_total - inputs.seq_len)
    (by simp only [decode_state]; omega) hfuel
  have hfin := finished_of_loop_end _ hc'
  have hids : (decode_state inputs.seq_len
      (stream_generated_tokens w.streamer (sample w (prefill_state inputs.seq_len)))
      ).sequence_group.generated_ids.length = 1 := by
    show (stream_generated_tokens w.streamer
      (sample w (prefill_state inputs.seq_len))).sequence_group.generated_ids.length = 1
    rw [f2]
    simp [sample, prefill_state]
  have hdec : decode_count (decode_state inputs.seq_len
      (stream_generated_tokens w.streamer (sample w (prefill_state inputs.seq_len)))
      ).events = 0 := by
    show decode_count (stream_generated_tokens w.streamer
      (sample w (prefill_state inputs.seq_len))).events = 0
    rw [f3]
    simp [sample, prefill_state, decode_count, Event.is_decode]
  rw [hids] at hg' hm'
  rw [hdec] at hn'
  have hgen : generate self inputs config w fuel = some (finish w st') := by
    unfold generate
    rw [if_neg (by simp [hbatch]), if_neg (by simp [hvalid]), if_neg (by simp [hdecoding]),
      if_neg (by simp [hreturn]), if_neg (by rw [hlen]; omega), hlen]
    unfold generate_from_prefill
    rw [if_neg hslice, if_neg (by omega), hst']
    rfl
  have hres : (finish w st').result = .ok
      { tokens := st'.sequence_group.generated_ids
        out_of_memory := st'.sequence_group.out_of_memory
        status := st'.sequence_group.status } := by
    unfold finish
    simp [hfin]
  have hev : decode_count (finish w st').events = decode_count st'.events := by
    unfold finish
    split_ifs <;> simp [decode_count_append, decode_count, Event.is_decode]
  refine ⟨finish w st', _, hgen, hres, ?_, ?_, ?_⟩
  · rw [hev]; omega
  · intro h
    have h0 : st'.sequence_group.generated_ids.length = 0 := by
      show (st'.sequence_group.generated_ids).length = 0
      rw [show st'.sequence_group.generated_ids = [] from h]
      rfl
    omega
  · show st'.sequence_group.generated_ids.length ≤ _
    omega

/-! ## The causal mask -/

theorem example_mask_eval :
    ((added_term (decompose example_causal_attention)).bind
      (eval_tensor example_attention_inputs)).map
      (fun m => (m.shape, (List.range 3).map (fun i => (List.range 5).map (fun j => m.data [i, j]))))
    = some ([3, 5],
        [[some (.num 0), some .neg_inf, some .neg_inf, some .neg_inf, some .neg_inf],
         [some (.num 0), some (.num 0), some .neg_inf, some .neg_inf, some .neg_inf],
         [some (.num 0), some (.num 0), some (.num 0), some .neg_inf, some .neg_inf]]) := by
  decide

theorem causal_decompose_mask (node : SDPA) (hcausal : node.causal = true) :
    decompose_mask node (decompose_scores node) (decompose_minus_inf node) = some
      (.Select
        (.GreaterEqual
          (.Unsqueeze
            (.Range (const_i32 0)
              (.Gather (.ShapeOf (node.input_value 1) .i32) (const_i32 (-2)) (const_i32 0))
              (const_i32 1) .i32)
            (const_i32 0))
          (.Unsqueeze
            (.Range (const_i32 1)
              (.Add (.Gather (.ShapeOf (node.input_value 0) .i32) (const_i32 (-2)) (const_i32 0))
                (const_i32 1))
              (const_i32 1) .i32)
            (const_i32 1)))
        (.Broadcast (decompose_minus_inf node)
          (.Concat
            (.Unsqueeze
              (.Gather (.ShapeOf (node.input_value 0) .i32) (const_i32 (-2)) (const_i32 0))
              (const_i32 0))
            (.Unsqueeze
              (.Gather (.ShapeOf (node.input_value 1) .i32) (const_i32 (-2)) (const_i32 0))
              (const_i32 0))
            0))
        (.ConvertLike (const_i32 0) (node.input_value 0))) := by
  simp [decompose_mask, hcausal]


theorem normalize_axis_minus_two (n : Nat) (h : 2 ≤ n) : normalize_axis (-2) n = n - 2 := by
  unfold normalize_axis
  simp
  omega

theorem causal_mask_eval (node : SDPA) (input : Nat → ScalarTensor) (q k : ScalarTensor)
    (hq : eval_tensor input (node.input_value 0) = some q)
    (hk : eval_tensor input (node.input_value 1) = some k)
    (hqr : 2 ≤ q.shape.length) (hkr : 2 ≤ k.shape.length)
    (hty : (node.input_value 0).get_element_type ≠ .boolean)
    (hcausal : node.causal = true) :
    ∃ term mask, decompose_mask node (decompose_scores node) (decompose_minus_inf node) = some term ∧
      eval_tensor input term = some mask ∧
      mask.shape = [q.shape.getD (q.shape.length - 2) 0, k.shape.getD (k.shape.length - 2) 0] ∧
      ∀ i j, i < q.shape.getD (q.shape.length - 2) 0 → j < k.shape.getD (k.shape.length - 2) 0 →
        mask.data [i, j] = some (if j > i then .neg_inf else .num 0) := by
  rw [causal_decompose_mask node hcausal]
  simp only [Option.some.injEq, exists_eq_left']
  simp [eval_tensor, hq, hk, const_i32, scalar_value, decompose_minus_inf,
    normalize_axis_minus_two _ hqr, normalize_axis_minus_two _ hkr, elementwise, broadcast_shape,
    broadcast_rev, broadcast_index, scalar_add, scalar_ge, shape_values, Tensor.concat,
    show normalize_axis 0 1 = 0 from rfl, hty, convert_scalar]
  generalize q.shape[q.shape.length - 2]?.getD 0 = T
  generalize k.shape[k.shape.length - 2]?.getD 0 = S
  refine ⟨⟨?_, ?_⟩, ?_⟩
  · unfold broadcast_dim
    split_ifs <;> omega
  · unfold broadcast_dim
    split_ifs <;> omega
  · intro i j hi hj
    have hT : (if T = 1 then (0 : Int) else if broadcast_dim 1 T = 1 then 0 else (i : Int)) = i := by
      unfold broadcast_dim
      split_ifs <;> omega
    have hS : (if S = 1 then (0 : Int) else if broadcast_dim S 1 = 1 then 0 else (j : Int)) = j := by
      unfold broadcast_dim
      split_ifs <;> omega
    rw [hT, hS]
    by_cases hij : i < j
    · have : (1 + (i : Int) ≤ j) := by omega
      simp [hij, this]
    · have : ¬ (1 + (i : Int) ≤ j) := by omega
      simp [hij, this]


/-- C20: when the causal attribute is set, `decompose` adds to the scaled
scores, before the softmax, a term whose value for a query with `T` positions
and a key with `S` positions is the `T × S` mask with `-inf` at `(i, j)` when
`j > i` and `0` otherwise, whatever the number of inputs of the node (so also
when an explicit mask input is present); when the causal attribute is unset
and the node has 3 inputs, the softmax is applied to the scores with nothing
added. -/
theorem C20_causal_mask (node : SDPA) (input : Nat → ScalarTensor) :
    (node.causal = true →
      ∀ q k : ScalarTensor,
        eval_tensor input (node.input_value 0) = some q →
        eval_tensor input (node.input_value 1) = some k →
        2 ≤ q.shape.length → 2 ≤ k.shape.length →
        (node.input_value 0).get_element_type ≠ .boolean →
        ∃ term mask,
          decompose node =
            .MatMul (.Softmax (.Add (decompose_scores node) term) (-1)) (node.input_value 2)
              false false ∧
          eval_tensor input term = some mask ∧
          mask.shape =
            [q.shape.getD (q.shape.length - 2) 0, k.shape.getD (k.shape.length - 2) 0] ∧
          ∀ i j, i < q.shape.getD (q.shape.length - 2) 0 →
            j < k.shape.getD (k.shape.length - 2) 0 →
            mask.data [i, j] = some (if j > i then .neg_inf else .num 0)) ∧
    (node.causal = false → node.inputs.length = 3 →
      decompose node =
        .MatMul (.Softmax (decompose_scores node) (-1)) (node.input_value 2) false false ∧
      added_term (decompose node) = none) := by
  constructor
  · intro hcausal q k hq hk hqr hkr hty
    obtain ⟨term, mask, hterm, hmask, hshape, hdata⟩ :=
      causal_mask_eval node input q k hq hk hqr hkr hty hcausal
    refine ⟨term, mask, ?_, hmask, hshape, hdata⟩
    simp only [decompose, hterm]
  · intro hcausal hlen
    have hnone : decompose_mask node (decompose_scores node) (decompose_minus_inf node) = none := by
      simp [decompose_mask, hcausal, hlen]
    have hdec : decompose node =
        .MatMul (.Softmax (decompose_scores node) (-1)) (node.input_value 2) false false := by
      simp only [decompose, hnone]
    refine ⟨hdec, ?_⟩
    rw [hdec]
    unfold decompose_scores
    rfl

/-- C20 at `example_causal_attention`: three query positions and five key
positions give a `3 × 5` mask with `-inf` strictly above the diagonal. -/
theorem C20_causal_mask_witness :
    ∃ term mask,
      decompose example_causal_attention =
        .MatMul (.Softmax (.Add (decompose_scores example_causal_attention) term) (-1))
          (.Input 2 .f32) false false ∧
      eval_tensor example_attention_inputs term = some mask ∧
      mask.shape = [3, 5] ∧
      ∀ i j, i < 3 → j < 5 → mask.data [i, j] = some (if j > i then .neg_inf else .num 0) :=
  (C20_causal_mask example_causal_attention example_attention_inputs).1 rfl
    ⟨[1, 2, 3, 4], fun _ => some (.num 0)⟩ ⟨[1, 2, 5, 4], fun _ => some (.num 0)⟩
    rfl rfl (by decide) (by decide) (by decide)

/-! ## The scale of the attention decomposition -/

theorem normalize_axis_minus_one (n : Nat) (h : 1 ≤ n) : normalize_axis (-1) n = n - 1 := by
  unfold normalize_axis
  simp
  omega

/-- The scores are the first operand of what `decompose` feeds the softmax:
the softmax input is the scores, or the scores plus a mask term. -/
theorem decompose_softmax_input (node : SDPA) :
    (∃ x, decompose node = .MatMul (.Softmax x (-1)) (node.input_value 2) false false ∧
      (x = decompose_scores node ∨ ∃ term, x = .Add (decompose_scores node) term)) := by
  cases h : decompose_mask node (decompose_scores node) (decompose_minus_inf node) with
  | none => exact ⟨_, by simp only [decompose, h], Or.inl rfl⟩
  | some term => exact ⟨_, by simp only [decompose, h], Or.inr ⟨term, rfl⟩⟩

/-- C21: with fewer than five inputs the scores of `decompose` are
`MatMul(Multiply(query, Divide(1, Sqrt(d))), key)` where `d` is a node whose
value is the size of the last dimension of the query, which for an attention
node (query `[.., L, E]`, key `[.., S, E]`) is the size of the key's last
dimension; with a fifth input the scores are
`MatMul(Multiply(query, input 4), key)`, the fifth input being the scale as it
is.  The scores are what the softmax of the result is applied to, alone or
with a mask term added. -/
theorem C21_attention_scale (node : SDPA) (input : Nat → ScalarTensor) :
    (node.inputs.length < 5 →
      ∃ d : Node,
        decompose_scores node =
          .MatMul
            (.Multiply (node.input_value 0)
              (.Divide (.ConvertLike (const_i32 1) (node.input_value 0))
                (.Sqrt (.ConvertLike d (node.input_value 0)))))
            (node.input_value 1) false true ∧
        ∀ q k : ScalarTensor,
          eval_tensor input (node.input_value 0) = some q →
          eval_tensor input (node.input_value 1) = some k →
          1 ≤ q.shape.length →
          q.shape.getD (q.shape.length - 1) 0 = k.shape.getD (k.shape.length - 1) 0 →
          ∃ t, eval_tensor input d = some t ∧ t.shape = [] ∧
            t.data [] = some (.num (k.shape.getD (k.shape.length - 1) 0))) ∧
    (5 ≤ node.inputs.length →
      decompose_scores node =
        .MatMul (.Multiply (node.input_value 0) (node.input_value 4))
          (node.input_value 1) false true) ∧
    (∃ x, decompose node = .MatMul (.Softmax x (-1)) (node.input_value 2) false false ∧
      (x = decompose_scores node ∨ ∃ term, x = .Add (decompose_scores node) term)) := by
  refine ⟨?_, ?_, decompose_softmax_input node⟩
  · intro hlen
    refine ⟨.Gather (.ShapeOf (node.input_value 0) .i32) (const_i32 (-1)) (const_i32 0), ?_, ?_⟩
    · simp only [decompose_scores, hlen, if_true]
    · intro q k hq hk hrank hsame
      refine ⟨⟨[], fun _ => some (.num (q.shape.getD (q.shape.length - 1) 0))⟩, ?_, rfl, ?_⟩
      · simp [eval_tensor, hq, const_i32, scalar_value, normalize_axis_minus_one _ hrank]
      · simp only [hsame]
  · intro hlen
    have h : ¬ node.inputs.length < 5 := by omega
    simp only [decompose_scores, h, if_false]

/-- C21 at `example_plain_attention` (the key's last dimension is `4`) and at
`example_scaled_attention` (the scale is input `4`). -/
theorem C21_attention_scale_witness :
    (∃ d : Node,
      scale_of (decompose_scores example_plain_attention) =
        some (.Divide (.ConvertLike (const_i32 1) (.Input 0 .f32))
          (.Sqrt (.ConvertLike d (.Input 0 .f32)))) ∧
      ∃ t, eval_tensor example_attention_inputs d = some t ∧ t.shape = [] ∧
        t.data [] = some (.num 4)) ∧
    scale_of (decompose_scores example_scaled_attention) = some (.Input 4 .f32) := by
  obtain ⟨d, hd, heval⟩ :=
    (C21_attention_scale example_plain_attention example_attention_inputs).1 (by decide)
  refine ⟨⟨d, ?_, ?_⟩, ?_⟩
  · rw [hd]; rfl
  · exact heval ⟨[1, 2, 3, 4], fun _ => some (.num 0)⟩ ⟨[1, 2, 5, 4], fun _ => some (.num 0)⟩
      rfl rfl (by decide) rfl
  · rw [(C21_attention_scale example_scaled_attention example_attention_inputs).2.1 (by decide)]
    rfl

/-! ## The order of the configuration rules -/

/-- C27, evaluated at `namespaced_capacity_config`, which asks for a model
compiled for prompts of at most `512` tokens: `updateStatefulConfig` hands
`NPUW_LLM_MAX_PROMPT_LEN = 512` to the compiler and sets `m_max_prompt_len` to
`1024`, so `generate` takes a prompt of `1000` tokens to the prefill
inference.  The branch that imports a blob compiled with this configuration
reads the capacity from the compiled model and rejects the same prompt. -/
theorem C27_namespaced_capacity_not_enforced :
    (updateStatefulConfig namespaced_capacity_config ⟨0, 2⟩).map
      (fun r => (r.1, AnyMap.find r.2 "NPUW_LLM_MAX_PROMPT_LEN",
        AnyMap.find r.2 "NPUW_LLM_MIN_RESPONSE_LEN")) =
      .ok (⟨1024, 1152⟩, some (.uint32 512), some (.uint32 128)) ∧
    Any.uint32 512 ≠ Any.uint32 1024 ∧
    (generate ⟨1024, 1152⟩ ⟨1, 1000⟩ greedy_config three_token_world 8).map
      (fun run => (run.events.head?, run.result)) =
      some (some (.infer_prefill 1000), .ok ⟨[0, 1, 2], false, .RUNNING⟩) ∧
    imported_capacities 512 128 = ⟨512, 640⟩ ∧
    generate (imported_capacities 512 128) ⟨1, 1000⟩ greedy_config three_token_world 8 =
      some ⟨[], .error (.prompt_too_long 512)⟩ := by
  refine ⟨?_, ?_, ?_, ?_, ?_⟩ <;> decide

/-- After a successful `updateStatefulConfig` on a configuration
without `NPUW_LLM_MAX_PROMPT_LEN`, that key holds `m_max_prompt_len`; on a
configuration without `NPUW_LLM_MIN_RESPONSE_LEN`, that key holds a value `m`
with `m_kvcache_total = m_max_prompt_len + m` in `uint32_t` arithmetic, which
is `m_kvcache_total - m_max_prompt_len` when the sum of the two capacities is
below `2 ^ 32`; an entry of either key in the input configuration is kept as
it is. -/
theorem capacities_agree_unless_supplied (cfg cfg' : AnyMap) (kv_pos : KVAxesPosition)
    (self : StatefulLLMPipeline) (h : updateStatefulConfig cfg kv_pos = .ok (self, cfg')) :
    (AnyMap.find cfg "NPUW_LLM_MAX_PROMPT_LEN" = none →
      AnyMap.find cfg' "NPUW_LLM_MAX_PROMPT_LEN" = some (.uint32 self.m_max_prompt_len)) ∧
    (AnyMap.find cfg "NPUW_LLM_MIN_RESPONSE_LEN" = none →
      ∃ m, AnyMap.find cfg' "NPUW_LLM_MIN_RESPONSE_LEN" = some (.uint32 m) ∧
        self.m_kvcache_total = add_uint32 self.m_max_prompt_len m ∧
        (self.m_max_prompt_len + m < 2 ^ 32 →
          (m : Int) = (self.m_kvcache_total : Int) - self.m_max_prompt_len)) ∧
    (∀ v, AnyMap.find cfg "NPUW_LLM_MAX_PROMPT_LEN" = some v →
      AnyMap.find cfg' "NPUW_LLM_MAX_PROMPT_LEN" = some v) ∧
    (∀ v, AnyMap.find cfg "NPUW_LLM_MIN_RESPONSE_LEN" = some v →
      AnyMap.find cfg' "NPUW_LLM_MIN_RESPONSE_LEN" = some v) := by
  obtain ⟨a, b, c1, c2, h1, h2, hself, hcfg⟩ := updateStatefulConfig_ok cfg cfg' kv_pos self h
  have hf1 := (pop_int_and_cast_ok cfg c1 _ a h1).1
  have hf2 := (pop_int_and_cast_ok c1 c2 _ b h2).1
  have hmax : AnyMap.find c2 "NPUW_LLM_MAX_PROMPT_LEN" =
      AnyMap.find cfg "NPUW_LLM_MAX_PROMPT_LEN" := by
    rw [hf2, if_neg (by decide), hf1, if_neg (by decide)]
  have hmin : AnyMap.find c2 "NPUW_LLM_MIN_RESPONSE_LEN" =
      AnyMap.find cfg "NPUW_LLM_MIN_RESPONSE_LEN" := by
    rw [hf2, if_neg (by decide), hf1, if_neg (by decide)]
  obtain ⟨e1, e2, _, _⟩ := find_entries_capacities c2 kv_pos (a.getD 1024) (b.getD 128)
  rw [hmax] at e1
  rw [hmin] at e2
  rw [hcfg, hself]
  clear h hcfg hself h1 h2 hf1 hf2 hmax hmin
  refine ⟨?_, ?_, ?_, ?_⟩
  · intro hn
    rw [e1, hn]
  · intro hn
    refine ⟨b.getD 128, ?_, rfl, ?_⟩
    · rw [e2, hn]
    · intro hlt
      have : add_uint32 (a.getD 1024) (b.getD 128) = a.getD 1024 + b.getD 128 :=
        Nat.mod_eq_of_lt hlt
      show ((b.getD 128 : Nat) : Int) =
        ((add_uint32 (a.getD 1024) (b.getD 128) : Nat) : Int) - ((a.getD 1024 : Nat) : Int)
      rw [this]
      omega
  · intro v hv
    rw [e1, hv]
  · intro v hv
    rw [e2, hv]

/-- On `capacity_config` the stored capacities are `2048` and
`256 = 2304 - 2048`. -/
theorem capacities_agree_example :
    updateStatefulConfig capacity_config ⟨0, 2⟩ =
      .ok (⟨2048, 2304⟩,
        [("NPU_USE_NPUW", .str "YES"), ("NPUW_LLM", .str "YES"),
         ("NPUW_LLM_BATCH_DIM", .size_t 0), ("NPUW_LLM_SEQ_LEN_DIM", .size_t 2),
         ("NPUW_LLM_MAX_PROMPT_LEN", .uint32 2048),
         ("NPUW_LLM_MIN_RESPONSE_LEN", .uint32 256)]) ∧
    AnyMap.find
      [("NPU_USE_NPUW", Any.str "YES"), ("NPUW_LLM", .str "YES"),
       ("NPUW_LLM_BATCH_DIM", .size_t 0), ("NPUW_LLM_SEQ_LEN_DIM", .size_t 2),
       ("NPUW_LLM_MAX_PROMPT_LEN", .uint32 2048),
       ("NPUW_LLM_MIN_RESPONSE_LEN", .uint32 256)] "NPUW_LLM_MAX_PROMPT_LEN" =
      some (.uint32 2048) :=
  ⟨by decide,
    (capacities_agree_unless_supplied capacity_config _ ⟨0, 2⟩ ⟨2048, 2304⟩ (by decide)).1 (by decide)⟩

/-- C28, evaluated at `wrapped_config` (`MAX_PROMPT_LEN = 4294967295`,
`MIN_RESPONSE_LEN = 3`): `updateStatefulConfig` accepts it and sets
`m_kvcache_total = 2`, which is neither the sum `4294967298` nor at least
`m_max_prompt_len`; the import branch computes the same from blob properties
with these values. -/
theorem C28_capacity_sum_wraps :
    (updateStatefulConfig wrapped_config ⟨0, 2⟩).map Prod.fst = .ok ⟨4294967295, 2⟩ ∧
    imported_capacities 4294967295 3 = ⟨4294967295, 2⟩ ∧
    (2 : Nat) ≠ 4294967295 + 3 ∧ ¬ (4294967295 ≤ (2 : Nat)) := by
  refine ⟨?_, ?_, ?_, ?_⟩ <;> decide

/-- Where the two capacities add up to less than `2 ^ 32`, the total is their
sum and is at least the prompt capacity, in `updateStatefulConfig` and in the
branch that imports a blob. -/
theorem kvcache_total_exact (cfg cfg' : AnyMap) (kv_pos : KVAxesPosition)
    (self : StatefulLLMPipeline) (va vb : Int) (anya anyb : Any)
    (ha : AnyMap.find cfg "MAX_PROMPT_LEN" = some anya)
    (hb : AnyMap.find cfg "MIN_RESPONSE_LEN" = some anyb)
    (hanya : anya = .int va ∨ anya = .int64 va) (hanyb : anyb = .int vb ∨ anyb = .int64 vb)
    (hva : 0 ≤ va) (hvb : 0 ≤ vb) (hsum : va + vb < 2 ^ 32)
    (h : updateStatefulConfig cfg kv_pos = .ok (self, cfg')) :
    (self.m_kvcache_total : Int) = va + vb ∧ self.m_max_prompt_len ≤ self.m_kvcache_total ∧
    (self.m_max_prompt_len : Int) = va := by
  obtain ⟨a, b, c1, c2, h1, h2, hself, _⟩ := updateStatefulConfig_ok cfg cfg' kv_pos self h
  rw [pop_int_and_cast_of_value cfg _ anya va ha hanya hva] at h1
  have hb' : AnyMap.find (AnyMap.erase cfg "MAX_PROMPT_LEN") "MIN_RESPONSE_LEN" = some anyb := by
    rw [AnyMap.find_erase, if_neg (by decide)]
    exact hb
  obtain ⟨rfl, rfl⟩ : some (cast_uint32 va) = a ∧ AnyMap.erase cfg "MAX_PROMPT_LEN" = c1 := by
    simpa using h1
  rw [pop_int_and_cast_of_value _ _ anyb vb hb' hanyb hvb] at h2
  obtain ⟨rfl, _⟩ : some (cast_uint32 vb) = b ∧ _ = c2 := by
    simpa using h2
  have ea := cast_uint32_of_lt va hva (by omega)
  have eb := cast_uint32_of_lt vb hvb (by omega)
  rw [hself]
  simp only [Option.getD_some]
  have hlt : cast_uint32 va + cast_uint32 vb < 2 ^ 32 := by omega
  have hadd : add_uint32 (cast_uint32 va) (cast_uint32 vb) = cast_uint32 va + cast_uint32 vb :=
    Nat.mod_eq_of_lt hlt
  rw [hadd]
  refine ⟨by omega, by omega, ea⟩

theorem imported_capacities_exact (a b : Nat) (h : a + b < 2 ^ 32) :
    (imported_capacities a b).m_kvcache_total = a + b := by
  show add_uint32 a b = a + b
  exact Nat.mod_eq_of_lt h

/-- C29, evaluated at `oversized_config`: the value `4294967296` of
`MAX_PROMPT_LEN` is accepted and `0` is returned. -/
theorem C29_cast_truncates :
    pop_int_and_cast oversized_config "MAX_PROMPT_LEN" =
      .ok (some 0, [("NPUW_LLM", .str "YES")]) ∧
    ((0 : Nat) : Int) ≠ 4294967296 := by
  constructor <;> decide

/-- For a value below `2 ^ 32`, `pop_int_and_cast` returns the value, removes
the key and leaves every other key as it is. -/
theorem pop_int_and_cast_exact (m : AnyMap) (key : String) (any : Any) (v : Int)
    (h : AnyMap.find m key = some any) (hany : any = .int v ∨ any = .int64 v)
    (hv : 0 ≤ v) (hlt : v < 2 ^ 32) :
    ∃ n m', pop_int_and_cast m key = .ok (some n, m') ∧ (n : Int) = v ∧
      AnyMap.find m' key = none ∧ ∀ k, k ≠ key → AnyMap.find m' k = AnyMap.find m k := by
  refine ⟨cast_uint32 v, AnyMap.erase m key, pop_int_and_cast_of_value m key any v h hany hv,
    cast_uint32_of_lt v hv hlt, ?_, ?_⟩
  · rw [AnyMap.find_erase, if_pos rfl]
  · intro k hk
    rw [AnyMap.find_erase, if_neg hk]

/-! ### The inputs of the decode inferences -/

theorem write_tokens_buffers (write : List Int → StreamingStatus) :
    ∀ (tokens : List Int) (st : GenState),
      (write_tokens write tokens st).attention_mask_data = st.attention_mask_data ∧
      (write_tokens write tokens st).input_ids_data = st.input_ids_data ∧
      (write_tokens write tokens st).n_samples = st.n_samples ∧
      st.events <+: (write_tokens write tokens st).events := by
  intro tokens
  induction tokens with
  | nil => intro st; exact ⟨rfl, rfl, rfl, List.prefix_refl _⟩
  | cons t rest ih =>
    intro st
    cases hw : write (st.written ++ [t]) with
    | RUNNING =>
      simp only [write_tokens, hw]
      obtain ⟨h1, h2, h3, h4⟩ := ih { st with written := st.written ++ [t],
                                              events := st.events ++ [.write t] }
      exact ⟨h1, h2, h3, (List.prefix_append _ _).trans h4⟩
    | CANCEL =>
      simp only [write_tokens, hw]
      refine ⟨trivial, trivial, trivial, ?_⟩
      rw [List.append_assoc]
      exact List.prefix_append _ _
    | STOP =>
      simp only [write_tokens, hw]
      refine ⟨trivial, trivial, trivial, ?_⟩
      rw [List.append_assoc]
      exact List.prefix_append _ _

theorem stream_buffers (streamer_ptr : Option (List Int → StreamingStatus)) (st : GenState) :
    (stream_generated_tokens streamer_ptr st).attention_mask_data = st.attention_mask_data ∧
    (stream_generated_tokens streamer_ptr st).input_ids_data = st.input_ids_data ∧
    (stream_generated_tokens streamer_ptr st).n_samples = st.n_samples ∧
    st.events <+: (stream_generated_tokens streamer_ptr st).events := by
  unfold stream_generated_tokens
  split
  · exact write_tokens_buffers _ _ _
  · exact ⟨rfl, rfl, rfl, List.prefix_refl _⟩

/-- The invariant at the head of the decode loop after `j` iterations, for a
prompt of `n` tokens: `j + 1` tokens were sampled, the position is
`n - 1 + j` and the mask holds that many ones. -/
theorem state_at_decode_spec (self : StatefulLLMPipeline) (w : World) (n : Nat) :
    ∀ (k : Nat) (st0 st : GenState) (j : Nat),
      st0.position_ids_data = (n : Int) - 1 + j →
      st0.attention_mask_data = List.replicate (n - 1 + j) 1 →
      st0.n_samples = j + 1 →
      st0.sequence_group.generated_ids.length = j + 1 →
      st0.sequence_group.generated_ids.getLastD 0 = (w.sampler j).token →
      state_at_decode self w k st0 = some st →
      1 ≤ k ∧
      st.input_ids_data = (w.sampler (j + k - 1)).token ∧
      st.input_ids_data = st.sequence_group.generated_ids.getLastD 0 ∧
      st.sequence_group.generated_ids.length = j + k ∧
      st.position_ids_data = (n : Int) - 1 + ((j + k : Nat) : Int) ∧
      st.attention_mask_data = List.replicate (n - 1 + (j + k)) 1 ∧
      st.events.getLast? =
        some (.infer_decode st.input_ids_data st.position_ids_data
          st.attention_mask_data.length) ∧
      decode_count st.events = decode_count st0.events + k := by
  intro k
  induction k with
  | zero => intro st0 st j _ _ _ _ _ h; simp [state_at_decode] at h
  | succ k ih =>
    intro st0 st j hpos hmask hns hlen hlast h
    unfold state_at_decode at h
    by_cases hc : loop_condition st0.sequence_group = true
    · rw [if_pos hc] at h
      by_cases hfull : st0.position_ids_data + 1 = (self.m_kvcache_total : Int)
      · rw [if_pos hfull] at h; cases h
      · rw [if_neg hfull] at h
        by_cases hk : k = 0
        · subst hk
          simp only [if_true, Option.some.injEq] at h
          subst h
          refine ⟨by omega, ?_, rfl, ?_, ?_, ?_, ?_, ?_⟩
          · show st0.sequence_group.generated_ids.getLastD 0 = _
            rw [hlast]; rfl
          · show st0.sequence_group.generated_ids.length = _
            rw [hlen]
          · show st0.position_ids_data + 1 = _
            rw [hpos]; push_cast; omega
          · show st0.attention_mask_data ++ [1] = _
            rw [hmask, show n - 1 + (j + (0 + 1)) = (n - 1 + j) + 1 by omega,
              List.replicate_succ']
          · simp
          · simp [decode_count_append, decode_count, Event.is_decode]
        · rw [if_neg hk] at h
          obtain ⟨f1, f2, f3⟩ := stream_frame w.streamer (sample w
            { st0 with
              input_ids_data := st0.sequence_group.generated_ids.getLastD 0
              position_ids_data := st0.position_ids_data + 1
              attention_mask_data := st0.attention_mask_data ++ [1]
              events := st0.events ++
                [.infer_decode (st0.sequence_group.generated_ids.getLastD 0)
                  (st0.position_ids_data + 1) (st0.attention_mask_data ++ [1]).length] })
          obtain ⟨g1, g2, g3, _⟩ := stream_buffers w.streamer (sample w
            { st0 with
              input_ids_data := st0.sequence_group.generated_ids.getLastD 0
              position_ids_data := st0.position_ids_data + 1
              attention_mask_data := st0.attention_mask_data ++ [1]
              events := st0.events ++
                [.infer_decode (st0.sequence_group.generated_ids.getLastD 0)
                  (st0.position_ids_data + 1) (st0.attention_mask_data ++ [1]).length] })
          have := ih _ st (j + 1) ?_ ?_ ?_ ?_ ?_ h
          · obtain ⟨h1, h2, h3, h4, h5, h6, h7, h8⟩ := this
            refine ⟨by omega, ?_, h3, ?_, ?_, ?_, h7, ?_⟩
            · rw [h2, show j + 1 + k - 1 = j + (k + 1) - 1 by omega]
            · rw [h4]; omega
            · rw [h5]; congr 2; omega
            · rw [h6]; congr 1; omega
            · rw [h8, f3]
              simp [sample, decode_count_append, decode_count, Event.is_decode]
              omega
          · rw [f1]
            show st0.position_ids_data + 1 = _
            rw [hpos]; push_cast; omega
          · rw [g1]
            show st0.attention_mask_data ++ [1] = _
            rw [hmask, show n - 1 + (j + 1) = (n - 1 + j) + 1 by omega, List.replicate_succ']
          · rw [g3]
            show st0.n_samples + 1 = _
            rw [hns]
          · rw [f2]
            show (st0.sequence_group.generated_ids ++ [(w.sampler st0.n_samples).token]).length = _
            rw [List.length_append, hlen]; rfl
          · rw [f2]
            show (st0.sequence_group.generated_ids ++
              [(w.sampler st0.n_samples).token]).getLastD 0 = _
            rw [hns]
            simp
    · rw [if_neg hc] at h; cases h

theorem decode_loop_events_prefix (self : StatefulLLMPipeline) (w : World) :
    ∀ (fuel : Nat) (st st' : GenState),
      decode_loop self w fuel st = some st' → st.events <+: st'.events := by
  intro fuel
  induction fuel with
  | zero =>
    intro st st' h
    unfold decode_loop at h
    split_ifs at h
    cases h
    exact List.prefix_refl _
  | succ fuel ih =>
    intro st st' h
    unfold decode_loop at h
    split_ifs at h
    · cases h
      exact List.prefix_append _ _
    · have h1 := ih _ _ h
      obtain ⟨_, _, _, h2⟩ := stream_buffers w.streamer (sample w
        { st with
          input_ids_data := st.sequence_group.generated_ids.getLastD 0
          position_ids_data := st.position_ids_data + 1
          attention_mask_data := st.attention_mask_data ++ [1]
          events := st.events ++
            [.infer_decode (st.sequence_group.generated_ids.getLastD 0)
              (st.position_ids_data + 1) (st.attention_mask_data ++ [1]).length] })
      refine List.IsPrefix.trans ?_ (h2.trans h1)
      show st.events <+: (st.events ++ [_]) ++ [Event.sample]
      rw [List.append_assoc]
      exact List.prefix_append _ _
    · cases h
      exact List.prefix_refl _

/-- The events up to the `k`-th decode inference are an initial part of the
events of the whole loop. -/
theorem state_at_decode_prefix (self : StatefulLLMPipeline) (w : World) :
    ∀ (k fuel : Nat) (st0 st st' : GenState),
      state_at_decode self w k st0 = some st → decode_loop self w fuel st0 = some st' →
      st.events <+: st'.events := by
  intro k
  induction k with
  | zero => intro fuel st0 st st' h _; simp [state_at_decode] at h
  | succ k ih =>
    intro fuel st0 st st' h hl
    unfold state_at_decode at h
    by_cases hc : loop_condition st0.sequence_group = true
    · rw [if_pos hc] at h
      by_cases hfull : st0.position_ids_data + 1 = (self.m_kvcache_total : Int)
      · rw [if_pos hfull] at h; cases h
      · rw [if_neg hfull] at h
        cases fuel with
        | zero =>
          unfold decode_loop at hl
          rw [if_pos hc] at hl
          cases hl
        | succ fuel =>
          unfold decode_loop at hl
          rw [if_pos hc, if_neg hfull] at hl
          by_cases hk : k = 0
          · subst hk
            simp only [if_true, Option.some.injEq] at h
            subst h
            have h1 := decode_loop_events_prefix self w fuel _ _ hl
            obtain ⟨_, _, _, h2⟩ := stream_buffers w.streamer (sample w
              { st0 with
                input_ids_data := st0.sequence_group.generated_ids.getLastD 0
                position_ids_data := st0.position_ids_data + 1
                attention_mask_data := st0.attention_mask_data ++ [1]
                events := st0.events ++
                  [.infer_decode (st0.sequence_group.generated_ids.getLastD 0)
                    (st0.position_ids_data + 1) (st0.attention_mask_data ++ [1]).length] })
            refine List.IsPrefix.trans ?_ (h2.trans h1)
            exact List.prefix_append _ _
          · rw [if_neg hk] at h
            exact ih fuel _ st st' h hl
    · rw [if_neg hc] at h; cases h

/-- C26: for a prompt of `n ≥ 1` tokens, at the `k`-th decode inference of
`generate` (`k ≥ 1`) the input id is the most recently generated token (the
one the sampler produced in its call number `k - 1`, counted from `0`), the
position id is `n - 1 + k`, and the attention mask is `n - 1 + k` ones, so its
length equals the position id.  The state described is the one at the `k`-th
decode inference: its last event is that inference, it is the `k`-th decode
inference, and its events start the events of the whole loop. -/
theorem C26_decode_inputs (self : StatefulLLMPipeline) (w : World) (n k : Nat) (st : GenState)
    (hn : 1 ≤ n) (h : state_at_decode self w k (loop_entry_state n w) = some st) :
    1 ≤ k ∧
    st.input_ids_data = st.sequence_group.generated_ids.getLastD 0 ∧
    st.input_ids_data = (w.sampler (k - 1)).token ∧
    st.sequence_group.generated_ids.length = k ∧
    st.position_ids_data = (n : Int) - 1 + k ∧
    st.attention_mask_data = List.replicate (n - 1 + k) 1 ∧
    (st.attention_mask_data.length : Int) = st.position_ids_data ∧
    st.events.getLast? =
      some (.infer_decode st.input_ids_data st.position_ids_data st.attention_mask_data.length) ∧
    decode_count st.events = k ∧
    ∀ fuel st', decode_loop self w fuel (loop_entry_state n w) = some st' →
      st.events <+: st'.events := by
  obtain ⟨f1, f2, f3⟩ := stream_frame w.streamer (sample w (prefill_state n))
  obtain ⟨g1, g2, g3, _⟩ := stream_buffers w.streamer (sample w (prefill_state n))
  have hspec := state_at_decode_spec self w n k (loop_entry_state n w) st 0
    (by simp [loop_entry_state, decode_state])
    (by simp [loop_entry_state, decode_state])
    (by show (stream_generated_tokens w.streamer (sample w (prefill_state n))).n_samples = 0 + 1
        rw [g3]; rfl)
    (by show (stream_generated_tokens w.streamer
          (sample w (prefill_state n))).sequence_group.generated_ids.length = 0 + 1
        rw [f2]; rfl)
    (by show (stream_generated_tokens w.streamer
          (sample w (prefill_state n))).sequence_group.generated_ids.getLastD 0 = _
        rw [f2]; rfl)
    h
  obtain ⟨h1, h2, h3, h4, h5, h6, h7, h8⟩ := hspec
  have hcount : decode_count (loop_entry_state n w).events = 0 := by
    show decode_count (stream_generated_tokens w.streamer (sample w (prefill_state n))).events = 0
    rw [f3]
    rfl
  refine ⟨h1, h3, ?_, ?_, ?_, ?_, ?_, h7, ?_, ?_⟩
  · rw [h2, Nat.zero_add]
  · rw [h4, Nat.zero_add]
  · rw [h5, Nat.zero_add]
  · rw [h6, Nat.zero_add]
  · rw [h6, h5, List.length_replicate, Nat.zero_add]
    push_cast
    omega
  · rw [h8, hcount, Nat.zero_add]
  · intro fuel st' hl
    exact state_at_decode_prefix self w k fuel _ st st' h hl

/-- C26 in `endless_world` for a prompt of three tokens: the second decode
inference gets the token `11`, position `4` and a mask of four ones. -/
theorem C26_decode_inputs_witness :
    state_at_decode ⟨1024, 1152⟩ endless_world 2 (loop_entry_state 3 endless_world) =
      some example_decode_state ∧
    example_decode_state.input_ids_data = (endless_world.sampler (2 - 1)).token ∧
    example_decode_state.position_ids_data = (3 : Int) - 1 + 2 ∧
    example_decode_state.attention_mask_data = List.replicate (3 - 1 + 2) 1 :=
  ⟨by decide,
    (C26_decode_inputs ⟨1024, 1152⟩ endless_world 3 2 example_decode_state (by decide)
      (by decide)).2.2.1,
    (C26_decode_inputs ⟨1024, 1152⟩ endless_world 3 2 example_decode_state (by decide)
      (by decide)).2.2.2.2.1,
    (C26_decode_inputs ⟨1024, 1152⟩ endless_world 3 2 example_decode_state (by decide)
      (by decide)).2.2.2.2.2.1⟩

/-! ## The chat history -/

/-- The chat members after `generate_prompt`, by the way the encoded overload
ends. -/
theorem generate_prompt_chat (self : StatefulLLMPipeline) (chat : ChatState)
    (tokenizer : Tokenizer) (prompt : String) (config : GenerationConfig) (w : World)
    (fuel : Nat) (run : TextRun)
    (h : generate_prompt self chat tokenizer prompt config w fuel = some run) :
    (chat.m_is_chat_conversation = false → run.chat.m_history = chat.m_history) ∧
    (chat.m_is_chat_conversation = true →
      (∀ e, run.result = .error e → run.chat.m_history = chat.m_history ++ [("user", prompt)]) ∧
      (∀ res, run.result = .ok res →
        (run.chat.m_chat_generation_finish_status = .CANCEL →
          run.chat.m_history = chat.m_history) ∧
        (run.chat.m_chat_generation_finish_status ≠ .CANCEL →
          ∃ answer, res.texts = [answer] ∧
            run.chat.m_history =
              chat.m_history ++ [("user", prompt), ("assistant", answer)]))) ∧
    run.chat.m_is_chat_conversation = chat.m_is_chat_conversation := by
  unfold generate_prompt at h
  cases hm : chat.m_is_chat_conversation with
  | false =>
    have ht : tokenize_prompt chat tokenizer config prompt =
        (chat, (tokenize_prompt chat tokenizer config prompt).2) := by
      unfold tokenize_prompt
      rw [hm]
      simp only [Bool.false_eq_true, if_false]
      split <;> rfl
    rw [ht] at h
    simp only at h
    cases hg : generate self (tokenize_prompt chat tokenizer config prompt).2 config w fuel with
    | none => rw [hg] at h; cases h
    | some r =>
      rw [hg] at h
      simp only at h
      cases hr : r.result with
      | error e =>
        rw [hr] at h
        simp only [Option.some.injEq] at h
        subst h
        exact ⟨fun _ => rfl, fun hc => Bool.noConfusion hc, hm⟩
      | ok encoded =>
        rw [hr] at h
        simp only [hm, Bool.false_eq_true, if_false, Option.some.injEq] at h
        subst h
        exact ⟨fun _ => rfl, fun hc => Bool.noConfusion hc, rfl⟩
  | true =>
    have ht : tokenize_prompt chat tokenizer config prompt =
        ({ chat with m_history := chat.m_history ++ [("user", prompt)] },
          (tokenize_prompt chat tokenizer config prompt).2) := by
      unfold tokenize_prompt
      rw [hm]
      simp only [if_true]
    rw [ht] at h
    simp only at h
    cases hg : generate self (tokenize_prompt chat tokenizer config prompt).2 config w fuel with
    | none => rw [hg] at h; cases h
    | some r =>
      rw [hg] at h
      simp only at h
      cases hr : r.result with
      | error e =>
        rw [hr] at h
        simp only [Option.some.injEq] at h
        subst h
        refine ⟨fun hc => Bool.noConfusion hc, fun _ => ⟨fun _ _ => rfl, ?_⟩, hm⟩
        intro res hres
        cases hres
      | ok encoded =>
        rw [hr] at h
        simp only [hm, if_true] at h
        by_cases hs : encoded.status = .CANCEL
        · simp only [hs, if_true, Option.some.injEq] at h
          subst h
          refine ⟨fun hc => Bool.noConfusion hc, fun _ => ⟨?_, ?_⟩, rfl⟩
          · intro e he; cases he
          · intro res _
            refine ⟨fun _ => ?_, fun hne => absurd rfl hne⟩
            show (chat.m_history ++ [("user", prompt)]).dropLast = chat.m_history
            simp
        · simp only [hs, if_false, Option.some.injEq] at h
          subst h
          refine ⟨fun hc => Bool.noConfusion hc, fun _ => ⟨?_, ?_⟩, rfl⟩
          · intro e he; cases he
          · intro res hres
            refine ⟨fun hc => absurd hc hs, fun _ => ?_⟩
            obtain rfl : DecodedResults.mk [tokenizer.decode encoded.tokens] = res := by
              simpa using hres
            refine ⟨tokenizer.decode encoded.tokens, rfl, ?_⟩
            show (chat.m_history ++ [("user", prompt)]) ++ [("assistant", _)] = _
            simp

/-- A call that raises an error in chat mode leaves the history as it was when
the inputs are rejected, and otherwise with the user prompt appended. -/
theorem generate_text_error_history (self : StatefulLLMPipeline) (chat : ChatState)
    (tokenizer : Tokenizer) (inputs : StringInputs) (config : GenerationConfig) (w : World)
    (fuel : Nat) (run : TextRun) (e : Exception)
    (h : generate_text self chat tokenizer inputs config w fuel = some run)
    (hchat : chat.m_is_chat_conversation = true) (he : run.result = .error e) :
    match inputs.prompt_of with
    | some prompt => run.chat.m_history = chat.m_history ++ [("user", prompt)]
    | none => run.chat.m_history = chat.m_history := by
  unfold generate_text at h
  match inputs, h with
  | .prompt text, h =>
    exact ((generate_prompt_chat self chat tokenizer text config w fuel run h).2.1 hchat).1 e he
  | .prompts [], h => cases h; rfl
  | .prompts [text], h =>
    exact ((generate_prompt_chat self chat tokenizer text config w fuel run h).2.1 hchat).1 e he
  | .prompts (_ :: _ :: _), h => cases h; rfl

/-- In chat mode, a `generate` call that returns with a finish status
other than `CANCEL` appends two entries to `m_history`, the user prompt and
then the assistant answer, and one that returns with status `CANCEL` leaves
`m_history` as it was before the call; outside chat mode `generate` leaves
`m_history` as it was, however the call ends; `start_chat` appends a system
entry exactly for a non-empty system message and enters chat mode, and
`finish_chat` empties the history and leaves chat mode. -/
theorem chat_history_of_returning_call (self : StatefulLLMPipeline) (chat : ChatState)
    (tokenizer : Tokenizer) (inputs : StringInputs) (config : GenerationConfig) (w : World)
    (fuel : Nat) (run : TextRun)
    (h : generate_text self chat tokenizer inputs config w fuel = some run) :
    (chat.m_is_chat_conversation = true → ∀ res, run.result = .ok res →
      (run.chat.m_chat_generation_finish_status ≠ .CANCEL →
        ∃ prompt answer, inputs.prompt_of = some prompt ∧ res.texts = [answer] ∧
          run.chat.m_history = chat.m_history ++ [("user", prompt), ("assistant", answer)]) ∧
      (run.chat.m_chat_generation_finish_status = .CANCEL →
        run.chat.m_history = chat.m_history)) ∧
    (chat.m_is_chat_conversation = false → run.chat.m_history = chat.m_history) ∧
    run.chat.m_is_chat_conversation = chat.m_is_chat_conversation ∧
    (∀ system_message : String,
      (start_chat chat system_message).m_is_chat_conversation = true ∧
      (system_message ≠ "" →
        (start_chat chat system_message).m_history =
          chat.m_history ++ [("system", system_message)]) ∧
      (system_message = "" → (start_chat chat system_message).m_history = chat.m_history)) ∧
    (finish_chat chat).m_history = [] ∧
    (finish_chat chat).m_is_chat_conversation = false := by
  have hstart : ∀ system_message : String,
      (start_chat chat system_message).m_is_chat_conversation = true ∧
      (system_message ≠ "" →
        (start_chat chat system_message).m_history =
          chat.m_history ++ [("system", system_message)]) ∧
      (system_message = "" → (start_chat chat system_message).m_history = chat.m_history) := by
    intro system_message
    refine ⟨rfl, ?_, ?_⟩
    · intro hne
      simp [start_chat, hne]
    · intro heq
      simp [start_chat, heq]
  unfold generate_text at h
  have hprompt : ∀ text, inputs.prompt_of = some text →
      generate_prompt self chat tokenizer text config w fuel = some run →
      (chat.m_is_chat_conversation = true → ∀ res, run.result = .ok res →
        (run.chat.m_chat_generation_finish_status ≠ .CANCEL →
          ∃ prompt answer, inputs.prompt_of = some prompt ∧ res.texts = [answer] ∧
            run.chat.m_history =
              chat.m_history ++ [("user", prompt), ("assistant", answer)]) ∧
        (run.chat.m_chat_generation_finish_status = .CANCEL →
          run.chat.m_history = chat.m_history)) ∧
      (chat.m_is_chat_conversation = false → run.chat.m_history = chat.m_history) ∧
      run.chat.m_is_chat_conversation = chat.m_is_chat_conversation := by
    intro text htext hgen
    obtain ⟨h1, h2, h3⟩ := generate_prompt_chat self chat tokenizer text config w fuel run hgen
    refine ⟨?_, h1, h3⟩
    intro hchat res hres
    obtain ⟨hcancel, hother⟩ := (h2 hchat).2 res hres
    refine ⟨?_, hcancel⟩
    intro hne
    obtain ⟨answer, ha, hh⟩ := hother hne
    exact ⟨text, answer, htext, ha, hh⟩
  have hreject : run = ⟨[], chat, .error .batch_size⟩ →
      (chat.m_is_chat_conversation = true → ∀ res, run.result = .ok res →
        (run.chat.m_chat_generation_finish_status ≠ .CANCEL →
          ∃ prompt answer, inputs.prompt_of = some prompt ∧ res.texts = [answer] ∧
            run.chat.m_history =
              chat.m_history ++ [("user", prompt), ("assistant", answer)]) ∧
        (run.chat.m_chat_generation_finish_status = .CANCEL →
          run.chat.m_history = chat.m_history)) ∧
      (chat.m_is_chat_conversation = false → run.chat.m_history = chat.m_history) ∧
      run.chat.m_is_chat_conversation = chat.m_is_chat_conversation := by
    intro hrun
    subst hrun
    refine ⟨?_, fun _ => rfl, rfl⟩
    intro _ res hres
    cases hres
  have hmain :
      (chat.m_is_chat_conversation = true → ∀ res, run.result = .ok res →
        (run.chat.m_chat_generation_finish_status ≠ .CANCEL →
          ∃ prompt answer, inputs.prompt_of = some prompt ∧ res.texts = [answer] ∧
            run.chat.m_history =
              chat.m_history ++ [("user", prompt), ("assistant", answer)]) ∧
        (run.chat.m_chat_generation_finish_status = .CANCEL →
          run.chat.m_history = chat.m_history)) ∧
      (chat.m_is_chat_conversation = false → run.chat.m_history = chat.m_history) ∧
      run.chat.m_is_chat_conversation = chat.m_is_chat_conversation := by
    match inputs, h, hprompt, hreject with
    | .prompt text, h, hprompt, _ => exact hprompt text rfl h
    | .prompts [], h, _, hreject => exact hreject (Option.some.inj h).symm
    | .prompts [text], h, hprompt, _ => exact hprompt text rfl h
    | .prompts (_ :: _ :: _), h, _, hreject => exact hreject (Option.some.inj h).symm
  exact ⟨hmain.1, hmain.2.1, hmain.2.2, hstart, rfl, rfl⟩

/-- Two calls in `example_chat`: one that finishes, after which the
history holds the prompt and the answer, and one that the streamer cancels,
after which the history is what it was. -/
theorem chat_history_examples :
    generate_text ⟨1024, 1152⟩ example_chat example_tokenizer (.prompt "Hi") greedy_config
      three_token_world 8 = some example_chat_run ∧
    (∃ prompt answer, StringInputs.prompt_of (.prompt "Hi") = some prompt ∧
      (DecodedResults.mk ["012"]).texts = [answer] ∧
      example_chat_run.chat.m_history =
        example_chat.m_history ++ [("user", prompt), ("assistant", answer)]) ∧
    generate_text ⟨1024, 1152⟩ example_chat example_tokenizer (.prompt "Hi") greedy_config
      cancelling_world 8 = some example_cancelled_chat_run ∧
    example_cancelled_chat_run.chat.m_history = example_chat.m_history :=
  ⟨by decide,
    ((chat_history_of_returning_call ⟨1024, 1152⟩ example_chat example_tokenizer (.prompt "Hi") greedy_config
      three_token_world 8 example_chat_run (by decide)).1 rfl ⟨["012"]⟩ rfl).1 (by decide),
    by decide,
    ((chat_history_of_returning_call ⟨1024, 1152⟩ example_chat example_tokenizer (.prompt "Hi") greedy_config
      cancelling_world 8 example_cancelled_chat_run (by decide)).1 rfl ⟨["012"]⟩ rfl).2 rfl⟩

/-- C30, evaluated at calls in chat mode that throw after the user prompt was
pushed: with a prompt capacity of four tokens the templated prompt of
`example_chat` and `"Hi"` is too long, and a beam-search configuration is
rejected; the call ends without the status `CANCEL` and `m_history` has grown
by one entry, the user prompt, not by two.  After a cancelled call, whose
status `CANCEL` is still stored, the throwing call leaves the user prompt in
the history as well. -/
theorem C30_throwing_call_keeps_prompt :
    example_chat = ⟨true, [("system", "Be brief")], .RUNNING⟩ ∧
    generate_text ⟨4, 8⟩ example_chat example_tokenizer (.prompt "Hi") greedy_config
        three_token_world 8 =
      some ⟨[], ⟨true, [("system", "Be brief"), ("user", "Hi")], .RUNNING⟩,
        .error (.prompt_too_long 4)⟩ ∧
    generate_text ⟨1024, 1152⟩ example_chat example_tokenizer (.prompt "Hi") beam_search_config
        three_token_world 8 =
      some ⟨[], ⟨true, [("system", "Be brief"), ("user", "Hi")], .RUNNING⟩,
        .error .unsupported_decoding⟩ ∧
    example_cancelled_chat_run.chat = ⟨true, [("system", "Be brief")], .CANCEL⟩ ∧
    generate_text ⟨4, 8⟩ example_cancelled_chat_run.chat example_tokenizer (.prompt "Hi")
        greedy_config three_token_world 8 =
      some ⟨[], ⟨true, [("system", "Be brief"), ("user", "Hi")], .CANCEL⟩,
        .error (.prompt_too_long 4)⟩ := by
  refine ⟨?_, ?_, ?_, ?_, ?_⟩ <;> decide

/-! ## Zero-point alignment -/

theorem land_15 (n : Nat) : n &&& 15 = n % 16 :=
  Nat.and_pow_two_sub_one_eq_mod n 4

/-- C25: `align_u4_zp_constants` hands the consumers of every `u4` constant
with exactly one element a `u4` constant of the same shape whose value is the
old value bitwise-and `0x0f`, which is below `16` and is the old value when
that was below `16`; a constant of another element type or with another
number of elements, and any other operation, is handed on as it is.  The
operations keep their order. -/
theorem C25_align_u4_zp_constants (ops : List Node) :
    (align_u4_zp_constants ops).length = ops.length ∧
    ∀ (i : Nat) (op : Node), ops[i]? = some op →
      ∃ op' : Node, (align_u4_zp_constants ops)[i]? = some op' ∧
        (∀ (shape : List Nat) (values : List Scalar) (v : Nat),
          op = .Constant .u4 shape values → shape_size shape = 1 →
          (values.map to_uint8)[0]? = some v →
          op' = .Constant .u4 shape [.num ((v &&& 0x0f : Nat) : Int)] ∧
          v &&& 0x0f < 16 ∧
          (v < 16 → op' = .Constant .u4 shape [.num (v : Int)])) ∧
        (∀ (element_type : ElementType) (shape : List Nat) (values : List Scalar),
          op = .Constant element_type shape values →
          element_type ≠ .u4 ∨ shape_size shape ≠ 1 → op' = op) ∧
        ((∀ (element_type : ElementType) (shape : List Nat) (values : List Scalar),
            op ≠ .Constant element_type shape values) →
          op' = op) := by
  refine ⟨by simp [align_u4_zp_constants], ?_⟩
  intro i op hop
  refine ⟨align_u4_zp_constant op, by simp [align_u4_zp_constants, hop], ?_, ?_, ?_⟩
  · intro shape values v hc hsize hv
    subst hc
    have hget : (values.map to_uint8).getD 0 0 = v := by
      rw [List.getD_eq_getElem?_getD, hv]
      rfl
    have hlt : v &&& 0x0f < 16 := by
      rw [land_15]
      exact Nat.mod_lt _ (by decide)
    have hval : align_u4_zp_constant (.Constant .u4 shape values) =
        .Constant .u4 shape [.num ((v &&& 0x0f : Nat) : Int)] := by
      simp only [align_u4_zp_constant, hsize, and_self, if_true, hget]
    refine ⟨hval, hlt, ?_⟩
    intro hv16
    rw [hval, land_15, Nat.mod_eq_of_lt hv16]
  · intro element_type shape values hc hor
    subst hc
    have hn : ¬ (element_type = .u4 ∧ shape_size shape = 1) := by
      rintro ⟨h1, h2⟩
      rcases hor with h | h
      · exact h h1
      · exact h h2
    simp only [align_u4_zp_constant, hn, if_false]
  · intro hnc
    cases op with
    | Constant element_type shape values => exact absurd rfl (hnc element_type shape values)
    | _ => rfl

/-- C25 on `example_constants`: the byte `0x1f` becomes `15`, the zero point
`7` stays, and the other two constants are handed on as they are. -/
theorem C25_align_u4_zp_constants_witness :
    align_u4_zp_constants example_constants =
      [.Constant .u4 [] [.num 15], .Constant .u4 [1, 1] [.num 7],
       .Constant .u4 [2] [.num 31, .num 3], .Constant .i32 [] [.num 31]] ∧
    (align_u4_zp_constants example_constants).length = example_constants.length :=
  ⟨by decide, (C25_align_u4_zp_constants example_constants).1⟩

/-! ## Slices on the cache inputs -/

theorem cast_int32_of_lt (n : Nat) (h : n < 2 ^ 31) : cast_int32 n = n := by
  have h1 : n % 2 ^ 32 = n := Nat.mod_eq_of_lt (by omega)
  unfold cast_int32
  rw [h1, if_pos h]

theorem slice_extent_drop_first (d : Nat) : slice_extent (d + 1) 1 ((d + 1 : Nat) : Int) 1 = d := by
  unfold slice_extent
  simp only
  have h1 : ¬ (((d + 1 : Nat) : Int) < 0) := by omega
  have h2 : ¬ ((1 : Int) < 0) := by omega
  rw [if_neg h1, if_neg h2]
  have h3 : min ((d + 1 : Nat) : Int) ((d + 1 : Nat) : Int) = ((d + 1 : Nat) : Int) := min_self _
  have h4 : min ((d + 1 : Nat) : Int) 1 = 1 := by omega
  rw [h3, h4]
  have h5 : max (0 : Int) ((d + 1 : Nat) : Int) = ((d + 1 : Nat) : Int) := by omega
  have h6 : max (0 : Int) 1 = 1 := by omega
  rw [h5, h6]
  simp

theorem slice_extent_drop_first_cast (d : Nat) : slice_extent (d + 1) 1 ((d : Int) + 1) 1 = d := by
  have h := slice_extent_drop_first d
  rwa [Nat.cast_succ] at h

theorem slice_first_one (d : Nat) : slice_first (d + 1) 1 = 1 := by
  unfold slice_first
  have h2 : ¬ ((1 : Int) < 0) := by omega
  rw [if_neg h2]
  have h4 : min ((d + 1 : Nat) : Int) 1 = 1 := by omega
  rw [h4]
  rfl

/-- The loop body on a cache parameter of static shape `[d0, d1, d2, d3]`
whose extent `d2 + 1` fits an `int32_t`. -/
theorem add_slice_to_kvcache_input_cache
    (get_any_name : List String → Except Exception String)
    (friendly_name tensor_name : String) (names : List String) (element_type : ElementType)
    (d0 d1 d2 d3 : Nat) (hname : get_any_name names = .ok tensor_name)
    (hkv : contains tensor_name "past_key_values" = true) (hd : d2 + 1 < 2 ^ 31) :
    add_slice_to_kvcache_input get_any_name
      (.Parameter friendly_name names element_type
        [.static d0, .static d1, .static d2, .static d3]) =
      .ok (.Parameter tensor_name names element_type
            [.static d0, .static d1, .static (d2 + 1), .static d3],
          .slice (.Parameter tensor_name names element_type
              [.static d0, .static d1, .static (d2 + 1), .static d3])
            (const_i32_vector 1) (const_i32_vector ((d2 + 1 : Nat) : Int)) (const_i32_vector 1)
            (const_i32_vector 2) (tensor_name ++ "_Slice")) := by
  have hlt : d2 + 1 < 18446744073709551616 := by omega
  have hmod : (d2 + 1) % 18446744073709551616 = d2 + 1 := Nat.mod_eq_of_lt hlt
  have hcast : cast_int32 (d2 + 1) = ((d2 + 1 : Nat) : Int) := cast_int32_of_lt _ hd
  simp [add_slice_to_kvcache_input, hname, hkv, get_output_shape, hmod, hcast, hlt]

/-- The loop body on a parameter whose tensor name does not contain
`past_key_values`. -/
theorem add_slice_to_kvcache_input_other
    (get_any_name : List String → Except Exception String)
    (friendly_name tensor_name : String) (names : List String) (element_type : ElementType)
    (partial_shape : PartialShape) (hname : get_any_name names = .ok tensor_name)
    (hkv : contains tensor_name "past_key_values" = false) :
    add_slice_to_kvcache_input get_any_name
      (.Parameter friendly_name names element_type partial_shape) =
      .ok (.Parameter friendly_name names element_type partial_shape,
        .parameter (.Parameter friendly_name names element_type partial_shape)) := by
  simp [add_slice_to_kvcache_input, hname, hkv]

/-- The returned list follows the parameters one by one, in order. -/
theorem add_slices_pointwise (get_any_name : List String → Except Exception String) :
    ∀ (parameters : List Node) (result : List (Node × Source)),
      add_slices_to_kvcache_inputs get_any_name parameters = .ok result →
      result.length = parameters.length ∧
      ∀ (i : Nat) (param : Node), parameters[i]? = some param →
        ∃ r, result[i]? = some r ∧ add_slice_to_kvcache_input get_any_name param = .ok r := by
  intro parameters
  induction parameters with
  | nil =>
    intro result h
    cases h
    exact ⟨rfl, fun i param hi => by simp at hi⟩
  | cons p rest ih =>
    intro result h
    unfold add_slices_to_kvcache_inputs at h
    cases h1 : add_slice_to_kvcache_input get_any_name p with
    | error e => rw [h1] at h; cases h
    | ok r1 =>
      rw [h1] at h
      simp only at h
      cases h2 : add_slices_to_kvcache_inputs get_any_name rest with
      | error e => rw [h2] at h; cases h
      | ok rs =>
        rw [h2] at h
        cases h
        obtain ⟨hl, hp⟩ := ih rs h2
        refine ⟨by simp [hl], ?_⟩
        intro i param hi
        cases i with
        | zero =>
          simp only [List.getElem?_cons_zero, Option.some.injEq] at hi
          subst hi
          exact ⟨r1, by simp, h1⟩
        | succ i =>
          simp only [List.getElem?_cons_succ] at hi ⊢
          exact hp i param hi

/-- The `Slice` that the consumers of a cache parameter read has the shape the
parameter had, and its element at position `c` of axis 2 is the element of the
new parameter at position `c + 1`. -/
theorem slice_drops_first {α : Type} (tensor_name : String) (names : List String)
    (element_type : ElementType) (d0 d1 d2 d3 : Nat) (value : Tensor α)
    (hvalue : value.shape = [d0, d1, d2 + 1, d3]) :
    (Source.slice (.Parameter tensor_name names element_type
          [.static d0, .static d1, .static (d2 + 1), .static d3])
        (const_i32_vector 1) (const_i32_vector ((d2 + 1 : Nat) : Int)) (const_i32_vector 1)
        (const_i32_vector 2) (tensor_name ++ "_Slice")).get_shape = some [d0, d1, d2, d3] ∧
    ∃ t, (Source.slice (.Parameter tensor_name names element_type
          [.static d0, .static d1, .static (d2 + 1), .static d3])
        (const_i32_vector 1) (const_i32_vector ((d2 + 1 : Nat) : Int)) (const_i32_vector 1)
        (const_i32_vector 2) (tensor_name ++ "_Slice")).read value = some t ∧
      t.shape = [d0, d1, d2, d3] ∧
      ∀ a b c d, t.data [a, b, c, d] = value.data [a, b, c + 1, d] := by
  constructor
  · simp [Source.get_shape, const_i32_vector, get_output_shape, Except.toOption,
      slice_extent_drop_first_cast]
  · have hread : (Source.slice (.Parameter tensor_name names element_type
          [.static d0, .static d1, .static (d2 + 1), .static d3])
        (const_i32_vector 1) (const_i32_vector ((d2 + 1 : Nat) : Int)) (const_i32_vector 1)
        (const_i32_vector 2) (tensor_name ++ "_Slice")).read value =
        some
          { shape := value.shape.set 2
              (slice_extent (value.shape.getD 2 0) 1 ((d2 + 1 : Nat) : Int) 1)
            data := fun idx =>
              value.data (idx.set 2 (slice_first (value.shape.getD 2 0) 1 + idx.getD 2 0 * 1)) } := by
      have hc : (0 : Int) < 1 ∧ (0 : Int) ≤ 2 ∧ (2 : Int).toNat < value.shape.length := by
        rw [hvalue]
        simp
      simp only [Source.read, const_i32_vector]
      rw [if_pos hc]
      rfl
    refine ⟨_, hread, ?_, ?_⟩
    · simp [hvalue, slice_extent_drop_first_cast]
    · intro a b c d
      simp [hvalue, slice_first_one]
      congr 1
      simp
      omega

/-- C24 fails for a cache of `2 ^ 31 - 1` positions: the new extent
`2147483648` does not fit the `i32` stop constant, which becomes
`-2147483648`, and the `Slice` is empty along axis 2 instead of having the
shape `[1, 1, 2147483647, 1]` of the original parameter. -/
theorem C24_counterexample_stop_overflow :
    (add_slices_to_kvcache_inputs first_name huge_cache_parameters).map
      (fun r => r.map (fun p => (p.2, p.2.get_shape))) =
      .ok [(.slice (.Parameter "past_key_values.0.value" ["past_key_values.0.value"] .f16
                [.static 1, .static 1, .static 2147483648, .static 1])
              (const_i32_vector 1) (const_i32_vector (-2147483648)) (const_i32_vector 1)
              (const_i32_vector 2) "past_key_values.0.value_Slice", some [1, 1, 0, 1])] ∧
    const_i32_vector (-2147483648) ≠ const_i32_vector (2147483647 + 1) ∧
    [1, 1, 0, 1] ≠ [1, 1, 2147483647, 1] := by
  refine ⟨?_, ?_, ?_⟩ <;> decide

/-- C24, amended: when `add_slices_to_kvcache_inputs` returns, the returned
model has one parameter for each parameter of the model, in the same order.
For a parameter whose tensor name contains `past_key_values` and whose static
shape is `[d0, d1, d2, d3]` with `d2 + 1 < 2 ^ 31`, the new parameter has
shape `[d0, d1, d2 + 1, d3]`, the same element type and the same tensor names,
and the former consumers read a `Slice` of it on axis 2 from `1` to `d2 + 1`
with step `1`, whose shape is `[d0, d1, d2, d3]` and whose element at
position `c` of axis 2 is the element of the new parameter at `c + 1`.  A
parameter whose tensor name does not contain `past_key_values` is kept, and
its consumers read it as before. -/
theorem C24_add_slices_to_kvcache_inputs
    (get_any_name : List String → Except Exception String) (parameters : List Node)
    (result : List (Node × Source))
    (h : add_slices_to_kvcache_inputs get_any_name parameters = .ok result) :
    result.length = parameters.length ∧
    ∀ (i : Nat) (friendly_name tensor_name : String) (names : List String)
      (element_type : ElementType) (partial_shape : PartialShape),
      parameters[i]? = some (.Parameter friendly_name names element_type partial_shape) →
      get_any_name names = .ok tensor_name →
      (∀ d0 d1 d2 d3 : Nat, contains tensor_name "past_key_values" = true →
        partial_shape = [.static d0, .static d1, .static d2, .static d3] →
        d2 + 1 < 2 ^ 31 →
        ∃ source,
          result[i]? = some (.Parameter tensor_name names element_type
            [.static d0, .static d1, .static (d2 + 1), .static d3], source) ∧
          source = .slice (.Parameter tensor_name names element_type
              [.static d0, .static d1, .static (d2 + 1), .static d3])
            (const_i32_vector 1) (const_i32_vector ((d2 + 1 : Nat) : Int))
            (const_i32_vector 1) (const_i32_vector 2) (tensor_name ++ "_Slice") ∧
          source.get_shape = some [d0, d1, d2, d3] ∧
          ∀ value : Tensor Int, value.shape = [d0, d1, d2 + 1, d3] →
            ∃ t, source.read value = some t ∧ t.shape = [d0, d1, d2, d3] ∧
              ∀ a b c d, t.data [a, b, c, d] = value.data [a, b, c + 1, d]) ∧
      (contains tensor_name "past_key_values" = false →
        result[i]? = some (.Parameter friendly_name names element_type partial_shape,
          .parameter (.Parameter friendly_name names element_type partial_shape))) := by
  obtain ⟨hlen, hpoint⟩ := add_slices_pointwise get_any_name parameters result h
  refine ⟨hlen, ?_⟩
  intro i friendly_name tensor_name names element_type partial_shape hi hname
  obtain ⟨r, hr, hbody⟩ := hpoint i _ hi
  constructor
  · intro d0 d1 d2 d3 hkv hshape hd
    subst hshape
    rw [add_slice_to_kvcache_input_cache get_any_name friendly_name tensor_name names element_type
      d0 d1 d2 d3 hname hkv hd] at hbody
    obtain rfl := Except.ok.inj hbody
    refine ⟨_, hr, rfl, ?_, ?_⟩
    · exact (slice_drops_first (α := Int) tensor_name names element_type d0 d1 d2 d3
        ⟨[d0, d1, d2 + 1, d3], fun _ => 0⟩ rfl).1
    · intro value hvalue
      exact (slice_drops_first tensor_name names element_type d0 d1 d2 d3 value hvalue).2
  · intro hkv
    rw [add_slice_to_kvcache_input_other get_any_name friendly_name tensor_name names element_type
      partial_shape hname hkv] at hbody
    obtain rfl := Except.ok.inj hbody
    exact hr

/-- C24 (amended) on `example_parameters`: the cache of shape `[1, 2, 3, 4]`
becomes a parameter of shape `[1, 2, 4, 4]` read through a `Slice` whose shape
is `[1, 2, 3, 4]`, and `input_ids` is kept. -/
theorem C24_add_slices_witness :
    add_slices_to_kvcache_inputs first_name example_parameters =
      .ok example_sliced_parameters ∧
    (∃ source : Source,
      example_sliced_parameters[1]? =
        some (.Parameter "past_key_values.0.value" ["past_key_values.0.value"] .f16
          [.static 1, .static 2, .static (3 + 1), .static 4], source) ∧
      source.get_shape = some [1, 2, 3, 4]) ∧
    example_sliced_parameters[0]? =
      some (.Parameter "input_ids" ["input_ids"] .i64 [.static 1, .static 1],
        .parameter (.Parameter "input_ids" ["input_ids"] .i64 [.static 1, .static 1])) :=
  ⟨by decide,
    (((C24_add_slices_to_kvcache_inputs first_name example_parameters example_sliced_parameters
      (by decide)).2 1 "Parameter_7" "past_key_values.0.value" ["past_key_values.0.value"] .f16
      [.static 1, .static 2, .static 3, .static 4] (by decide) rfl).1 1 2 3 4 (by decide) rfl
      (by decide)).elim (fun source hs => ⟨source, hs.1, hs.2.2.1⟩),
    ((C24_add_slices_to_kvcache_inputs first_name example_parameters example_sliced_parameters
      (by decide)).2 0 "input_ids" "input_ids" ["input_ids"] .i64 [.static 1, .static 1]
      (by decide) rfl).2 (by decide)⟩

/-! ## `optimize_value_tensors` -/

end StaticLLM
